import Mathlib

/-!
# Time Hub (scripts.js): clock, Pomodoro, countdown timer and stopwatch

A shallow embedding of `src/scripts.js`.

* Module-level variables become the fields of `State`.
* `Date.now()` becomes an explicit clock reading `now : Int` (milliseconds).
* `setInterval` / `clearInterval` become a registry of live intervals
  (`State.intervals`): every registered interval has a numeric handle and the
  closure it runs.  A tick is the firing of one live handle (`fire`).
* DOM writes (text content, class toggles, the lap list markup) and the chime are
  not state; the three countdown input fields are, because `setTimer` reads them.
* Numbers are exact integers.  A JavaScript number is an IEEE-754 double: it holds
  every integer of absolute value up to 2^53 (`exactLimit`) exactly and rounds
  beyond.  Clock readings and the durations derived from them stay far below that.
  The three countdown fields are free text and can hold a longer digit run; there
  the code's `parseInt` returns a rounded double or `Infinity`, where `parseInt`
  below returns the integer the digits denote.  Every statement about the numeric
  value read from a field therefore carries the bound `exactLimit` as a hypothesis.
-/

namespace TimeHub

/-! ## Constants (scripts.js 5-8) -/

/-- `DURATION_WORK = 25 * 60 * 1000`. -/
def DURATION_WORK : Int := 25 * 60 * 1000

/-- `DURATION_BREAK = 5 * 60 * 1000`. -/
def DURATION_BREAK : Int := 5 * 60 * 1000

/-- `DURATION_LONG_BREAK = 15 * 60 * 1000`. -/
def DURATION_LONG_BREAK : Int := 15 * 60 * 1000

/-- `LAPS_PER_LONG_BREAK = 4`. -/
def LAPS_PER_LONG_BREAK : Nat := 4

/-! ## Data model -/

/-- The values of `pomodoroCycle`: `'work' | 'break' | 'longBreak'`
(`break_` stands for the string `'break'`). -/
inductive Cycle where
  | work
  | break_
  | longBreak
  deriving DecidableEq, Repr

/-- The four closures the program hands to `setInterval`.  The Pomodoro and the
countdown closure capture the local `expectedEndTime` of the call that created
them; the stopwatch closure reads the global `stopwatchStartTime`. -/
inductive Callback where
  | updateClock
  | pomodoroTick (expectedEndTime : Int)
  | timerTick (expectedEndTime : Int)
  | stopwatchTick
  deriving DecidableEq, Repr

/-- The object literal built in `lapStopwatch`: `{ id, durationMs, totalMs }`. -/
structure LapEntry where
  id : Nat
  durationMs : Int
  totalMs : Int
  deriving DecidableEq, Repr

/-- The module-level variables of scripts.js (22-51), the `value` of the three
countdown input fields, and the browser's interval registry. -/
structure State where
  currentMode : String
  clockInterval : Option Nat
  pomodoroInterval : Option Nat
  pomodoroRemainingTime : Int
  pomodoroIsRunning : Bool
  pomodoroCycle : Cycle
  pomodoroWorkLaps : Nat
  timerInterval : Option Nat
  timerTotalDuration : Int
  timerRemainingTime : Int
  timerIsRunning : Bool
  stopwatchInterval : Option Nat
  stopwatchStartTime : Int
  stopwatchElapsedTime : Int
  stopwatchIsRunning : Bool
  stopwatchLapCount : Nat
  stopwatchLapTimes : List LapEntry
  timerHours : String
  timerMinutes : String
  timerSeconds : String
  nextIntervalId : Nat
  intervals : List (Nat × Callback)
  deriving DecidableEq, Repr

/-- The state right after the script has been loaded (scripts.js 22-51): no
interval exists yet, the input fields are taken as empty. -/
def initialState : State where
  currentMode := "clock"
  clockInterval := none
  pomodoroInterval := none
  pomodoroRemainingTime := DURATION_WORK
  pomodoroIsRunning := false
  pomodoroCycle := Cycle.work
  pomodoroWorkLaps := 0
  timerInterval := none
  timerTotalDuration := 0
  timerRemainingTime := 0
  timerIsRunning := false
  stopwatchInterval := none
  stopwatchStartTime := 0
  stopwatchElapsedTime := 0
  stopwatchIsRunning := false
  stopwatchLapCount := 0
  stopwatchLapTimes := []
  timerHours := ""
  timerMinutes := ""
  timerSeconds := ""
  nextIntervalId := 1
  intervals := []

/-! ## The interval registry -/

/-- `setInterval(cb, _)`: registers `cb` under a fresh handle.  The handle the
call returns is the value of `nextIntervalId` before the call. -/
def setInterval (s : State) (cb : Callback) : State :=
  { s with
    intervals := (s.nextIntervalId, cb) :: s.intervals
    nextIntervalId := s.nextIntervalId + 1 }

/-- `clearInterval(h)`: cancels the interval with handle `h`; `null` and dead
handles are ignored. -/
def clearInterval (s : State) (h : Option Nat) : State :=
  match h with
  | none => s
  | some id => { s with intervals := s.intervals.filter (fun p => p.1 != id) }

/-- The closure registered under `id`, when that interval is live. -/
def liveCallback (s : State) (id : Nat) : Option Callback :=
  s.intervals.lookup id

/-! ## 1. Clock (scripts.js 185-188) -/

/-- `startClock()`: `updateClock()` only writes to the DOM; then
`clockInterval = setInterval(updateClock, 1000)`. -/
def startClock (s : State) : State :=
  let id := s.nextIntervalId
  let s1 := setInterval s Callback.updateClock
  { s1 with clockInterval := some id }

/-! ## 2. Pomodoro (scripts.js 221-282) -/

/-- `startPomodoro()` (221-244). -/
def startPomodoro (s : State) (now : Int) : State :=
  if s.pomodoroIsRunning then s
  else
    let s1 := { s with pomodoroIsRunning := true }
    let startTime := now
    let expectedEndTime := startTime + s1.pomodoroRemainingTime
    let id := s1.nextIntervalId
    let s2 := setInterval s1 (Callback.pomodoroTick expectedEndTime)
    { s2 with pomodoroInterval := some id }

/-- `pausePomodoro(silent)` (246-252); `silent` only guards a log line. -/
def pausePomodoro (s : State) : State :=
  if !s.pomodoroIsRunning then s
  else
    let s1 := clearInterval s s.pomodoroInterval
    { s1 with pomodoroIsRunning := false }

/-- `resetPomodoro()` (254-262). -/
def resetPomodoro (s : State) : State :=
  let s1 := clearInterval s s.pomodoroInterval
  { s1 with
    pomodoroIsRunning := false
    pomodoroRemainingTime := DURATION_WORK
    pomodoroCycle := Cycle.work
    pomodoroWorkLaps := 0 }

/-- `handlePomodoroCompletion()` (264-282); `now` is the clock reading the
nested `startPomodoro()` call would take. -/
def handlePomodoroCompletion (s : State) (now : Int) : State :=
  let s1 :=
    if s.pomodoroCycle = Cycle.work then
      let s2 := { s with pomodoroWorkLaps := s.pomodoroWorkLaps + 1 }
      if s2.pomodoroWorkLaps % LAPS_PER_LONG_BREAK = 0 then
        { s2 with pomodoroCycle := Cycle.longBreak, pomodoroRemainingTime := DURATION_LONG_BREAK }
      else
        { s2 with pomodoroCycle := Cycle.break_, pomodoroRemainingTime := DURATION_BREAK }
    else
      { s with pomodoroCycle := Cycle.work, pomodoroRemainingTime := DURATION_WORK }
  startPomodoro s1 now

/-- The closure passed to `setInterval` in `startPomodoro` (229-242).  `now` is
the reading taken by the closure, `now2` the one a nested `startPomodoro()`
takes. -/
def pomodoroTick (expectedEndTime : Int) (s : State) (now now2 : Int) : State :=
  let s1 := { s with pomodoroRemainingTime := expectedEndTime - now }
  if s1.pomodoroRemainingTime ≤ 0 then
    let s2 := clearInterval s1 s1.pomodoroInterval
    let s3 := { s2 with pomodoroRemainingTime := 0 }
    handlePomodoroCompletion s3 now2
  else s1

/-- `adjustPomodoroTime(delta)` (484-490); `Math.floor(x / 60000)` is floor
division, which is `/` on `Int` for a positive divisor. -/
def adjustPomodoroTime (s : State) (delta : Int) : State :=
  let minutes := s.pomodoroRemainingTime / (60 * 1000)
  let newMinutes := minutes + delta
  let newMinutes := max 1 (min 60 newMinutes)
  { s with pomodoroRemainingTime := newMinutes * 60 * 1000 }

/-! ## 3. Countdown timer (scripts.js 309-369) -/

/-- `StrWhiteSpaceChar` of ECMAScript: the characters `parseInt` skips at the
start of its argument. -/
def isStrWhiteSpaceChar (c : Char) : Bool :=
  let n := c.toNat
  n = 0x09 || n = 0x0A || n = 0x0B || n = 0x0C || n = 0x0D || n = 0x20 ||
  n = 0xA0 || n = 0x1680 || (0x2000 ≤ n && n ≤ 0x200A) || n = 0x2028 ||
  n = 0x2029 || n = 0x202F || n = 0x205F || n = 0x3000 || n = 0xFEFF

/-- The value of `c` as a digit in base `radix`, if it is one. -/
def radixDigit (radix : Nat) (c : Char) : Option Nat :=
  let v : Option Nat :=
    if '0' ≤ c ∧ c ≤ '9' then some (c.toNat - '0'.toNat)
    else if 'a' ≤ c ∧ c ≤ 'z' then some (c.toNat - 'a'.toNat + 10)
    else if 'A' ≤ c ∧ c ≤ 'Z' then some (c.toNat - 'A'.toNat + 10)
    else none
  match v with
  | some d => if d < radix then some d else none
  | none => none

/-- The integer denoted by a run of base-`radix` digits. -/
def digitsValue (radix : Nat) (ds : List Char) : Nat :=
  ds.foldl (fun acc c => acc * radix + (radixDigit radix c).getD 0) 0

/-- The bound 2^53 = 9007199254740992: every integer of absolute value at most
`exactLimit` is a JavaScript number (an IEEE-754 double), and sums and products of
such integers whose result is again within the bound are computed exactly. -/
def exactLimit : Int := 9007199254740992

/-- ECMAScript `parseInt(string)` with no radix argument: skip leading white
space, read an optional sign, an optional `0x`/`0X`, then the longest run of
digits; `none` is `NaN` (no digit read).  `-0` is `0`.

The result is the mathematical integer of the algorithm (sign times the value of the
digit run).  The code returns that integer converted to a double: the same number
when its absolute value is at most `exactLimit`, and otherwise the nearest double
("9007199254740993" gives 9007199254740992) or, from about 1.8 * 10^308 on (a run
of some 309 digits), `Infinity`.  Whether the result is `NaN`, zero or non-zero,
and its sign, are the same in both. -/
def parseInt (str : String) : Option Int :=
  let s0 := str.toList.dropWhile isStrWhiteSpaceChar
  let signed : Int × List Char :=
    match s0 with
    | '-' :: r => (-1, r)
    | '+' :: r => (1, r)
    | _ => (1, s0)
  let based : Nat × List Char :=
    match signed.2 with
    | '0' :: 'x' :: r => (16, r)
    | '0' :: 'X' :: r => (16, r)
    | _ => (10, signed.2)
  let z := based.2.takeWhile (fun c => (radixDigit based.1 c).isSome)
  if z.isEmpty then none else some (signed.1 * (digitsValue based.1 z : Int))

/-- `Math.abs(Math.floor(parseInt(v) || 0))` (311-313): `NaN || 0` and `0 || 0`
are `0`, `Math.floor` is the identity on the integer `parseInt` returns.

This is the number the code computes whenever it is at most `exactLimit`; a longer
digit run gives a rounded double or `Infinity` in the code (see `parseInt`).  It is
zero exactly when the code's value is zero. -/
def coerceField (v : String) : Int :=
  let parsed : Int := (parseInt v).getD 0
  |parsed|

/-- `setTimer()` (309-327).  The stored duration is the one the code stores whenever
`(h * 3600 + m * 60 + s) * 1000` is at most `exactLimit` (every intermediate value
is then an exactly represented integer); the zero test is the code's for every
field content. -/
def setTimer (s : State) : State :=
  let h := coerceField s.timerHours
  let m := coerceField s.timerMinutes
  let sec := coerceField s.timerSeconds
  if h = 0 ∧ m = 0 ∧ sec = 0 then s
  else
    let totalMs := (h * 3600 + m * 60 + sec) * 1000
    { s with
      timerTotalDuration := totalMs
      timerRemainingTime := totalMs
      timerHours := "0"
      timerMinutes := "0"
      timerSeconds := "0" }

/-- `startTimer()` (329-352). -/
def startTimer (s : State) (now : Int) : State :=
  if s.timerIsRunning ∨ s.timerRemainingTime ≤ 0 then s
  else
    let s1 := { s with timerIsRunning := true }
    let startTime := now
    let expectedEndTime := startTime + s1.timerRemainingTime
    let id := s1.nextIntervalId
    let s2 := setInterval s1 (Callback.timerTick expectedEndTime)
    { s2 with timerInterval := some id }

/-- The closure passed to `setInterval` in `startTimer` (336-350). -/
def timerTick (expectedEndTime : Int) (s : State) (now : Int) : State :=
  let s1 := { s with timerRemainingTime := expectedEndTime - now }
  if s1.timerRemainingTime ≤ 0 then
    let s2 := clearInterval s1 s1.timerInterval
    { s2 with timerRemainingTime := 0, timerIsRunning := false }
  else s1

/-- `pauseTimer(silent)` (354-360). -/
def pauseTimer (s : State) : State :=
  if !s.timerIsRunning then s
  else
    let s1 := clearInterval s s.timerInterval
    { s1 with timerIsRunning := false }

/-- `resetTimer()` (362-369). -/
def resetTimer (s : State) : State :=
  let s1 := clearInterval s s.timerInterval
  { s1 with timerIsRunning := false, timerTotalDuration := 0, timerRemainingTime := 0 }

/-! ## 4. Stopwatch (scripts.js 389-442) -/

/-- `startStopwatch()` (389-401). -/
def startStopwatch (s : State) (now : Int) : State :=
  if s.stopwatchIsRunning then s
  else
    let s1 := { s with stopwatchIsRunning := true }
    let s2 := { s1 with stopwatchStartTime := now - s1.stopwatchElapsedTime }
    let id := s2.nextIntervalId
    let s3 := setInterval s2 Callback.stopwatchTick
    { s3 with stopwatchInterval := some id }

/-- The closure passed to `setInterval` in `startStopwatch` (396-399). -/
def stopwatchTick (s : State) (now : Int) : State :=
  { s with stopwatchElapsedTime := now - s.stopwatchStartTime }

/-- `pauseStopwatch(silent)` (403-409). -/
def pauseStopwatch (s : State) : State :=
  if !s.stopwatchIsRunning then s
  else
    let s1 := clearInterval s s.stopwatchInterval
    { s1 with stopwatchIsRunning := false }

/-- `resetStopwatch()` (411-421). -/
def resetStopwatch (s : State) : State :=
  let s1 := clearInterval s s.stopwatchInterval
  { s1 with
    stopwatchIsRunning := false
    stopwatchElapsedTime := 0
    stopwatchLapCount := 0
    stopwatchLapTimes := [] }

/-- `lapStopwatch()` (423-442); `unshift` puts the entry at the front. -/
def lapStopwatch (s : State) : State :=
  if !s.stopwatchIsRunning then s
  else
    let currentTotalTime := s.stopwatchElapsedTime
    let previousTotalTime :=
      match s.stopwatchLapTimes with
      | [] => 0
      | newest :: _ => newest.totalMs
    let lapDuration := currentTotalTime - previousTotalTime
    let s1 := { s with stopwatchLapCount := s.stopwatchLapCount + 1 }
    let lapEntry : LapEntry :=
      { id := s1.stopwatchLapCount, durationMs := lapDuration, totalMs := currentTotalTime }
    { s1 with stopwatchLapTimes := lapEntry :: s1.stopwatchLapTimes }

/-! ## Mode management (scripts.js 119-154) -/

/-- `changeMode(newMode)` (119-154).  The display refreshes of the three timed
modes only write to the DOM. -/
def changeMode (s : State) (newMode : String) : State :=
  let s1 := if s.currentMode = "clock" then clearInterval s s.clockInterval else s
  let s2 := if s1.currentMode = "pomodoro" ∧ s1.pomodoroIsRunning then pausePomodoro s1 else s1
  let s3 := if s2.currentMode = "timer" ∧ s2.timerIsRunning then pauseTimer s2 else s2
  let s4 := if s3.currentMode = "stopwatch" ∧ s3.stopwatchIsRunning then pauseStopwatch s3 else s3
  let s5 := { s4 with currentMode := newMode }
  if newMode = "clock" then startClock s5 else s5

/-- Line 121 of `changeMode` on its own: leaving the clock cancels its tick. -/
def leaveClock (s : State) : State :=
  if s.currentMode = "clock" then clearInterval s s.clockInterval else s

/-- Line 122 of `changeMode` on its own. -/
def leavePomodoro (s : State) : State :=
  if s.currentMode = "pomodoro" ∧ s.pomodoroIsRunning then pausePomodoro s else s

/-- Line 123 of `changeMode` on its own. -/
def leaveTimer (s : State) : State :=
  if s.currentMode = "timer" ∧ s.timerIsRunning then pauseTimer s else s

/-- Line 124 of `changeMode` on its own. -/
def leaveStopwatch (s : State) : State :=
  if s.currentMode = "stopwatch" ∧ s.stopwatchIsRunning then pauseStopwatch s else s

/-- Lines 126-153 of `changeMode` on their own: record the mode, start the clock
when it is the new mode. -/
def enterMode (s : State) (newMode : String) : State :=
  let s5 := { s with currentMode := newMode }
  if newMode = "clock" then startClock s5 else s5

/-- `initApp()` (496-576), as far as the timing state goes: `changeMode('clock')`. -/
def initApp (s : State) : State :=
  changeMode s "clock"

/-! ## The event loop -/

/-- Runs the closure `cb`; every `Date.now()` of one callback reads `now`. -/
def runCallback (cb : Callback) (s : State) (now : Int) : State :=
  match cb with
  | Callback.updateClock => s
  | Callback.pomodoroTick e => pomodoroTick e s now now
  | Callback.timerTick e => timerTick e s now
  | Callback.stopwatchTick => stopwatchTick s now

/-- The interval with handle `id` fires at clock reading `now`; a handle that is
not live cannot fire. -/
def fire (s : State) (id : Nat) (now : Int) : State :=
  match liveCallback s id with
  | none => s
  | some cb => runCallback cb s now

/-- What can happen to the page: the click handlers wired in `initApp`, the user
editing the three countdown fields, and an interval firing. -/
inductive Event where
  | changeMode (newMode : String)
  | startPomodoro
  | pausePomodoro
  | resetPomodoro
  | adjustPomodoroTime (delta : Int)
  | timerInput (hours minutes seconds : String)
  | setTimer
  | startTimer
  | pauseTimer
  | resetTimer
  | startStopwatch
  | pauseStopwatch
  | resetStopwatch
  | lapStopwatch
  | tick (id : Nat)
  deriving DecidableEq, Repr

/-- One event handled at clock reading `now`. -/
def step (s : State) (now : Int) (ev : Event) : State :=
  match ev with
  | Event.changeMode m => changeMode s m
  | Event.startPomodoro => startPomodoro s now
  | Event.pausePomodoro => pausePomodoro s
  | Event.resetPomodoro => resetPomodoro s
  | Event.adjustPomodoroTime d => adjustPomodoroTime s d
  | Event.timerInput h m sec => { s with timerHours := h, timerMinutes := m, timerSeconds := sec }
  | Event.setTimer => setTimer s
  | Event.startTimer => startTimer s now
  | Event.pauseTimer => pauseTimer s
  | Event.resetTimer => resetTimer s
  | Event.startStopwatch => startStopwatch s now
  | Event.pauseStopwatch => pauseStopwatch s
  | Event.resetStopwatch => resetStopwatch s
  | Event.lapStopwatch => lapStopwatch s
  | Event.tick id => fire s id now

/-- A trace: events with the clock reading at which each is handled. -/
def run (s : State) (trace : List (Int × Event)) : State :=
  trace.foldl (fun acc p => step acc p.1 p.2) s

/-- The states the page can be in: `initApp` runs on the freshly loaded
script, then any trace of events. -/
def Reachable (s : State) : Prop :=
  ∃ trace : List (Int × Event), s = run (initApp initialState) trace

/-- `handlePomodoroCompletion()` called once per clock reading of `clock`, in a row. -/
def completions (s : State) (clock : List Int) : State :=
  clock.foldl handlePomodoroCompletion s

/-- The relation between phase and work-lap count: a long break only with a
positive multiple of four laps, a short break only with a non-multiple. -/
def PhaseInv (s : State) : Prop :=
  (s.pomodoroCycle = Cycle.longBreak → 0 < s.pomodoroWorkLaps ∧ s.pomodoroWorkLaps % 4 = 0) ∧
  (s.pomodoroCycle = Cycle.break_ → s.pomodoroWorkLaps % 4 ≠ 0)

/-- The interval with handle `id` fires once per clock reading of `times`, in order. -/
def fireAll (s : State) (id : Nat) (times : List Int) : State :=
  times.foldl (fun acc t => fire acc id t) s

/-- Intervals firing one after the other: each entry is a handle and the clock
reading at which it fires. -/
def fireMany (s : State) (ticks : List (Nat × Int)) : State :=
  ticks.foldl (fun acc p => fire acc p.1 p.2) s

/-- What the Pomodoro timer shows and counts: remaining time, phase, work laps. -/
def pomodoroValues (s : State) : Int × Cycle × Nat :=
  (s.pomodoroRemainingTime, s.pomodoroCycle, s.pomodoroWorkLaps)

/-- What the countdown holds: total duration and remaining time. -/
def timerValues (s : State) : Int × Int :=
  (s.timerTotalDuration, s.timerRemainingTime)

/-- What the stopwatch holds: elapsed time, lap counter, lap list. -/
def stopwatchValues (s : State) : Int × Nat × List LapEntry :=
  (s.stopwatchElapsedTime, s.stopwatchLapCount, s.stopwatchLapTimes)

/-- The four mode identifiers `changeMode` knows. -/
def validModes : List String := ["clock", "pomodoro", "timer", "stopwatch"]

/-- A trace made only of stopwatch start, pause and lap clicks and of interval
firings. -/
def StopwatchSession (trace : List (Int × Event)) : Prop :=
  ∀ p ∈ trace, p.2 = Event.startStopwatch ∨ p.2 = Event.pauseStopwatch ∨
    p.2 = Event.lapStopwatch ∨ ∃ id, p.2 = Event.tick id

/-- The number of lap clicks of a stopwatch session that come while the stopwatch
runs, read off the trace alone: it runs after a start click and not after a pause
click; `running` says whether it runs at the beginning. -/
def lapsTaken (running : Bool) : List (Int × Event) → Nat
  | [] => 0
  | (_, Event.startStopwatch) :: rest => lapsTaken true rest
  | (_, Event.pauseStopwatch) :: rest => lapsTaken false rest
  | (_, Event.lapStopwatch) :: rest => (if running then 1 else 0) + lapsTaken running rest
  | _ :: rest => lapsTaken running rest

/-- The number of `lapStopwatch()` calls of a trace that are made in a state whose
`stopwatchIsRunning` flag is set, the trace being run from `s`. -/
def lapCallsWhileRunning (s : State) : List (Int × Event) → Nat
  | [] => 0
  | (now, ev) :: rest =>
    (if ev = Event.lapStopwatch ∧ s.stopwatchIsRunning = true then 1 else 0)
      + lapCallsWhileRunning (step s now ev) rest

/-! ## Display functions (scripts.js 97-113, 160-183, 444-462) -/

/-- The local `pad` of `formatTime`: `String(num).padStart(length, '0')`.  A string
already `length` long or longer is left as it is. -/
def pad (num : Int) (length : Nat) : String :=
  let str := toString num
  String.mk (List.replicate (length - str.length) '0') ++ str

/-- `formatTime(ms, includeMillis)` (97-113) on an integer number of milliseconds.
`Math.floor(a / b)` is floor division (`/` on `Int` for a positive divisor), `%` is
the remainder of JavaScript, which takes the sign of the dividend (`Int.tmod`). -/
def formatTime (ms : Int) (includeMillis : Bool) : String :=
  let totalSeconds := ms / 1000
  let hours := totalSeconds / 3600
  let minutes := (totalSeconds.tmod 3600) / 60
  let seconds := totalSeconds.tmod 60
  let milliseconds := if includeMillis then ms.tmod 1000 else 0
  if includeMillis then
    pad hours 2 ++ ":" ++ pad minutes 2 ++ ":" ++ pad seconds 2 ++ "." ++ pad milliseconds 3
  else if hours > 0 then
    pad hours 2 ++ ":" ++ pad minutes 2 ++ ":" ++ pad seconds 2
  else
    pad minutes 2 ++ ":" ++ pad seconds 2

/-- Lines 166-173 of `updateClock`: from the hour of the day, the hour that is shown
and the suffix.  `hours % 12 || 12` is 12 when the remainder is 0. -/
def clockHours (use24 : Bool) (hours : Int) : Int × String :=
  if !use24 then
    let ampm := if hours ≥ 12 then " PM" else " AM"
    let shown := if hours.tmod 12 = 0 then 12 else hours.tmod 12
    (shown, ampm)
  else (hours, "")

/-- Line 175 of `updateClock`: the time string built from the numeric components. -/
def clockTimeStr (use24 : Bool) (hours minutes seconds : Int) : String :=
  let shown := clockHours use24 hours
  pad shown.1 2 ++ ":" ++ pad minutes 2 ++ ":" ++ pad seconds 2 ++ shown.2

/-- `renderLapTimes()` (444-462): for every entry of the lap list, in order, the lap
number that is shown (`stopwatchLapTimes.length - index`) and the two formatted
times (total, delta). -/
def renderLapTimes (s : State) : List (Int × String × String) :=
  s.stopwatchLapTimes.enum.map (fun p =>
    ((s.stopwatchLapTimes.length : Int) - (p.1 : Int),
      formatTime p.2.totalMs true, formatTime p.2.durationMs true))

/-- A trace whose clock readings never go back, starting at `clock`, and in which
`setTimer` is only clicked while the countdown is not running. -/
def SetWhileIdle (s : State) (clock : Int) : List (Int × Event) → Prop
  | [] => True
  | p :: rest =>
    clock ≤ p.1 ∧ (p.2 = Event.setTimer → s.timerIsRunning = false) ∧
      SetWhileIdle (step s p.1 p.2) p.1 rest

/-- The countdown bound at clock reading `clock`: the remaining time lies between 0
and the total, and no live countdown tick can store more than the total from now on. -/
def TimerInv (s : State) (clock : Int) : Prop :=
  0 ≤ s.timerRemainingTime ∧ s.timerRemainingTime ≤ s.timerTotalDuration ∧
  ∀ (id : Nat) (e : Int), (id, Callback.timerTick e) ∈ s.intervals →
    e - clock ≤ s.timerTotalDuration

/-- The lap bookkeeping: the lap durations add up to the total of the newest lap, the
list is as long as the lap counter says, and the entry at index `i` carries the
number `length - i`. -/
def LapInv (s : State) : Prop :=
  (s.stopwatchLapTimes.map LapEntry.durationMs).sum
    = (s.stopwatchLapTimes.head?.map LapEntry.totalMs).getD 0 ∧
  s.stopwatchLapTimes.length = s.stopwatchLapCount ∧
  s.stopwatchLapTimes.map LapEntry.id
    = (List.range s.stopwatchLapTimes.length).map (fun i => s.stopwatchLapTimes.length - i)

/-- Registry invariant: live handles are distinct and below the next handle to be
issued, and every live closure is the one its component currently holds the
handle of, with that component flagged as running (for the clock: with the
clock mode active). -/
structure WF (s : State) : Prop where
  nodup : (s.intervals.map Prod.fst).Nodup
  fresh : ∀ p ∈ s.intervals, p.1 < s.nextIntervalId
  clock : ∀ id, (id, Callback.updateClock) ∈ s.intervals →
    s.clockInterval = some id ∧ s.currentMode = "clock"
  pomodoro : ∀ id e, (id, Callback.pomodoroTick e) ∈ s.intervals →
    s.pomodoroInterval = some id ∧ s.pomodoroIsRunning = true
  timer : ∀ id e, (id, Callback.timerTick e) ∈ s.intervals →
    s.timerInterval = some id ∧ s.timerIsRunning = true
  stopwatch : ∀ id, (id, Callback.stopwatchTick) ∈ s.intervals →
    s.stopwatchInterval = some id ∧ s.stopwatchIsRunning = true

/-! ## Basic facts about the registry -/

theorem clearInterval_eq (s : State) (h : Option Nat) :
    clearInterval s h =
      { s with intervals := s.intervals.filter (fun p => some p.1 != h) } := by
  cases h with
  | none =>
    have : s.intervals.filter (fun p => some p.1 != (none : Option Nat)) = s.intervals := by
      apply List.filter_eq_self.2
      intro p _
      simp
    simp [clearInterval, this]
  | some id =>
    simp only [clearInterval]
    congr 1

theorem mem_clearInterval (s : State) (h : Option Nat) (p : Nat × Callback) :
    p ∈ (clearInterval s h).intervals ↔ p ∈ s.intervals ∧ some p.1 ≠ h := by
  rw [clearInterval_eq]
  simp [List.mem_filter]

theorem nodup_filter_fst (l : List (Nat × Callback)) (f : Nat × Callback → Bool)
    (hl : (l.map Prod.fst).Nodup) : ((l.filter f).map Prod.fst).Nodup :=
  List.Nodup.sublist (List.Sublist.map _ (List.filter_sublist l)) hl

theorem lookup_of_mem (l : List (Nat × Callback)) (hl : (l.map Prod.fst).Nodup)
    (id : Nat) (cb : Callback) (hm : (id, cb) ∈ l) : l.lookup id = some cb := by
  induction l with
  | nil => simp at hm
  | cons p l ih =>
    obtain ⟨k, c⟩ := p
    simp only [List.map_cons, List.nodup_cons, List.mem_map, not_exists, not_and] at hl
    rcases List.mem_cons.1 hm with h | h
    · cases h
      simp [List.lookup]
    · have hne : id ≠ k := by
        intro hk
        exact hl.1 (id, cb) h hk
      have hb : (id == k) = false := by simpa using hne
      simp only [List.lookup, hb]
      exact ih hl.2 h

theorem mem_of_lookup (l : List (Nat × Callback)) (id : Nat) (cb : Callback)
    (hm : l.lookup id = some cb) : (id, cb) ∈ l := by
  induction l with
  | nil => simp at hm
  | cons p l ih =>
    obtain ⟨k, c⟩ := p
    by_cases hk : id = k
    · subst hk
      simp [List.lookup] at hm
      simp [hm]
    · have hb : (id == k) = false := by simpa using hk
      simp only [List.lookup, hb] at hm
      exact List.mem_cons_of_mem _ (ih hm)


/-! ## The registry invariant holds in every reachable state -/

theorem WF_of_filter {s t : State} (h : WF s) (f : Nat × Callback → Bool)
    (hi : t.intervals = s.intervals.filter f)
    (hn : s.nextIntervalId ≤ t.nextIntervalId)
    (hc : ∀ id, (id, Callback.updateClock) ∈ t.intervals →
      s.clockInterval = some id → s.currentMode = "clock" →
      t.clockInterval = some id ∧ t.currentMode = "clock")
    (hp : ∀ id e, (id, Callback.pomodoroTick e) ∈ t.intervals →
      s.pomodoroInterval = some id → s.pomodoroIsRunning = true →
      t.pomodoroInterval = some id ∧ t.pomodoroIsRunning = true)
    (ht : ∀ id e, (id, Callback.timerTick e) ∈ t.intervals →
      s.timerInterval = some id → s.timerIsRunning = true →
      t.timerInterval = some id ∧ t.timerIsRunning = true)
    (hw : ∀ id, (id, Callback.stopwatchTick) ∈ t.intervals →
      s.stopwatchInterval = some id → s.stopwatchIsRunning = true →
      t.stopwatchInterval = some id ∧ t.stopwatchIsRunning = true) : WF t := by
  have hsub : ∀ p, p ∈ t.intervals → p ∈ s.intervals := by
    intro p hp
    rw [hi] at hp
    exact (List.mem_filter.1 hp).1
  constructor
  · rw [hi]
    exact nodup_filter_fst _ _ h.nodup
  · intro p hp
    have := h.fresh p (hsub p hp)
    omega
  · intro id hm
    have := h.clock id (hsub _ hm)
    exact hc id hm this.1 this.2
  · intro id e hm
    have := h.pomodoro id e (hsub _ hm)
    exact hp id e hm this.1 this.2
  · intro id e hm
    have := h.timer id e (hsub _ hm)
    exact ht id e hm this.1 this.2
  · intro id hm
    have := h.stopwatch id (hsub _ hm)
    exact hw id hm this.1 this.2

theorem WF_of_same {s t : State} (h : WF s)
    (hi : t.intervals = s.intervals)
    (hn : s.nextIntervalId ≤ t.nextIntervalId)
    (hc : ∀ id, (id, Callback.updateClock) ∈ t.intervals →
      s.clockInterval = some id → s.currentMode = "clock" →
      t.clockInterval = some id ∧ t.currentMode = "clock")
    (hp : ∀ id e, (id, Callback.pomodoroTick e) ∈ t.intervals →
      s.pomodoroInterval = some id → s.pomodoroIsRunning = true →
      t.pomodoroInterval = some id ∧ t.pomodoroIsRunning = true)
    (ht : ∀ id e, (id, Callback.timerTick e) ∈ t.intervals →
      s.timerInterval = some id → s.timerIsRunning = true →
      t.timerInterval = some id ∧ t.timerIsRunning = true)
    (hw : ∀ id, (id, Callback.stopwatchTick) ∈ t.intervals →
      s.stopwatchInterval = some id → s.stopwatchIsRunning = true →
      t.stopwatchInterval = some id ∧ t.stopwatchIsRunning = true) : WF t := by
  refine WF_of_filter h (fun _ => true) ?_ hn hc hp ht hw
  rw [hi]
  exact (List.filter_eq_self.2 (fun _ _ => rfl)).symm

theorem WF_of_cons {s t : State} (h : WF s) (cb : Callback)
    (hi : t.intervals = (s.nextIntervalId, cb) :: s.intervals)
    (hn : t.nextIntervalId = s.nextIntervalId + 1)
    (hc : ∀ id, (id, Callback.updateClock) ∈ t.intervals →
      t.clockInterval = some id ∧ t.currentMode = "clock")
    (hp : ∀ id e, (id, Callback.pomodoroTick e) ∈ t.intervals →
      t.pomodoroInterval = some id ∧ t.pomodoroIsRunning = true)
    (ht : ∀ id e, (id, Callback.timerTick e) ∈ t.intervals →
      t.timerInterval = some id ∧ t.timerIsRunning = true)
    (hw : ∀ id, (id, Callback.stopwatchTick) ∈ t.intervals →
      t.stopwatchInterval = some id ∧ t.stopwatchIsRunning = true) : WF t := by
  constructor
  · rw [hi]
    simp only [List.map_cons, List.nodup_cons, List.mem_map, not_exists, not_and]
    refine ⟨?_, h.nodup⟩
    intro p hp hq
    have := h.fresh p hp
    omega
  · intro p hp
    rw [hi] at hp
    rcases List.mem_cons.1 hp with hp | hp
    · subst hp
      simp [hn]
    · have := h.fresh p hp
      omega
  · exact hc
  · exact hp
  · exact ht
  · exact hw

theorem WF_initialState : WF initialState := by
  constructor <;> simp [initialState]

theorem WF_startPomodoro (s : State) (now : Int) (h : WF s) : WF (startPomodoro s now) := by
  unfold startPomodoro
  split
  · exact h
  · rename_i hr
    refine WF_of_cons h (Callback.pomodoroTick (now + s.pomodoroRemainingTime)) rfl rfl ?_ ?_ ?_ ?_
    · intro id hm
      simp only [setInterval, List.mem_cons, Prod.mk.injEq, reduceCtorEq, and_false,
        false_or] at hm
      exact h.clock id hm
    · intro id e hm
      simp only [setInterval, List.mem_cons, Prod.mk.injEq] at hm
      rcases hm with hm | hm
      · simp [setInterval, hm.1]
      · have := h.pomodoro id e hm
        simp_all
    · intro id e hm
      simp only [setInterval, List.mem_cons, Prod.mk.injEq, reduceCtorEq, and_false,
        false_or] at hm
      exact h.timer id e hm
    · intro id hm
      simp only [setInterval, List.mem_cons, Prod.mk.injEq, reduceCtorEq, and_false,
        false_or] at hm
      exact h.stopwatch id hm

theorem WF_pausePomodoro (s : State) (h : WF s) : WF (pausePomodoro s) := by
  unfold pausePomodoro
  split
  · exact h
  · rw [clearInterval_eq]
    refine WF_of_filter h _ rfl (le_refl _) ?_ ?_ ?_ ?_
    · intro id _ h1 h2
      exact ⟨h1, h2⟩
    · intro id e hm h1 _
      simp [List.mem_filter, h1] at hm
    · intro id e _ h1 h2
      exact ⟨h1, h2⟩
    · intro id _ h1 h2
      exact ⟨h1, h2⟩

theorem WF_resetPomodoro (s : State) (h : WF s) : WF (resetPomodoro s) := by
  unfold resetPomodoro
  rw [clearInterval_eq]
  refine WF_of_filter h _ rfl (le_refl _) ?_ ?_ ?_ ?_
  · intro id _ h1 h2
    exact ⟨h1, h2⟩
  · intro id e hm h1 _
    simp [List.mem_filter, h1] at hm
  · intro id e _ h1 h2
    exact ⟨h1, h2⟩
  · intro id _ h1 h2
    exact ⟨h1, h2⟩

theorem WF_adjustPomodoroTime (s : State) (d : Int) (h : WF s) :
    WF (adjustPomodoroTime s d) := by
  unfold adjustPomodoroTime
  exact WF_of_same h rfl (le_refl _) (fun _ _ h1 h2 => ⟨h1, h2⟩) (fun _ _ _ h1 h2 => ⟨h1, h2⟩)
    (fun _ _ _ h1 h2 => ⟨h1, h2⟩) (fun _ _ h1 h2 => ⟨h1, h2⟩)

theorem WF_handlePomodoroCompletion (s : State) (now : Int) (h : WF s) :
    WF (handlePomodoroCompletion s now) := by
  unfold handlePomodoroCompletion
  apply WF_startPomodoro
  dsimp only
  split
  · split
    · exact WF_of_same h rfl (le_refl _) (fun _ _ h1 h2 => ⟨h1, h2⟩)
        (fun _ _ _ h1 h2 => ⟨h1, h2⟩) (fun _ _ _ h1 h2 => ⟨h1, h2⟩) (fun _ _ h1 h2 => ⟨h1, h2⟩)
    · exact WF_of_same h rfl (le_refl _) (fun _ _ h1 h2 => ⟨h1, h2⟩)
        (fun _ _ _ h1 h2 => ⟨h1, h2⟩) (fun _ _ _ h1 h2 => ⟨h1, h2⟩) (fun _ _ h1 h2 => ⟨h1, h2⟩)
  · exact WF_of_same h rfl (le_refl _) (fun _ _ h1 h2 => ⟨h1, h2⟩)
      (fun _ _ _ h1 h2 => ⟨h1, h2⟩) (fun _ _ _ h1 h2 => ⟨h1, h2⟩) (fun _ _ h1 h2 => ⟨h1, h2⟩)

theorem WF_pomodoroTick (e : Int) (s : State) (now now2 : Int) (h : WF s) :
    WF (pomodoroTick e s now now2) := by
  unfold pomodoroTick
  dsimp only
  split
  · apply WF_handlePomodoroCompletion
    rw [clearInterval_eq]
    refine WF_of_filter h _ rfl (le_refl _) ?_ ?_ ?_ ?_
    · intro id _ h1 h2
      exact ⟨h1, h2⟩
    · intro id e hm h1 _
      simp [List.mem_filter, h1] at hm
    · intro id e _ h1 h2
      exact ⟨h1, h2⟩
    · intro id _ h1 h2
      exact ⟨h1, h2⟩
  · exact WF_of_same h rfl (le_refl _) (fun _ _ h1 h2 => ⟨h1, h2⟩)
      (fun _ _ _ h1 h2 => ⟨h1, h2⟩) (fun _ _ _ h1 h2 => ⟨h1, h2⟩) (fun _ _ h1 h2 => ⟨h1, h2⟩)

theorem WF_setTimer (s : State) (h : WF s) : WF (setTimer s) := by
  unfold setTimer
  dsimp only
  split
  · exact h
  · exact WF_of_same h rfl (le_refl _) (fun _ _ h1 h2 => ⟨h1, h2⟩)
      (fun _ _ _ h1 h2 => ⟨h1, h2⟩) (fun _ _ _ h1 h2 => ⟨h1, h2⟩) (fun _ _ h1 h2 => ⟨h1, h2⟩)

theorem WF_startTimer (s : State) (now : Int) (h : WF s) : WF (startTimer s now) := by
  unfold startTimer
  split
  · exact h
  · rename_i hr
    refine WF_of_cons h (Callback.timerTick (now + s.timerRemainingTime)) rfl rfl ?_ ?_ ?_ ?_
    · intro id hm
      simp only [setInterval, List.mem_cons, Prod.mk.injEq, reduceCtorEq, and_false,
        false_or] at hm
      exact h.clock id hm
    · intro id e hm
      simp only [setInterval, List.mem_cons, Prod.mk.injEq, reduceCtorEq, and_false,
        false_or] at hm
      exact h.pomodoro id e hm
    · intro id e hm
      simp only [setInterval, List.mem_cons, Prod.mk.injEq] at hm
      rcases hm with hm | hm
      · simp [setInterval, hm.1]
      · have := h.timer id e hm
        simp_all
    · intro id hm
      simp only [setInterval, List.mem_cons, Prod.mk.injEq, reduceCtorEq, and_false,
        false_or] at hm
      exact h.stopwatch id hm

theorem WF_timerTick (e : Int) (s : State) (now : Int) (h : WF s) :
    WF (timerTick e s now) := by
  unfold timerTick
  dsimp only
  split
  · rw [clearInterval_eq]
    refine WF_of_filter h _ rfl (le_refl _) ?_ ?_ ?_ ?_
    · intro id _ h1 h2
      exact ⟨h1, h2⟩
    · intro id e _ h1 h2
      exact ⟨h1, h2⟩
    · intro id e hm h1 _
      simp [List.mem_filter, h1] at hm
    · intro id _ h1 h2
      exact ⟨h1, h2⟩
  · exact WF_of_same h rfl (le_refl _) (fun _ _ h1 h2 => ⟨h1, h2⟩)
      (fun _ _ _ h1 h2 => ⟨h1, h2⟩) (fun _ _ _ h1 h2 => ⟨h1, h2⟩) (fun _ _ h1 h2 => ⟨h1, h2⟩)

theorem WF_pauseTimer (s : State) (h : WF s) : WF (pauseTimer s) := by
  unfold pauseTimer
  split
  · exact h
  · rw [clearInterval_eq]
    refine WF_of_filter h _ rfl (le_refl _) ?_ ?_ ?_ ?_
    · intro id _ h1 h2
      exact ⟨h1, h2⟩
    · intro id e _ h1 h2
      exact ⟨h1, h2⟩
    · intro id e hm h1 _
      simp [List.mem_filter, h1] at hm
    · intro id _ h1 h2
      exact ⟨h1, h2⟩

theorem WF_resetTimer (s : State) (h : WF s) : WF (resetTimer s) := by
  unfold resetTimer
  rw [clearInterval_eq]
  refine WF_of_filter h _ rfl (le_refl _) ?_ ?_ ?_ ?_
  · intro id _ h1 h2
    exact ⟨h1, h2⟩
  · intro id e _ h1 h2
    exact ⟨h1, h2⟩
  · intro id e hm h1 _
    simp [List.mem_filter, h1] at hm
  · intro id _ h1 h2
    exact ⟨h1, h2⟩

theorem WF_startStopwatch (s : State) (now : Int) (h : WF s) :
    WF (startStopwatch s now) := by
  unfold startStopwatch
  split
  · exact h
  · rename_i hr
    refine WF_of_cons h Callback.stopwatchTick rfl rfl ?_ ?_ ?_ ?_
    · intro id hm
      simp only [setInterval, List.mem_cons, Prod.mk.injEq, reduceCtorEq, and_false,
        false_or] at hm
      exact h.clock id hm
    · intro id e hm
      simp only [setInterval, List.mem_cons, Prod.mk.injEq, reduceCtorEq, and_false,
        false_or] at hm
      exact h.pomodoro id e hm
    · intro id e hm
      simp only [setInterval, List.mem_cons, Prod.mk.injEq, reduceCtorEq, and_false,
        false_or] at hm
      exact h.timer id e hm
    · intro id hm
      simp only [setInterval, List.mem_cons, Prod.mk.injEq] at hm
      rcases hm with hm | hm
      · simp [setInterval, hm.1]
      · have := h.stopwatch id hm
        simp_all

theorem WF_stopwatchTick (s : State) (now : Int) (h : WF s) : WF (stopwatchTick s now) := by
  unfold stopwatchTick
  exact WF_of_same h rfl (le_refl _) (fun _ _ h1 h2 => ⟨h1, h2⟩) (fun _ _ _ h1 h2 => ⟨h1, h2⟩)
    (fun _ _ _ h1 h2 => ⟨h1, h2⟩) (fun _ _ h1 h2 => ⟨h1, h2⟩)

theorem WF_pauseStopwatch (s : State) (h : WF s) : WF (pauseStopwatch s) := by
  unfold pauseStopwatch
  split
  · exact h
  · rw [clearInterval_eq]
    refine WF_of_filter h _ rfl (le_refl _) ?_ ?_ ?_ ?_
    · intro id _ h1 h2
      exact ⟨h1, h2⟩
    · intro id e _ h1 h2
      exact ⟨h1, h2⟩
    · intro id e _ h1 h2
      exact ⟨h1, h2⟩
    · intro id hm h1 _
      simp [List.mem_filter, h1] at hm

theorem WF_resetStopwatch (s : State) (h : WF s) : WF (resetStopwatch s) := by
  unfold resetStopwatch
  rw [clearInterval_eq]
  refine WF_of_filter h _ rfl (le_refl _) ?_ ?_ ?_ ?_
  · intro id _ h1 h2
    exact ⟨h1, h2⟩
  · intro id e _ h1 h2
    exact ⟨h1, h2⟩
  · intro id e _ h1 h2
    exact ⟨h1, h2⟩
  · intro id hm h1 _
    simp [List.mem_filter, h1] at hm

theorem WF_lapStopwatch (s : State) (h : WF s) : WF (lapStopwatch s) := by
  unfold lapStopwatch
  split
  · exact h
  · exact WF_of_same h rfl (le_refl _) (fun _ _ h1 h2 => ⟨h1, h2⟩)
      (fun _ _ _ h1 h2 => ⟨h1, h2⟩) (fun _ _ _ h1 h2 => ⟨h1, h2⟩) (fun _ _ h1 h2 => ⟨h1, h2⟩)

theorem changeMode_eq (s : State) (m : String) :
    changeMode s m = enterMode (leaveStopwatch (leaveTimer (leavePomodoro (leaveClock s)))) m :=
  rfl

theorem WF_leaveClock (s : State) (h : WF s) :
    WF (leaveClock s) ∧ ∀ id, (id, Callback.updateClock) ∉ (leaveClock s).intervals := by
  unfold leaveClock
  split
  · rename_i hc
    constructor
    · rw [clearInterval_eq]
      refine WF_of_filter h _ rfl (le_refl _) ?_ ?_ ?_ ?_
      · intro id hm h1 _
        simp [List.mem_filter, h1] at hm
      · intro id e _ h1 h2
        exact ⟨h1, h2⟩
      · intro id e _ h1 h2
        exact ⟨h1, h2⟩
      · intro id _ h1 h2
        exact ⟨h1, h2⟩
    · intro id hm
      rw [clearInterval_eq] at hm
      simp only [List.mem_filter] at hm
      have := (h.clock id hm.1).1
      simp [this] at hm
  · rename_i hc
    exact ⟨h, fun id hm => hc (h.clock id hm).2⟩

theorem mem_pausePomodoro (s : State) (p : Nat × Callback)
    (hp : p ∈ (pausePomodoro s).intervals) : p ∈ s.intervals := by
  unfold pausePomodoro at hp
  split at hp
  · exact hp
  · exact ((mem_clearInterval _ _ _).1 hp).1

theorem mem_pauseTimer (s : State) (p : Nat × Callback)
    (hp : p ∈ (pauseTimer s).intervals) : p ∈ s.intervals := by
  unfold pauseTimer at hp
  split at hp
  · exact hp
  · exact ((mem_clearInterval _ _ _).1 hp).1

theorem mem_pauseStopwatch (s : State) (p : Nat × Callback)
    (hp : p ∈ (pauseStopwatch s).intervals) : p ∈ s.intervals := by
  unfold pauseStopwatch at hp
  split at hp
  · exact hp
  · exact ((mem_clearInterval _ _ _).1 hp).1

theorem WF_leavePomodoro (s : State) (h : WF s) : WF (leavePomodoro s) := by
  unfold leavePomodoro
  split
  · exact WF_pausePomodoro s h
  · exact h

theorem WF_leaveTimer (s : State) (h : WF s) : WF (leaveTimer s) := by
  unfold leaveTimer
  split
  · exact WF_pauseTimer s h
  · exact h

theorem WF_leaveStopwatch (s : State) (h : WF s) : WF (leaveStopwatch s) := by
  unfold leaveStopwatch
  split
  · exact WF_pauseStopwatch s h
  · exact h

theorem mem_leavePomodoro (s : State) (p : Nat × Callback)
    (hp : p ∈ (leavePomodoro s).intervals) : p ∈ s.intervals := by
  unfold leavePomodoro at hp
  split at hp
  · exact mem_pausePomodoro s p hp
  · exact hp

theorem mem_leaveTimer (s : State) (p : Nat × Callback)
    (hp : p ∈ (leaveTimer s).intervals) : p ∈ s.intervals := by
  unfold leaveTimer at hp
  split at hp
  · exact mem_pauseTimer s p hp
  · exact hp

theorem mem_leaveStopwatch (s : State) (p : Nat × Callback)
    (hp : p ∈ (leaveStopwatch s).intervals) : p ∈ s.intervals := by
  unfold leaveStopwatch at hp
  split at hp
  · exact mem_pauseStopwatch s p hp
  · exact hp

theorem WF_enterMode (s : State) (m : String) (h : WF s)
    (hn : ∀ id, (id, Callback.updateClock) ∉ s.intervals) : WF (enterMode s m) := by
  unfold enterMode
  dsimp only
  split
  · rename_i hm
    refine WF_of_cons h Callback.updateClock rfl rfl ?_ ?_ ?_ ?_
    · intro id hi
      simp only [startClock, setInterval, List.mem_cons, Prod.mk.injEq, and_true] at hi
      rcases hi with hi | hi
      · simp [startClock, setInterval, hi, hm]
      · exact absurd hi (hn id)
    · intro id e hi
      simp only [startClock, setInterval, List.mem_cons, Prod.mk.injEq, reduceCtorEq,
        and_false, false_or] at hi
      exact h.pomodoro id e hi
    · intro id e hi
      simp only [startClock, setInterval, List.mem_cons, Prod.mk.injEq, reduceCtorEq,
        and_false, false_or] at hi
      exact h.timer id e hi
    · intro id hi
      simp only [startClock, setInterval, List.mem_cons, Prod.mk.injEq, reduceCtorEq,
        and_false, false_or] at hi
      exact h.stopwatch id hi
  · refine WF_of_same h rfl (le_refl _) ?_ (fun _ _ _ h1 h2 => ⟨h1, h2⟩)
      (fun _ _ _ h1 h2 => ⟨h1, h2⟩) (fun _ _ h1 h2 => ⟨h1, h2⟩)
    intro id hi
    exact absurd hi (hn id)

theorem WF_changeMode (s : State) (m : String) (h : WF s) : WF (changeMode s m) := by
  rw [changeMode_eq]
  obtain ⟨h1, n1⟩ := WF_leaveClock s h
  apply WF_enterMode
  · exact WF_leaveStopwatch _ (WF_leaveTimer _ (WF_leavePomodoro _ h1))
  · intro id hm
    exact n1 id (mem_leavePomodoro _ _ (mem_leaveTimer _ _ (mem_leaveStopwatch _ _ hm)))

theorem WF_fire (s : State) (id : Nat) (now : Int) (h : WF s) : WF (fire s id now) := by
  unfold fire
  split
  · exact h
  · rename_i cb _
    cases cb with
    | updateClock => exact h
    | pomodoroTick e => exact WF_pomodoroTick e s now now h
    | timerTick e => exact WF_timerTick e s now h
    | stopwatchTick => exact WF_stopwatchTick s now h

theorem WF_step (s : State) (now : Int) (ev : Event) (h : WF s) : WF (step s now ev) := by
  cases ev with
  | changeMode m => exact WF_changeMode s m h
  | startPomodoro => exact WF_startPomodoro s now h
  | pausePomodoro => exact WF_pausePomodoro s h
  | resetPomodoro => exact WF_resetPomodoro s h
  | adjustPomodoroTime d => exact WF_adjustPomodoroTime s d h
  | timerInput a b c =>
    exact WF_of_same h rfl (le_refl _) (fun _ _ h1 h2 => ⟨h1, h2⟩)
      (fun _ _ _ h1 h2 => ⟨h1, h2⟩) (fun _ _ _ h1 h2 => ⟨h1, h2⟩) (fun _ _ h1 h2 => ⟨h1, h2⟩)
  | setTimer => exact WF_setTimer s h
  | startTimer => exact WF_startTimer s now h
  | pauseTimer => exact WF_pauseTimer s h
  | resetTimer => exact WF_resetTimer s h
  | startStopwatch => exact WF_startStopwatch s now h
  | pauseStopwatch => exact WF_pauseStopwatch s h
  | resetStopwatch => exact WF_resetStopwatch s h
  | lapStopwatch => exact WF_lapStopwatch s h
  | tick id => exact WF_fire s id now h

theorem WF_run (trace : List (Int × Event)) (s : State) (h : WF s) : WF (run s trace) := by
  induction trace generalizing s with
  | nil => exact h
  | cons p tr ih => exact ih _ (WF_step s p.1 p.2 h)

theorem WF_of_reachable (s : State) (h : Reachable s) : WF s := by
  obtain ⟨trace, rfl⟩ := h
  exact WF_run trace _ (WF_changeMode _ _ WF_initialState)

theorem run_append (s : State) (a b : List (Int × Event)) :
    run s (a ++ b) = run (run s a) b := by
  simp [run, List.foldl_append]

theorem reachable_step (s : State) (now : Int) (ev : Event) (h : Reachable s) :
    Reachable (step s now ev) := by
  obtain ⟨trace, rfl⟩ := h
  exact ⟨trace ++ [(now, ev)], by rw [run_append]; rfl⟩

theorem reachable_run (s : State) (trace : List (Int × Event)) (h : Reachable s) :
    Reachable (run s trace) := by
  obtain ⟨tr, rfl⟩ := h
  exact ⟨tr ++ trace, by rw [run_append]⟩

/-! ## Pomodoro: completion and phase transitions -/

theorem startPomodoro_phase (s : State) (now : Int) :
    (startPomodoro s now).pomodoroCycle = s.pomodoroCycle ∧
    (startPomodoro s now).pomodoroWorkLaps = s.pomodoroWorkLaps ∧
    (startPomodoro s now).pomodoroRemainingTime = s.pomodoroRemainingTime := by
  unfold startPomodoro
  split <;> simp [setInterval]

theorem handlePomodoroCompletion_work (s : State) (now : Int)
    (hw : s.pomodoroCycle = Cycle.work) :
    (handlePomodoroCompletion s now).pomodoroWorkLaps = s.pomodoroWorkLaps + 1 ∧
    ((s.pomodoroWorkLaps + 1) % 4 = 0 →
      (handlePomodoroCompletion s now).pomodoroCycle = Cycle.longBreak ∧
      (handlePomodoroCompletion s now).pomodoroRemainingTime = DURATION_LONG_BREAK) ∧
    ((s.pomodoroWorkLaps + 1) % 4 ≠ 0 →
      (handlePomodoroCompletion s now).pomodoroCycle = Cycle.break_ ∧
      (handlePomodoroCompletion s now).pomodoroRemainingTime = DURATION_BREAK) := by
  unfold handlePomodoroCompletion
  simp only [hw, if_true, LAPS_PER_LONG_BREAK]
  by_cases h4 : (s.pomodoroWorkLaps + 1) % 4 = 0
  · simp [h4, (startPomodoro_phase _ now).1, (startPomodoro_phase _ now).2.1,
      (startPomodoro_phase _ now).2.2]
  · simp [h4, (startPomodoro_phase _ now).1, (startPomodoro_phase _ now).2.1,
      (startPomodoro_phase _ now).2.2]

theorem handlePomodoroCompletion_rest (s : State) (now : Int)
    (hw : s.pomodoroCycle ≠ Cycle.work) :
    (handlePomodoroCompletion s now).pomodoroCycle = Cycle.work ∧
    (handlePomodoroCompletion s now).pomodoroRemainingTime = DURATION_WORK ∧
    (handlePomodoroCompletion s now).pomodoroWorkLaps = s.pomodoroWorkLaps := by
  unfold handlePomodoroCompletion
  simp [hw, (startPomodoro_phase _ now).1, (startPomodoro_phase _ now).2.1,
    (startPomodoro_phase _ now).2.2]

/-- C1 (the code misses the auto-start).  The Pomodoro timer is started at clock
reading 0 in the freshly initialised page and its tick fires at 1500000, the end of
the work phase.  The phase advances to the short break with 5 minutes remaining and
the running flag still set, but no Pomodoro tick is scheduled any more: the only
live interval is the clock's, no later tick changes the remaining time, and a
further `startPomodoro()` does nothing because the flag is still set. -/
theorem C1_completion_leaves_no_tick :
    liveCallback (startPomodoro (initApp initialState) 0) 2
        = some (Callback.pomodoroTick 1500000) ∧
    (fire (startPomodoro (initApp initialState) 0) 2 1500000).pomodoroCycle = Cycle.break_ ∧
    (fire (startPomodoro (initApp initialState) 0) 2 1500000).pomodoroRemainingTime
        = DURATION_BREAK ∧
    (fire (startPomodoro (initApp initialState) 0) 2 1500000).pomodoroIsRunning = true ∧
    (fire (startPomodoro (initApp initialState) 0) 2 1500000).intervals
        = [(1, Callback.updateClock)] ∧
    (∀ (id : Nat) (later : Int),
      fire (fire (startPomodoro (initApp initialState) 0) 2 1500000) id later
        = fire (startPomodoro (initApp initialState) 0) 2 1500000) ∧
    (∀ later : Int,
      startPomodoro (fire (startPomodoro (initApp initialState) 0) 2 1500000) later
        = fire (startPomodoro (initApp initialState) 0) 2 1500000) := by
  refine ⟨by decide, by decide, by decide, by decide, by decide, ?_, ?_⟩
  · intro id later
    have hi : (fire (startPomodoro (initApp initialState) 0) 2 1500000).intervals
        = [(1, Callback.updateClock)] := by decide
    generalize fire (startPomodoro (initApp initialState) 0) 2 1500000 = t at hi
    unfold fire liveCallback
    rw [hi]
    by_cases h1 : id = 1
    · subst h1
      simp [List.lookup, runCallback]
    · have hb : (id == 1) = false := by simpa using h1
      simp [List.lookup, hb]
  · intro later
    have hr : (fire (startPomodoro (initApp initialState) 0) 2 1500000).pomodoroIsRunning
        = true := by decide
    generalize fire (startPomodoro (initApp initialState) 0) 2 1500000 = t at hr
    simp [startPomodoro, hr]

/-- C2: `handlePomodoroCompletion` in any state: from Work the lap count goes up by
one and the new phase is LongBreak with 15 minutes when the new count is a multiple
of 4, else Break with 5 minutes; from Break or LongBreak the new phase is Work with
25 minutes and the lap count is unchanged. -/
theorem C2_phase_transition (s : State) (now : Int) :
    (s.pomodoroCycle = Cycle.work →
      (handlePomodoroCompletion s now).pomodoroWorkLaps = s.pomodoroWorkLaps + 1 ∧
      ((s.pomodoroWorkLaps + 1) % 4 = 0 →
        (handlePomodoroCompletion s now).pomodoroCycle = Cycle.longBreak ∧
        (handlePomodoroCompletion s now).pomodoroRemainingTime = 15 * 60 * 1000) ∧
      ((s.pomodoroWorkLaps + 1) % 4 ≠ 0 →
        (handlePomodoroCompletion s now).pomodoroCycle = Cycle.break_ ∧
        (handlePomodoroCompletion s now).pomodoroRemainingTime = 5 * 60 * 1000)) ∧
    ((s.pomodoroCycle = Cycle.break_ ∨ s.pomodoroCycle = Cycle.longBreak) →
      (handlePomodoroCompletion s now).pomodoroCycle = Cycle.work ∧
      (handlePomodoroCompletion s now).pomodoroRemainingTime = 25 * 60 * 1000 ∧
      (handlePomodoroCompletion s now).pomodoroWorkLaps = s.pomodoroWorkLaps) := by
  constructor
  · intro hw
    exact handlePomodoroCompletion_work s now hw
  · intro hb
    have hw : s.pomodoroCycle ≠ Cycle.work := by
      rcases hb with hb | hb <;> simp [hb]
    exact handlePomodoroCompletion_rest s now hw

/-- C2 at the reset state: the first completion enters Break with 5 minutes and one
lap; a completion from that Break returns to Work with 25 minutes and still one lap. -/
theorem C2_phase_transition_witness :
    (initialState.pomodoroCycle = Cycle.work ∧ (initialState.pomodoroWorkLaps + 1) % 4 ≠ 0 ∧
      (handlePomodoroCompletion initialState 0).pomodoroCycle = Cycle.break_ ∧
      (handlePomodoroCompletion initialState 0).pomodoroRemainingTime = 5 * 60 * 1000) ∧
    ((handlePomodoroCompletion initialState 0).pomodoroCycle = Cycle.break_ ∧
      (handlePomodoroCompletion (handlePomodoroCompletion initialState 0) 7).pomodoroCycle
        = Cycle.work ∧
      (handlePomodoroCompletion (handlePomodoroCompletion initialState 0) 7).pomodoroWorkLaps
        = 1) :=
  ⟨⟨rfl, by decide,
      (((C2_phase_transition initialState 0).1 rfl).2.2 (by decide)).1,
      (((C2_phase_transition initialState 0).1 rfl).2.2 (by decide)).2⟩,
    ⟨by decide,
      ((C2_phase_transition (handlePomodoroCompletion initialState 0) 7).2
        (Or.inl (by decide))).1,
      ((C2_phase_transition (handlePomodoroCompletion initialState 0) 7).2
        (Or.inl (by decide))).2.2⟩⟩


/-! ## Pomodoro: long break every fourth work phase -/

theorem completions_snoc (s : State) (ts : List Int) (t : Int) :
    completions s (ts ++ [t]) = handlePomodoroCompletion (completions s ts) t := by
  simp [completions, List.foldl_append]

theorem completions_reset (s : State) (ts : List Int) :
    (ts.length % 2 = 0 →
      (completions (resetPomodoro s) ts).pomodoroCycle = Cycle.work ∧
      (completions (resetPomodoro s) ts).pomodoroWorkLaps = ts.length / 2) ∧
    (ts.length % 2 = 1 →
      (completions (resetPomodoro s) ts).pomodoroCycle
        = (if ((ts.length + 1) / 2) % 4 = 0 then Cycle.longBreak else Cycle.break_) ∧
      (completions (resetPomodoro s) ts).pomodoroWorkLaps = (ts.length + 1) / 2) := by
  induction ts using List.reverseRecOn with
  | nil =>
    constructor
    · intro _
      simp [completions, resetPomodoro, clearInterval_eq]
    · intro h
      simp at h
  | append_singleton ts t ih =>
    rw [completions_snoc]
    simp only [List.length_append, List.length_singleton]
    constructor
    · intro hpar
      have hodd : ts.length % 2 = 1 := by omega
      obtain ⟨hc, hl⟩ := ih.2 hodd
      have hw : (completions (resetPomodoro s) ts).pomodoroCycle ≠ Cycle.work := by
        rw [hc]
        split <;> simp
      obtain ⟨h1, _, h3⟩ := handlePomodoroCompletion_rest _ t hw
      refine ⟨h1, ?_⟩
      rw [h3, hl]
    · intro hpar
      have hev : ts.length % 2 = 0 := by omega
      obtain ⟨hc, hl⟩ := ih.1 hev
      obtain ⟨h1, h2, h3⟩ := handlePomodoroCompletion_work _ t hc
      have hk : (ts.length + 1 + 1) / 2 = (completions (resetPomodoro s) ts).pomodoroWorkLaps + 1 := by
        rw [hl]
        omega
      rw [hk]
      refine ⟨?_, h1⟩
      split
      · rename_i h4
        exact (h2 h4).1
      · rename_i h4
        exact (h3 h4).1

theorem pausePomodoro_phase (s : State) :
    (pausePomodoro s).pomodoroCycle = s.pomodoroCycle ∧
    (pausePomodoro s).pomodoroWorkLaps = s.pomodoroWorkLaps := by
  unfold pausePomodoro
  split <;> simp [clearInterval_eq]

theorem pauseTimer_phase (s : State) :
    (pauseTimer s).pomodoroCycle = s.pomodoroCycle ∧
    (pauseTimer s).pomodoroWorkLaps = s.pomodoroWorkLaps := by
  unfold pauseTimer
  split <;> simp [clearInterval_eq]

theorem pauseStopwatch_phase (s : State) :
    (pauseStopwatch s).pomodoroCycle = s.pomodoroCycle ∧
    (pauseStopwatch s).pomodoroWorkLaps = s.pomodoroWorkLaps := by
  unfold pauseStopwatch
  split <;> simp [clearInterval_eq]

theorem changeMode_phase (s : State) (m : String) :
    (changeMode s m).pomodoroCycle = s.pomodoroCycle ∧
    (changeMode s m).pomodoroWorkLaps = s.pomodoroWorkLaps := by
  have e1 : (leaveClock s).pomodoroCycle = s.pomodoroCycle ∧
      (leaveClock s).pomodoroWorkLaps = s.pomodoroWorkLaps := by
    unfold leaveClock
    split <;> simp [clearInterval_eq]
  have e2 : ∀ u : State, (leavePomodoro u).pomodoroCycle = u.pomodoroCycle ∧
      (leavePomodoro u).pomodoroWorkLaps = u.pomodoroWorkLaps := by
    intro u
    unfold leavePomodoro
    split
    · exact pausePomodoro_phase u
    · exact ⟨rfl, rfl⟩
  have e3 : ∀ u : State, (leaveTimer u).pomodoroCycle = u.pomodoroCycle ∧
      (leaveTimer u).pomodoroWorkLaps = u.pomodoroWorkLaps := by
    intro u
    unfold leaveTimer
    split
    · exact pauseTimer_phase u
    · exact ⟨rfl, rfl⟩
  have e4 : ∀ u : State, (leaveStopwatch u).pomodoroCycle = u.pomodoroCycle ∧
      (leaveStopwatch u).pomodoroWorkLaps = u.pomodoroWorkLaps := by
    intro u
    unfold leaveStopwatch
    split
    · exact pauseStopwatch_phase u
    · exact ⟨rfl, rfl⟩
  have e5 : ∀ u : State, (enterMode u m).pomodoroCycle = u.pomodoroCycle ∧
      (enterMode u m).pomodoroWorkLaps = u.pomodoroWorkLaps := by
    intro u
    unfold enterMode
    dsimp only
    split <;> simp [startClock, setInterval]
  rw [changeMode_eq]
  constructor
  · rw [(e5 _).1, (e4 _).1, (e3 _).1, (e2 _).1, e1.1]
  · rw [(e5 _).2, (e4 _).2, (e3 _).2, (e2 _).2, e1.2]

theorem PhaseInv_step (s : State) (now : Int) (ev : Event) (h : PhaseInv s) :
    PhaseInv (step s now ev) := by
  have key : ∀ t : State, t.pomodoroCycle = s.pomodoroCycle →
      t.pomodoroWorkLaps = s.pomodoroWorkLaps → PhaseInv t := by
    intro t h1 h2
    unfold PhaseInv
    rw [h1, h2]
    exact h
  have hcomp : ∀ (u : State) (n : Int), PhaseInv u → PhaseInv (handlePomodoroCompletion u n) := by
    intro u n hu
    unfold PhaseInv
    by_cases hw : u.pomodoroCycle = Cycle.work
    · obtain ⟨h1, h2, h3⟩ := handlePomodoroCompletion_work u n hw
      by_cases h4 : (u.pomodoroWorkLaps + 1) % 4 = 0
      · rw [(h2 h4).1, h1]
        simp [h4]
      · rw [(h3 h4).1, h1]
        simp [h4]
    · obtain ⟨h1, _, _⟩ := handlePomodoroCompletion_rest u n hw
      rw [h1]
      simp
  cases ev with
  | changeMode m => exact key _ (changeMode_phase s m).1 (changeMode_phase s m).2
  | startPomodoro => exact key _ (startPomodoro_phase s now).1 (startPomodoro_phase s now).2.1
  | pausePomodoro =>
    apply key <;>
    · simp only [step, pausePomodoro, clearInterval_eq]
      split <;> rfl
  | resetPomodoro =>
    unfold PhaseInv
    simp [step, resetPomodoro, clearInterval_eq]
  | adjustPomodoroTime d => exact key _ rfl rfl
  | timerInput a b c => exact key _ rfl rfl
  | setTimer =>
    apply key <;>
    · simp only [step, setTimer]
      split <;> rfl
  | startTimer =>
    apply key <;>
    · simp only [step, startTimer, setInterval]
      split <;> rfl
  | pauseTimer =>
    apply key <;>
    · simp only [step, pauseTimer, clearInterval_eq]
      split <;> rfl
  | resetTimer => apply key <;> simp [step, resetTimer, clearInterval_eq]
  | startStopwatch =>
    apply key <;>
    · simp only [step, startStopwatch, setInterval]
      split <;> rfl
  | pauseStopwatch =>
    apply key <;>
    · simp only [step, pauseStopwatch, clearInterval_eq]
      split <;> rfl
  | resetStopwatch => apply key <;> simp [step, resetStopwatch, clearInterval_eq]
  | lapStopwatch =>
    apply key <;>
    · simp only [step, lapStopwatch]
      split <;> rfl
  | tick id =>
    simp only [step, fire]
    split
    · exact h
    · rename_i cb _
      cases cb with
      | updateClock => exact h
      | pomodoroTick e =>
        simp only [runCallback, pomodoroTick]
        split
        · apply hcomp
          apply key <;> simp [clearInterval_eq]
        · exact key _ rfl rfl
      | timerTick e =>
        apply key <;>
        · simp only [runCallback, timerTick, clearInterval_eq]
          split <;> rfl
      | stopwatchTick => exact key _ rfl rfl

theorem PhaseInv_run (trace : List (Int × Event)) (s : State) (h : PhaseInv s) :
    PhaseInv (run s trace) := by
  induction trace generalizing s with
  | nil => exact h
  | cons p tr ih => exact ih _ (PhaseInv_step s p.1 p.2 h)

theorem PhaseInv_of_reachable (s : State) (h : Reachable s) : PhaseInv s := by
  obtain ⟨trace, rfl⟩ := h
  apply PhaseInv_run
  unfold PhaseInv
  decide

/-- C3: starting from `resetPomodoro` and calling `handlePomodoroCompletion`
repeatedly (at any clock readings), the `k`-th completion of a Work phase is the
`(2k-1)`-th completion; the phase it enters is LongBreak when `k` is a multiple of 4
and Break otherwise, and the lap count is then `k`.  The first four Work completions
enter Break, Break, Break, LongBreak and leave 4 laps.  In every reachable state a
LongBreak has a positive lap count divisible by 4 and a Break has a lap count not
divisible by 4. -/
theorem C3_long_break_every_fourth :
    (∀ (s : State) (k : Nat) (clock : List Int), 1 ≤ k → clock.length = 2 * k - 1 →
      (completions (resetPomodoro s) clock).pomodoroCycle
        = (if k % 4 = 0 then Cycle.longBreak else Cycle.break_) ∧
      (completions (resetPomodoro s) clock).pomodoroWorkLaps = k) ∧
    (∀ (s : State) (c : Int),
      [1, 2, 3, 4].map (fun k =>
          (completions (resetPomodoro s) (List.replicate (2 * k - 1) c)).pomodoroCycle)
        = [Cycle.break_, Cycle.break_, Cycle.break_, Cycle.longBreak] ∧
      (completions (resetPomodoro s) (List.replicate 7 c)).pomodoroWorkLaps = 4) ∧
    (∀ s : State, Reachable s →
      (s.pomodoroCycle = Cycle.longBreak →
        0 < s.pomodoroWorkLaps ∧ s.pomodoroWorkLaps % 4 = 0) ∧
      (s.pomodoroCycle = Cycle.break_ → s.pomodoroWorkLaps % 4 ≠ 0)) := by
  have partA : ∀ (s : State) (k : Nat) (clock : List Int), 1 ≤ k → clock.length = 2 * k - 1 →
      (completions (resetPomodoro s) clock).pomodoroCycle
        = (if k % 4 = 0 then Cycle.longBreak else Cycle.break_) ∧
      (completions (resetPomodoro s) clock).pomodoroWorkLaps = k := by
    intro s k clock hk hlen
    have hodd : clock.length % 2 = 1 := by omega
    obtain ⟨h1, h2⟩ := (completions_reset s clock).2 hodd
    have hk2 : (clock.length + 1) / 2 = k := by omega
    rw [hk2] at h1 h2
    exact ⟨h1, h2⟩
  refine ⟨partA, ?_, fun s hs => PhaseInv_of_reachable s hs⟩
  intro s c
  have e1 := partA s 1 (List.replicate (2 * 1 - 1) c) (by decide) (by simp)
  have e2 := partA s 2 (List.replicate (2 * 2 - 1) c) (by decide) (by simp)
  have e3 := partA s 3 (List.replicate (2 * 3 - 1) c) (by decide) (by simp)
  have e4 := partA s 4 (List.replicate (2 * 4 - 1) c) (by decide) (by simp)
  refine ⟨?_, e4.2⟩
  simp only [List.map_cons, List.map_nil]
  rw [e1.1, e2.1, e3.1, e4.1]
  simp

/-- C3 at concrete inputs: seven completions after a reset of the initial state (the
fourth Work completion) enter LongBreak with 4 laps, and the reachable state after
start at 0 and the tick at 1500000 is in Break with 1 lap. -/
theorem C3_long_break_every_fourth_witness :
    ((1 ≤ 4 ∧ [10, 20, 30, 40, 50, 60, 70].length = 2 * 4 - 1) ∧
      (completions (resetPomodoro initialState) [10, 20, 30, 40, 50, 60, 70]).pomodoroCycle
        = Cycle.longBreak ∧
      (completions (resetPomodoro initialState) [10, 20, 30, 40, 50, 60, 70]).pomodoroWorkLaps
        = 4) ∧
    (Reachable (run (initApp initialState) [(0, Event.startPomodoro), (1500000, Event.tick 2)]) ∧
      (run (initApp initialState)
        [(0, Event.startPomodoro), (1500000, Event.tick 2)]).pomodoroCycle = Cycle.break_ ∧
      (run (initApp initialState)
        [(0, Event.startPomodoro), (1500000, Event.tick 2)]).pomodoroWorkLaps % 4 ≠ 0) :=
  ⟨⟨⟨by decide, by decide⟩,
      (C3_long_break_every_fourth.1 initialState 4 [10, 20, 30, 40, 50, 60, 70]
        (by decide) (by decide)).1,
      (C3_long_break_every_fourth.1 initialState 4 [10, 20, 30, 40, 50, 60, 70]
        (by decide) (by decide)).2⟩,
    ⟨⟨_, rfl⟩, by decide,
      (C3_long_break_every_fourth.2.2 _ ⟨_, rfl⟩).2 (by decide)⟩⟩


/-! ## Anchor-based countdown: no drift -/

theorem fire_timer_running (s : State) (id : Nat) (e now : Int)
    (hl : liveCallback s id = some (Callback.timerTick e)) (hlt : now < e) :
    fire s id now = { s with timerRemainingTime := e - now } := by
  have hpos : ¬ (e - now ≤ 0) := by omega
  simp [fire, hl, runCallback, timerTick, hpos]

theorem fire_pomodoro_running (s : State) (id : Nat) (e now : Int)
    (hl : liveCallback s id = some (Callback.pomodoroTick e)) (hlt : now < e) :
    fire s id now = { s with pomodoroRemainingTime := e - now } := by
  have hpos : ¬ (e - now ≤ 0) := by omega
  simp [fire, hl, runCallback, pomodoroTick, hpos]

theorem fireAll_snoc (s : State) (id : Nat) (ts : List Int) (t : Int) :
    fireAll s id (ts ++ [t]) = fire (fireAll s id ts) id t := by
  simp [fireAll, List.foldl_append]

theorem fireAll_timer_live (id : Nat) (e : Int) (ts : List Int) (s : State)
    (hl : liveCallback s id = some (Callback.timerTick e)) (hall : ∀ u ∈ ts, u < e) :
    liveCallback (fireAll s id ts) id = some (Callback.timerTick e) := by
  induction ts generalizing s with
  | nil => exact hl
  | cons t ts ih =>
    have ht : t < e := hall t (List.mem_cons_self _ _)
    have hstep : fireAll s id (t :: ts) = fireAll (fire s id t) id ts := rfl
    rw [hstep]
    apply ih
    · rw [fire_timer_running s id e t hl ht]
      exact hl
    · intro u hu
      exact hall u (List.mem_cons_of_mem _ hu)

theorem fireAll_pomodoro_live (id : Nat) (e : Int) (ts : List Int) (s : State)
    (hl : liveCallback s id = some (Callback.pomodoroTick e)) (hall : ∀ u ∈ ts, u < e) :
    liveCallback (fireAll s id ts) id = some (Callback.pomodoroTick e) := by
  induction ts generalizing s with
  | nil => exact hl
  | cons t ts ih =>
    have ht : t < e := hall t (List.mem_cons_self _ _)
    have hstep : fireAll s id (t :: ts) = fireAll (fire s id t) id ts := rfl
    rw [hstep]
    apply ih
    · rw [fire_pomodoro_running s id e t hl ht]
      exact hl
    · intro u hu
      exact hall u (List.mem_cons_of_mem _ hu)

theorem startTimer_live (s : State) (t0 : Int) (hr : s.timerIsRunning = false)
    (hpos : 0 < s.timerRemainingTime) :
    (startTimer s t0).timerInterval = some s.nextIntervalId ∧
    (startTimer s t0).timerIsRunning = true ∧
    (startTimer s t0).timerRemainingTime = s.timerRemainingTime ∧
    liveCallback (startTimer s t0) s.nextIntervalId
      = some (Callback.timerTick (t0 + s.timerRemainingTime)) := by
  have hn : ¬ (s.timerRemainingTime ≤ 0) := by omega
  simp [startTimer, hr, hn, setInterval, liveCallback, List.lookup]

theorem startPomodoro_live (s : State) (t0 : Int) (hr : s.pomodoroIsRunning = false) :
    (startPomodoro s t0).pomodoroInterval = some s.nextIntervalId ∧
    (startPomodoro s t0).pomodoroIsRunning = true ∧
    (startPomodoro s t0).pomodoroRemainingTime = s.pomodoroRemainingTime ∧
    liveCallback (startPomodoro s t0) s.nextIntervalId
      = some (Callback.pomodoroTick (t0 + s.pomodoroRemainingTime)) := by
  simp [startPomodoro, hr, setInterval, liveCallback, List.lookup]

/-- C4: the countdown timer, and likewise the Pomodoro timer, is started (it was not
running) at clock reading `t0` with remaining time `R > 0`, and the interval that
the start scheduled fires at the clock readings `ticks`, none of which reached the
expiry `t0 + R`, and then at `t < t0 + R`.  The stored remaining time is then
`R - (t - t0)`, whatever the number and the times of the earlier ticks. -/
theorem C4_drift_free :
    (∀ (s : State) (id : Nat) (t0 t : Int) (ticks : List Int),
      s.timerIsRunning = false → 0 < s.timerRemainingTime →
      (startTimer s t0).timerInterval = some id →
      (∀ u ∈ ticks, u < t0 + s.timerRemainingTime) →
      t0 ≤ t → t < t0 + s.timerRemainingTime →
      (fireAll (startTimer s t0) id (ticks ++ [t])).timerRemainingTime
        = s.timerRemainingTime - (t - t0)) ∧
    (∀ (s : State) (id : Nat) (t0 t : Int) (ticks : List Int),
      s.pomodoroIsRunning = false → 0 < s.pomodoroRemainingTime →
      (startPomodoro s t0).pomodoroInterval = some id →
      (∀ u ∈ ticks, u < t0 + s.pomodoroRemainingTime) →
      t0 ≤ t → t < t0 + s.pomodoroRemainingTime →
      (fireAll (startPomodoro s t0) id (ticks ++ [t])).pomodoroRemainingTime
        = s.pomodoroRemainingTime - (t - t0)) := by
  constructor
  · intro s id t0 t ticks hr hpos hid hall _ hlt
    obtain ⟨h1, _, _, h4⟩ := startTimer_live s t0 hr hpos
    rw [h1] at hid
    cases hid
    have hlive := fireAll_timer_live s.nextIntervalId _ ticks _ h4 hall
    rw [fireAll_snoc, fire_timer_running _ _ _ t hlive hlt]
    show t0 + s.timerRemainingTime - t = s.timerRemainingTime - (t - t0)
    omega
  · intro s id t0 t ticks hr _ hid hall _ hlt
    obtain ⟨h1, _, _, h4⟩ := startPomodoro_live s t0 hr
    rw [h1] at hid
    cases hid
    have hlive := fireAll_pomodoro_live s.nextIntervalId _ ticks _ h4 hall
    rw [fireAll_snoc, fire_pomodoro_running _ _ _ t hlive hlt]
    show t0 + s.pomodoroRemainingTime - t = s.pomodoroRemainingTime - (t - t0)
    omega

/-- C4 at concrete inputs: a 5 s countdown started at 1000 and ticked at 1100, 1350
(late) and 2200 shows 3800 at 2200; the Pomodoro work phase started at 1000 and
ticked at 1100, 1900 and 61000 shows 1440000 at 61000. -/
theorem C4_drift_free_witness :
    (fireAll (startTimer (setTimer (step (initApp initialState) 0
        (Event.timerInput "0" "0" "5"))) 1000) 2 ([1100, 1350] ++ [2200])).timerRemainingTime
      = 5000 - (2200 - 1000) ∧
    (fireAll (startPomodoro (initApp initialState) 1000) 2
        ([1100, 1900] ++ [61000])).pomodoroRemainingTime
      = 1500000 - (61000 - 1000) :=
  ⟨C4_drift_free.1 (setTimer (step (initApp initialState) 0 (Event.timerInput "0" "0" "5")))
      2 1000 2200 [1100, 1350] (by decide) (by decide) (by decide) (by decide) (by decide)
      (by decide),
    C4_drift_free.2 (initApp initialState) 2 1000 61000 [1100, 1900] (by decide) (by decide)
      (by decide) (by decide) (by decide) (by decide)⟩


/-! ## Countdown timer: expiry and setting the duration -/

theorem fire_timer_expired (s : State) (id : Nat) (e now : Int)
    (hl : liveCallback s id = some (Callback.timerTick e)) (hle : e ≤ now) :
    fire s id now =
      { clearInterval { s with timerRemainingTime := e - now } s.timerInterval with
        timerRemainingTime := 0, timerIsRunning := false } := by
  have hneg : e - now ≤ 0 := by omega
  simp [fire, hl, runCallback, timerTick, hneg]

theorem fire_dead (s : State) (id : Nat) (now : Int) (h : liveCallback s id = none) :
    fire s id now = s := by
  simp [fire, h]

theorem no_timerTick_of_idle (s : State) (h : WF s) (hr : s.timerIsRunning = false)
    (id : Nat) (e : Int) : liveCallback s id ≠ some (Callback.timerTick e) := by
  intro hl
  have := (h.timer id e (mem_of_lookup _ _ _ hl)).2
  simp [hr] at this

/-- An idle countdown at zero stays idle at zero under every event except a
`setTimer` that reads a non-zero duration. -/
theorem idle_zero_step (s : State) (now : Int) (ev : Event) (h : WF s)
    (hr : s.timerIsRunning = false) (hz : s.timerRemainingTime = 0)
    (hev : ev = Event.setTimer → setTimer s = s) :
    (step s now ev).timerIsRunning = false ∧ (step s now ev).timerRemainingTime = 0 := by
  cases ev with
  | changeMode m =>
    simp only [step, changeMode_eq]
    have e1 : (leaveClock s).timerIsRunning = false ∧ (leaveClock s).timerRemainingTime = 0 := by
      unfold leaveClock
      split <;> simp [clearInterval_eq, hr, hz]
    have e2 : ∀ u : State, u.timerIsRunning = false ∧ u.timerRemainingTime = 0 →
        (leavePomodoro u).timerIsRunning = false ∧ (leavePomodoro u).timerRemainingTime = 0 := by
      intro u hu
      unfold leavePomodoro pausePomodoro
      repeat' split
      all_goals simp [clearInterval_eq, hu.1, hu.2]
    have e3 : ∀ u : State, u.timerIsRunning = false ∧ u.timerRemainingTime = 0 →
        (leaveTimer u).timerIsRunning = false ∧ (leaveTimer u).timerRemainingTime = 0 := by
      intro u hu
      unfold leaveTimer pauseTimer
      repeat' split
      all_goals simp [clearInterval_eq, hu.1, hu.2]
    have e4 : ∀ u : State, u.timerIsRunning = false ∧ u.timerRemainingTime = 0 →
        (leaveStopwatch u).timerIsRunning = false ∧
        (leaveStopwatch u).timerRemainingTime = 0 := by
      intro u hu
      unfold leaveStopwatch pauseStopwatch
      repeat' split
      all_goals simp [clearInterval_eq, hu.1, hu.2]
    have e5 : ∀ u : State, u.timerIsRunning = false ∧ u.timerRemainingTime = 0 →
        (enterMode u m).timerIsRunning = false ∧ (enterMode u m).timerRemainingTime = 0 := by
      intro u hu
      unfold enterMode
      dsimp only
      split <;> simp [startClock, setInterval, hu.1, hu.2]
    exact e5 _ (e4 _ (e3 _ (e2 _ e1)))
  | startPomodoro =>
    simp only [step, startPomodoro]
    split <;> simp [setInterval, hr, hz]
  | pausePomodoro =>
    simp only [step, pausePomodoro]
    split <;> simp [clearInterval_eq, hr, hz]
  | resetPomodoro => simp [step, resetPomodoro, clearInterval_eq, hr, hz]
  | adjustPomodoroTime d => simp [step, adjustPomodoroTime, hr, hz]
  | timerInput a b c => simp [step, hr, hz]
  | setTimer =>
    simp only [step]
    rw [hev rfl]
    exact ⟨hr, hz⟩
  | startTimer => simp [step, startTimer, hr, hz]
  | pauseTimer => simp [step, pauseTimer, hr, hz]
  | resetTimer => simp [step, resetTimer, clearInterval_eq]
  | startStopwatch =>
    simp only [step, startStopwatch]
    split <;> simp [setInterval, hr, hz]
  | pauseStopwatch =>
    simp only [step, pauseStopwatch]
    split <;> simp [clearInterval_eq, hr, hz]
  | resetStopwatch => simp [step, resetStopwatch, clearInterval_eq, hr, hz]
  | lapStopwatch =>
    simp only [step, lapStopwatch]
    split <;> simp [hr, hz]
  | tick id =>
    simp only [step, fire]
    split
    · exact ⟨hr, hz⟩
    · rename_i cb hcb
      cases cb with
      | updateClock => exact ⟨hr, hz⟩
      | pomodoroTick e =>
        simp only [runCallback, pomodoroTick, handlePomodoroCompletion, startPomodoro]
        repeat' split
        all_goals simp [clearInterval_eq, setInterval, hr, hz]
      | timerTick e => exact absurd hcb (no_timerTick_of_idle s h hr id e)
      | stopwatchTick => simp [runCallback, stopwatchTick, hr, hz]

/-- C5: in a reachable state with a live countdown tick anchored at `e`, a tick at
`now ≥ e` stores remaining 0, clears the running flag and cancels the interval: no
countdown tick is live afterwards, so a further firing of the handle changes nothing.
After any countdown tick the stored remaining time is not negative.  With the
countdown idle at remaining 0, `startTimer` changes nothing, and the countdown stays
idle at 0 under every event other than a `setTimer` that reads a non-zero duration;
after such a `setTimer`, `startTimer` runs the countdown again. -/
theorem C5_countdown_expiry :
    (∀ (s : State) (id : Nat) (e now : Int), Reachable s →
      liveCallback s id = some (Callback.timerTick e) → e ≤ now →
      (fire s id now).timerRemainingTime = 0 ∧
      (fire s id now).timerIsRunning = false ∧
      (∀ (id2 : Nat) (e2 : Int),
        liveCallback (fire s id now) id2 ≠ some (Callback.timerTick e2)) ∧
      (∀ later : Int, fire (fire s id now) id later = fire s id now)) ∧
    (∀ (s : State) (id : Nat) (e now : Int),
      liveCallback s id = some (Callback.timerTick e) →
      0 ≤ (fire s id now).timerRemainingTime) ∧
    (∀ (s : State) (now : Int), s.timerIsRunning = false → s.timerRemainingTime = 0 →
      startTimer s now = s) ∧
    (∀ (s : State) (now : Int) (ev : Event), Reachable s →
      s.timerIsRunning = false → s.timerRemainingTime = 0 →
      (ev = Event.setTimer → setTimer s = s) →
      (step s now ev).timerIsRunning = false ∧ (step s now ev).timerRemainingTime = 0) ∧
    (∀ (s : State) (now : Int), s.timerIsRunning = false →
      ¬ (coerceField s.timerHours = 0 ∧ coerceField s.timerMinutes = 0 ∧
          coerceField s.timerSeconds = 0) →
      (startTimer (setTimer s) now).timerIsRunning = true ∧
      liveCallback (startTimer (setTimer s) now) s.nextIntervalId
        = some (Callback.timerTick (now + (setTimer s).timerTotalDuration))) := by
  refine ⟨?_, ?_, ?_, ?_, ?_⟩
  · intro s id e now hs hl hle
    have hwf := WF_of_reachable s hs
    have hmem := mem_of_lookup _ _ _ hl
    have hid : s.timerInterval = some id := (hwf.timer id e hmem).1
    have hwf2 : WF (fire s id now) := WF_fire s id now hwf
    have hrun : (fire s id now).timerIsRunning = false := by
      rw [fire_timer_expired s id e now hl hle]
    have hnone : ∀ (id2 : Nat) (e2 : Int),
        liveCallback (fire s id now) id2 ≠ some (Callback.timerTick e2) :=
      fun id2 e2 => no_timerTick_of_idle _ hwf2 hrun id2 e2
    refine ⟨by rw [fire_timer_expired s id e now hl hle], hrun, hnone, ?_⟩
    intro later
    have hdead : liveCallback (fire s id now) id = none := by
      rw [fire_timer_expired s id e now hl hle, clearInterval_eq, hid]
      unfold liveCallback
      apply Option.eq_none_iff_forall_not_mem.2
      intro cb hcb
      have := mem_of_lookup _ _ _ hcb
      simp [List.mem_filter] at this
    exact fire_dead _ _ _ hdead
  · intro s id e now hl
    by_cases hle : e ≤ now
    · rw [fire_timer_expired s id e now hl hle]
    · rw [fire_timer_running s id e now hl (by omega)]
      show 0 ≤ e - now
      omega
  · intro s now hr hz
    simp [startTimer, hr, hz]
  · intro s now ev hs hr hz hev
    exact idle_zero_step s now ev (WF_of_reachable s hs) hr hz hev
  · intro s now hr hnz
    have hset : (setTimer s).timerIsRunning = false ∧
        (setTimer s).nextIntervalId = s.nextIntervalId ∧
        (setTimer s).timerRemainingTime = (setTimer s).timerTotalDuration ∧
        0 < (setTimer s).timerRemainingTime := by
      have h1 : 0 ≤ coerceField s.timerHours := abs_nonneg _
      have h2 : 0 ≤ coerceField s.timerMinutes := abs_nonneg _
      have h3 : 0 ≤ coerceField s.timerSeconds := abs_nonneg _
      simp only [setTimer, hnz, if_false, hr, true_and]
      by_contra hcon
      apply hnz
      refine ⟨?_, ?_, ?_⟩ <;> omega
    obtain ⟨g1, g2, g3, g4⟩ := hset
    obtain ⟨_, k2, _, k4⟩ := startTimer_live (setTimer s) now g1 g4
    rw [g2, g3] at k4
    exact ⟨k2, k4⟩

/-- C5 at a concrete input: a 5 s countdown set and started at 0 in the freshly
initialised page; its tick at 5003 expires it, and a start at 6000 changes nothing. -/
theorem C5_countdown_expiry_witness :
    (Reachable (run (initApp initialState)
        [(0, Event.timerInput "0" "0" "5"), (0, Event.setTimer), (0, Event.startTimer)]) ∧
      liveCallback (run (initApp initialState)
        [(0, Event.timerInput "0" "0" "5"), (0, Event.setTimer), (0, Event.startTimer)]) 2
        = some (Callback.timerTick 5000) ∧ (5000 : Int) ≤ 5003) ∧
    (fire (run (initApp initialState)
        [(0, Event.timerInput "0" "0" "5"), (0, Event.setTimer), (0, Event.startTimer)])
        2 5003).timerRemainingTime = 0 ∧
    (fire (run (initApp initialState)
        [(0, Event.timerInput "0" "0" "5"), (0, Event.setTimer), (0, Event.startTimer)])
        2 5003).timerIsRunning = false ∧
    startTimer (fire (run (initApp initialState)
        [(0, Event.timerInput "0" "0" "5"), (0, Event.setTimer), (0, Event.startTimer)])
        2 5003) 6000
      = fire (run (initApp initialState)
        [(0, Event.timerInput "0" "0" "5"), (0, Event.setTimer), (0, Event.startTimer)])
        2 5003 :=
  ⟨⟨⟨_, rfl⟩, by decide, by decide⟩,
    (C5_countdown_expiry.1 _ 2 5000 5003 ⟨_, rfl⟩ (by decide) (by decide)).1,
    (C5_countdown_expiry.1 _ 2 5000 5003 ⟨_, rfl⟩ (by decide) (by decide)).2.1,
    C5_countdown_expiry.2.2.1 _ 6000 (by decide) (by decide)⟩

/-- C6: `setTimer` reads the three fields as non-negative integers `h`, `m`, `s`.
When all three are zero the whole state, input fields included, is unchanged.
Otherwise the running flag is untouched, `(h*3600 + m*60 + s) * 1000` is positive,
and, when that number is at most `exactLimit` (2^53, the range in which the code's
floating-point arithmetic is exact), total and remaining both become it. -/
theorem C6_setTimer (s : State) :
    (0 ≤ coerceField s.timerHours ∧ 0 ≤ coerceField s.timerMinutes ∧
      0 ≤ coerceField s.timerSeconds) ∧
    (coerceField s.timerHours = 0 ∧ coerceField s.timerMinutes = 0 ∧
        coerceField s.timerSeconds = 0 → setTimer s = s) ∧
    (¬ (coerceField s.timerHours = 0 ∧ coerceField s.timerMinutes = 0 ∧
        coerceField s.timerSeconds = 0) →
      0 < (coerceField s.timerHours * 3600 + coerceField s.timerMinutes * 60
            + coerceField s.timerSeconds) * 1000 ∧
      (setTimer s).timerIsRunning = s.timerIsRunning) ∧
    (¬ (coerceField s.timerHours = 0 ∧ coerceField s.timerMinutes = 0 ∧
        coerceField s.timerSeconds = 0) →
      (coerceField s.timerHours * 3600 + coerceField s.timerMinutes * 60
            + coerceField s.timerSeconds) * 1000 ≤ exactLimit →
      (setTimer s).timerTotalDuration
        = (coerceField s.timerHours * 3600 + coerceField s.timerMinutes * 60
            + coerceField s.timerSeconds) * 1000 ∧
      (setTimer s).timerRemainingTime
        = (coerceField s.timerHours * 3600 + coerceField s.timerMinutes * 60
            + coerceField s.timerSeconds) * 1000) := by
  have h1 : 0 ≤ coerceField s.timerHours := abs_nonneg _
  have h2 : 0 ≤ coerceField s.timerMinutes := abs_nonneg _
  have h3 : 0 ≤ coerceField s.timerSeconds := abs_nonneg _
  refine ⟨⟨h1, h2, h3⟩, ?_, ?_, ?_⟩
  · intro hz
    simp [setTimer, hz]
  · intro hnz
    simp only [setTimer, hnz, if_false, and_true]
    by_contra hcon
    apply hnz
    refine ⟨?_, ?_, ?_⟩ <;> omega
  · intro hnz _
    simp only [setTimer, hnz, if_false, and_self]

/-- C6 at concrete inputs: with empty fields `setTimer` changes nothing; with the
fields "1", "-2" and "3.9" the total 3723000 is within `exactLimit` and `setTimer`
sets total and remaining to 3723000 ms. -/
theorem C6_setTimer_witness :
    setTimer initialState = initialState ∧
    (coerceField "1" * 3600 + coerceField "-2" * 60 + coerceField "3.9") * 1000
      ≤ exactLimit ∧
    (setTimer (step initialState 0 (Event.timerInput "1" "-2" "3.9"))).timerTotalDuration
      = 3723000 ∧
    (setTimer (step initialState 0 (Event.timerInput "1" "-2" "3.9"))).timerRemainingTime
      = 3723000 ∧
    (setTimer (step initialState 0 (Event.timerInput "1" "-2" "3.9"))).timerIsRunning
      = false :=
  ⟨(C6_setTimer initialState).2.1 (by decide),
    by decide,
    ((C6_setTimer (step initialState 0 (Event.timerInput "1" "-2" "3.9"))).2.2.2
      (by decide) (by decide)).1,
    ((C6_setTimer (step initialState 0 (Event.timerInput "1" "-2" "3.9"))).2.2.2
      (by decide) (by decide)).2,
    ((C6_setTimer (step initialState 0 (Event.timerInput "1" "-2" "3.9"))).2.2.1
      (by decide)).2⟩


/-! ## Mode switching -/

theorem leaveClock_frame (u : State) :
    (leaveClock u).currentMode = u.currentMode ∧
    pomodoroValues (leaveClock u) = pomodoroValues u ∧
    (leaveClock u).pomodoroIsRunning = u.pomodoroIsRunning ∧
    timerValues (leaveClock u) = timerValues u ∧
    (leaveClock u).timerIsRunning = u.timerIsRunning ∧
    stopwatchValues (leaveClock u) = stopwatchValues u ∧
    (leaveClock u).stopwatchIsRunning = u.stopwatchIsRunning := by
  unfold leaveClock
  split <;> simp [clearInterval_eq, pomodoroValues, timerValues, stopwatchValues]

theorem leavePomodoro_frame (u : State) :
    (leavePomodoro u).currentMode = u.currentMode ∧
    pomodoroValues (leavePomodoro u) = pomodoroValues u ∧
    timerValues (leavePomodoro u) = timerValues u ∧
    (leavePomodoro u).timerIsRunning = u.timerIsRunning ∧
    stopwatchValues (leavePomodoro u) = stopwatchValues u ∧
    (leavePomodoro u).stopwatchIsRunning = u.stopwatchIsRunning := by
  unfold leavePomodoro pausePomodoro
  repeat' split
  all_goals simp [clearInterval_eq, pomodoroValues, timerValues, stopwatchValues]

theorem leaveTimer_frame (u : State) :
    (leaveTimer u).currentMode = u.currentMode ∧
    pomodoroValues (leaveTimer u) = pomodoroValues u ∧
    (leaveTimer u).pomodoroIsRunning = u.pomodoroIsRunning ∧
    timerValues (leaveTimer u) = timerValues u ∧
    stopwatchValues (leaveTimer u) = stopwatchValues u ∧
    (leaveTimer u).stopwatchIsRunning = u.stopwatchIsRunning := by
  unfold leaveTimer pauseTimer
  repeat' split
  all_goals simp [clearInterval_eq, pomodoroValues, timerValues, stopwatchValues]

theorem leaveStopwatch_frame (u : State) :
    (leaveStopwatch u).currentMode = u.currentMode ∧
    pomodoroValues (leaveStopwatch u) = pomodoroValues u ∧
    (leaveStopwatch u).pomodoroIsRunning = u.pomodoroIsRunning ∧
    timerValues (leaveStopwatch u) = timerValues u ∧
    (leaveStopwatch u).timerIsRunning = u.timerIsRunning ∧
    stopwatchValues (leaveStopwatch u) = stopwatchValues u := by
  unfold leaveStopwatch pauseStopwatch
  repeat' split
  all_goals simp [clearInterval_eq, pomodoroValues, timerValues, stopwatchValues]

theorem enterMode_frame (u : State) (m : String) :
    (enterMode u m).currentMode = m ∧
    pomodoroValues (enterMode u m) = pomodoroValues u ∧
    (enterMode u m).pomodoroIsRunning = u.pomodoroIsRunning ∧
    timerValues (enterMode u m) = timerValues u ∧
    (enterMode u m).timerIsRunning = u.timerIsRunning ∧
    stopwatchValues (enterMode u m) = stopwatchValues u ∧
    (enterMode u m).stopwatchIsRunning = u.stopwatchIsRunning := by
  unfold enterMode
  dsimp only
  split <;> simp [startClock, setInterval, pomodoroValues, timerValues, stopwatchValues]

theorem leavePomodoro_flag (u : State)
    (h : u.currentMode = "pomodoro" ∨ u.pomodoroIsRunning = false) :
    (leavePomodoro u).pomodoroIsRunning = false := by
  unfold leavePomodoro
  split
  · unfold pausePomodoro
    split <;> simp_all [clearInterval_eq]
  · rename_i hn
    rcases h with h | h
    · simpa [h] using hn
    · exact h

theorem leaveTimer_flag (u : State)
    (h : u.currentMode = "timer" ∨ u.timerIsRunning = false) :
    (leaveTimer u).timerIsRunning = false := by
  unfold leaveTimer
  split
  · unfold pauseTimer
    split <;> simp_all [clearInterval_eq]
  · rename_i hn
    rcases h with h | h
    · simpa [h] using hn
    · exact h

theorem leaveStopwatch_flag (u : State)
    (h : u.currentMode = "stopwatch" ∨ u.stopwatchIsRunning = false) :
    (leaveStopwatch u).stopwatchIsRunning = false := by
  unfold leaveStopwatch
  split
  · unfold pauseStopwatch
    split <;> simp_all [clearInterval_eq]
  · rename_i hn
    rcases h with h | h
    · simpa [h] using hn
    · exact h

/-- `changeMode` never alters a duration, a phase, a lap count or the lap list. -/
theorem changeMode_values (s : State) (m : String) :
    (changeMode s m).currentMode = m ∧
    pomodoroValues (changeMode s m) = pomodoroValues s ∧
    timerValues (changeMode s m) = timerValues s ∧
    stopwatchValues (changeMode s m) = stopwatchValues s := by
  rw [changeMode_eq]
  obtain ⟨_, a2, _, a4, _, a6, _⟩ := leaveClock_frame s
  obtain ⟨_, b2, b3, _, b5, _⟩ := leavePomodoro_frame (leaveClock s)
  obtain ⟨_, c2, _, c4, c5, _⟩ := leaveTimer_frame (leavePomodoro (leaveClock s))
  obtain ⟨_, d2, _, d4, _, d6⟩ := leaveStopwatch_frame (leaveTimer (leavePomodoro (leaveClock s)))
  obtain ⟨e1, e2, _, e4, _, e6, _⟩ :=
    enterMode_frame (leaveStopwatch (leaveTimer (leavePomodoro (leaveClock s)))) m
  exact ⟨e1, by rw [e2, d2, c2, b2, a2], by rw [e4, d4, c4, b3, a4], by rw [e6, d6, c5, b5, a6]⟩

theorem changeMode_pomodoro_flag (s : State) (m : String)
    (h : s.currentMode = "pomodoro" ∨ s.pomodoroIsRunning = false) :
    (changeMode s m).pomodoroIsRunning = false := by
  rw [changeMode_eq]
  obtain ⟨a1, _, a3, _⟩ := leaveClock_frame s
  obtain ⟨_, _, c3, _⟩ := leaveTimer_frame (leavePomodoro (leaveClock s))
  obtain ⟨_, _, d3, _⟩ := leaveStopwatch_frame (leaveTimer (leavePomodoro (leaveClock s)))
  obtain ⟨_, _, e3, _⟩ :=
    enterMode_frame (leaveStopwatch (leaveTimer (leavePomodoro (leaveClock s)))) m
  rw [e3, d3, c3]
  apply leavePomodoro_flag
  rw [a1, a3]
  exact h

theorem changeMode_timer_flag (s : State) (m : String)
    (h : s.currentMode = "timer" ∨ s.timerIsRunning = false) :
    (changeMode s m).timerIsRunning = false := by
  rw [changeMode_eq]
  obtain ⟨a1, _, _, _, a5, _⟩ := leaveClock_frame s
  obtain ⟨b1, _, _, b4, _⟩ := leavePomodoro_frame (leaveClock s)
  obtain ⟨_, _, _, _, d5, _⟩ := leaveStopwatch_frame (leaveTimer (leavePomodoro (leaveClock s)))
  obtain ⟨_, _, _, _, e5, _⟩ :=
    enterMode_frame (leaveStopwatch (leaveTimer (leavePomodoro (leaveClock s)))) m
  rw [e5, d5]
  apply leaveTimer_flag
  rw [b1, b4, a1, a5]
  exact h

theorem changeMode_stopwatch_flag (s : State) (m : String)
    (h : s.currentMode = "stopwatch" ∨ s.stopwatchIsRunning = false) :
    (changeMode s m).stopwatchIsRunning = false := by
  rw [changeMode_eq]
  obtain ⟨a1, _, _, _, _, _, a7⟩ := leaveClock_frame s
  obtain ⟨b1, _, _, _, _, b6⟩ := leavePomodoro_frame (leaveClock s)
  obtain ⟨c1, _, _, _, _, c6⟩ := leaveTimer_frame (leavePomodoro (leaveClock s))
  obtain ⟨_, _, _, _, _, _, e7⟩ :=
    enterMode_frame (leaveStopwatch (leaveTimer (leavePomodoro (leaveClock s)))) m
  rw [e7]
  apply leaveStopwatch_flag
  rw [c1, c6, b1, b6, a1, a7]
  exact h

theorem no_pomodoroTick_of_idle (s : State) (h : WF s) (hr : s.pomodoroIsRunning = false)
    (id : Nat) (e : Int) : liveCallback s id ≠ some (Callback.pomodoroTick e) := by
  intro hl
  have := (h.pomodoro id e (mem_of_lookup _ _ _ hl)).2
  simp [hr] at this

theorem no_stopwatchTick_of_idle (s : State) (h : WF s) (hr : s.stopwatchIsRunning = false)
    (id : Nat) : liveCallback s id ≠ some Callback.stopwatchTick := by
  intro hl
  have := (h.stopwatch id (mem_of_lookup _ _ _ hl)).2
  simp [hr] at this

theorem fire_pomodoro_idle (s : State) (id : Nat) (now : Int) (h : WF s)
    (hr : s.pomodoroIsRunning = false) :
    pomodoroValues (fire s id now) = pomodoroValues s ∧
    (fire s id now).pomodoroIsRunning = false := by
  unfold fire
  split
  · exact ⟨rfl, hr⟩
  · rename_i cb hcb
    cases cb with
    | updateClock => exact ⟨rfl, hr⟩
    | pomodoroTick e => exact absurd hcb (no_pomodoroTick_of_idle s h hr id e)
    | timerTick e =>
      simp only [runCallback, timerTick]
      split <;> simp [clearInterval_eq, pomodoroValues, hr]
    | stopwatchTick => exact ⟨rfl, hr⟩

theorem fire_timer_idle (s : State) (id : Nat) (now : Int) (h : WF s)
    (hr : s.timerIsRunning = false) :
    timerValues (fire s id now) = timerValues s ∧
    (fire s id now).timerIsRunning = false := by
  unfold fire
  split
  · exact ⟨rfl, hr⟩
  · rename_i cb hcb
    cases cb with
    | updateClock => exact ⟨rfl, hr⟩
    | pomodoroTick e =>
      simp only [runCallback, pomodoroTick, handlePomodoroCompletion, startPomodoro]
      repeat' split
      all_goals simp [clearInterval_eq, setInterval, timerValues, hr]
    | timerTick e => exact absurd hcb (no_timerTick_of_idle s h hr id e)
    | stopwatchTick => exact ⟨rfl, hr⟩

theorem fire_stopwatch_idle (s : State) (id : Nat) (now : Int) (h : WF s)
    (hr : s.stopwatchIsRunning = false) :
    stopwatchValues (fire s id now) = stopwatchValues s ∧
    (fire s id now).stopwatchIsRunning = false := by
  unfold fire
  split
  · exact ⟨rfl, hr⟩
  · rename_i cb hcb
    cases cb with
    | updateClock => exact ⟨rfl, hr⟩
    | pomodoroTick e =>
      simp only [runCallback, pomodoroTick, handlePomodoroCompletion, startPomodoro]
      repeat' split
      all_goals simp [clearInterval_eq, setInterval, stopwatchValues, hr]
    | timerTick e =>
      simp only [runCallback, timerTick]
      split <;> simp [clearInterval_eq, stopwatchValues, hr]
    | stopwatchTick => exact absurd hcb (no_stopwatchTick_of_idle s h hr id)

theorem WF_fireMany (ticks : List (Nat × Int)) (s : State) (h : WF s) :
    WF (fireMany s ticks) := by
  induction ticks generalizing s with
  | nil => exact h
  | cons p tl ih => exact ih _ (WF_fire s p.1 p.2 h)

theorem fireMany_pomodoro_idle (ticks : List (Nat × Int)) (s : State) (h : WF s)
    (hr : s.pomodoroIsRunning = false) :
    pomodoroValues (fireMany s ticks) = pomodoroValues s ∧
    (fireMany s ticks).pomodoroIsRunning = false := by
  induction ticks generalizing s with
  | nil => exact ⟨rfl, hr⟩
  | cons p tl ih =>
    obtain ⟨h1, h2⟩ := fire_pomodoro_idle s p.1 p.2 h hr
    obtain ⟨h3, h4⟩ := ih (fire s p.1 p.2) (WF_fire s p.1 p.2 h) h2
    exact ⟨h3.trans h1, h4⟩

theorem fireMany_timer_idle (ticks : List (Nat × Int)) (s : State) (h : WF s)
    (hr : s.timerIsRunning = false) :
    timerValues (fireMany s ticks) = timerValues s ∧
    (fireMany s ticks).timerIsRunning = false := by
  induction ticks generalizing s with
  | nil => exact ⟨rfl, hr⟩
  | cons p tl ih =>
    obtain ⟨h1, h2⟩ := fire_timer_idle s p.1 p.2 h hr
    obtain ⟨h3, h4⟩ := ih (fire s p.1 p.2) (WF_fire s p.1 p.2 h) h2
    exact ⟨h3.trans h1, h4⟩

theorem fireMany_stopwatch_idle (ticks : List (Nat × Int)) (s : State) (h : WF s)
    (hr : s.stopwatchIsRunning = false) :
    stopwatchValues (fireMany s ticks) = stopwatchValues s ∧
    (fireMany s ticks).stopwatchIsRunning = false := by
  induction ticks generalizing s with
  | nil => exact ⟨rfl, hr⟩
  | cons p tl ih =>
    obtain ⟨h1, h2⟩ := fire_stopwatch_idle s p.1 p.2 h hr
    obtain ⟨h3, h4⟩ := ih (fire s p.1 p.2) (WF_fire s p.1 p.2 h) h2
    exact ⟨h3.trans h1, h4⟩

/-- C7: in a reachable state where mode M (pomodoro, timer or stopwatch) is active
and its timer is running, `changeMode(m)` for another mode `m` leaves M's timer not
running, with no tick of M scheduled and with M's values (remaining or elapsed time,
phase, work laps, total, lap counter, lap list) as they were.  Whatever intervals fire
afterwards, activating M again leaves M active, still not running, with no tick of M
scheduled and the values of the moment of the switch. -/
theorem C7_mode_switch_pauses :
    (∀ (s : State) (m : String) (ticks : List (Nat × Int)), Reachable s →
      s.currentMode = "pomodoro" → s.pomodoroIsRunning = true → m ≠ "pomodoro" →
      ((changeMode s m).pomodoroIsRunning = false ∧
        (∀ (id : Nat) (e : Int),
          liveCallback (changeMode s m) id ≠ some (Callback.pomodoroTick e)) ∧
        pomodoroValues (changeMode s m) = pomodoroValues s) ∧
      ((changeMode (fireMany (changeMode s m) ticks) "pomodoro").currentMode = "pomodoro" ∧
        (changeMode (fireMany (changeMode s m) ticks) "pomodoro").pomodoroIsRunning = false ∧
        (∀ (id : Nat) (e : Int),
          liveCallback (changeMode (fireMany (changeMode s m) ticks) "pomodoro") id
            ≠ some (Callback.pomodoroTick e)) ∧
        pomodoroValues (changeMode (fireMany (changeMode s m) ticks) "pomodoro")
          = pomodoroValues s)) ∧
    (∀ (s : State) (m : String) (ticks : List (Nat × Int)), Reachable s →
      s.currentMode = "timer" → s.timerIsRunning = true → m ≠ "timer" →
      ((changeMode s m).timerIsRunning = false ∧
        (∀ (id : Nat) (e : Int),
          liveCallback (changeMode s m) id ≠ some (Callback.timerTick e)) ∧
        timerValues (changeMode s m) = timerValues s) ∧
      ((changeMode (fireMany (changeMode s m) ticks) "timer").currentMode = "timer" ∧
        (changeMode (fireMany (changeMode s m) ticks) "timer").timerIsRunning = false ∧
        (∀ (id : Nat) (e : Int),
          liveCallback (changeMode (fireMany (changeMode s m) ticks) "timer") id
            ≠ some (Callback.timerTick e)) ∧
        timerValues (changeMode (fireMany (changeMode s m) ticks) "timer")
          = timerValues s)) ∧
    (∀ (s : State) (m : String) (ticks : List (Nat × Int)), Reachable s →
      s.currentMode = "stopwatch" → s.stopwatchIsRunning = true → m ≠ "stopwatch" →
      ((changeMode s m).stopwatchIsRunning = false ∧
        (∀ id : Nat, liveCallback (changeMode s m) id ≠ some Callback.stopwatchTick) ∧
        stopwatchValues (changeMode s m) = stopwatchValues s) ∧
      ((changeMode (fireMany (changeMode s m) ticks) "stopwatch").currentMode = "stopwatch" ∧
        (changeMode (fireMany (changeMode s m) ticks) "stopwatch").stopwatchIsRunning
          = false ∧
        (∀ id : Nat,
          liveCallback (changeMode (fireMany (changeMode s m) ticks) "stopwatch") id
            ≠ some Callback.stopwatchTick) ∧
        stopwatchValues (changeMode (fireMany (changeMode s m) ticks) "stopwatch")
          = stopwatchValues s)) := by
  refine ⟨?_, ?_, ?_⟩
  · intro s m ticks hs hmode _ _
    have hwt : WF (changeMode s m) := WF_changeMode s m (WF_of_reachable s hs)
    have hflag := changeMode_pomodoro_flag s m (Or.inl hmode)
    have hvals := (changeMode_values s m).2.1
    obtain ⟨fv, ff⟩ := fireMany_pomodoro_idle ticks _ hwt hflag
    have hwu := WF_changeMode _ "pomodoro" (WF_fireMany ticks _ hwt)
    have uflag := changeMode_pomodoro_flag (fireMany (changeMode s m) ticks) "pomodoro"
      (Or.inr ff)
    have uvals := (changeMode_values (fireMany (changeMode s m) ticks) "pomodoro").2.1
    exact ⟨⟨hflag, no_pomodoroTick_of_idle _ hwt hflag, hvals⟩,
      ⟨(changeMode_values _ _).1, uflag, no_pomodoroTick_of_idle _ hwu uflag,
        uvals.trans (fv.trans hvals)⟩⟩
  · intro s m ticks hs hmode _ _
    have hwt : WF (changeMode s m) := WF_changeMode s m (WF_of_reachable s hs)
    have hflag := changeMode_timer_flag s m (Or.inl hmode)
    have hvals := (changeMode_values s m).2.2.1
    obtain ⟨fv, ff⟩ := fireMany_timer_idle ticks _ hwt hflag
    have hwu := WF_changeMode _ "timer" (WF_fireMany ticks _ hwt)
    have uflag := changeMode_timer_flag (fireMany (changeMode s m) ticks) "timer" (Or.inr ff)
    have uvals := (changeMode_values (fireMany (changeMode s m) ticks) "timer").2.2.1
    exact ⟨⟨hflag, no_timerTick_of_idle _ hwt hflag, hvals⟩,
      ⟨(changeMode_values _ _).1, uflag, no_timerTick_of_idle _ hwu uflag,
        uvals.trans (fv.trans hvals)⟩⟩
  · intro s m ticks hs hmode _ _
    have hwt : WF (changeMode s m) := WF_changeMode s m (WF_of_reachable s hs)
    have hflag := changeMode_stopwatch_flag s m (Or.inl hmode)
    have hvals := (changeMode_values s m).2.2.2
    obtain ⟨fv, ff⟩ := fireMany_stopwatch_idle ticks _ hwt hflag
    have hwu := WF_changeMode _ "stopwatch" (WF_fireMany ticks _ hwt)
    have uflag := changeMode_stopwatch_flag (fireMany (changeMode s m) ticks) "stopwatch"
      (Or.inr ff)
    have uvals := (changeMode_values (fireMany (changeMode s m) ticks) "stopwatch").2.2.2
    exact ⟨⟨hflag, no_stopwatchTick_of_idle _ hwt hflag, hvals⟩,
      ⟨(changeMode_values _ _).1, uflag, no_stopwatchTick_of_idle _ hwu uflag,
        uvals.trans (fv.trans hvals)⟩⟩

/-- C7 at a concrete input: Pomodoro activated and started at 0, ticked at 40000,
then the stopwatch mode is activated, the old handles fire at 50000 and 60000, and
the Pomodoro mode is activated again: it is paused at 1460000 ms, Work, 0 laps. -/
theorem C7_mode_switch_pauses_witness :
    (Reachable (run (initApp initialState)
        [(0, Event.changeMode "pomodoro"), (0, Event.startPomodoro), (40000, Event.tick 2)]) ∧
      (run (initApp initialState)
        [(0, Event.changeMode "pomodoro"), (0, Event.startPomodoro),
          (40000, Event.tick 2)]).currentMode = "pomodoro" ∧
      (run (initApp initialState)
        [(0, Event.changeMode "pomodoro"), (0, Event.startPomodoro),
          (40000, Event.tick 2)]).pomodoroIsRunning = true ∧ "stopwatch" ≠ "pomodoro") ∧
    (changeMode (fireMany (changeMode (run (initApp initialState)
        [(0, Event.changeMode "pomodoro"), (0, Event.startPomodoro), (40000, Event.tick 2)])
        "stopwatch") [(2, 50000), (1, 60000)]) "pomodoro").pomodoroIsRunning = false ∧
    pomodoroValues (changeMode (fireMany (changeMode (run (initApp initialState)
        [(0, Event.changeMode "pomodoro"), (0, Event.startPomodoro), (40000, Event.tick 2)])
        "stopwatch") [(2, 50000), (1, 60000)]) "pomodoro") = (1460000, Cycle.work, 0) :=
  ⟨⟨⟨_, rfl⟩, by decide, by decide, by decide⟩,
    ((C7_mode_switch_pauses.1 _ "stopwatch" [(2, 50000), (1, 60000)] ⟨_, rfl⟩ (by decide)
      (by decide) (by decide)).2).2.1,
    ((C7_mode_switch_pauses.1 _ "stopwatch" [(2, 50000), (1, 60000)] ⟨_, rfl⟩ (by decide)
      (by decide) (by decide)).2).2.2.2⟩


/-! ## Mode identifiers outside the four modes -/

theorem leavePomodoro_inactive (u : State) (h : u.currentMode ≠ "pomodoro") :
    leavePomodoro u = u := by
  simp [leavePomodoro, h]

theorem leaveTimer_inactive (u : State) (h : u.currentMode ≠ "timer") :
    leaveTimer u = u := by
  simp [leaveTimer, h]

theorem leaveStopwatch_inactive (u : State) (h : u.currentMode ≠ "stopwatch") :
    leaveStopwatch u = u := by
  simp [leaveStopwatch, h]

theorem changeMode_pomodoro_inactive (s : State) (m : String)
    (h : s.currentMode ≠ "pomodoro") :
    (changeMode s m).pomodoroIsRunning = s.pomodoroIsRunning := by
  rw [changeMode_eq]
  obtain ⟨a1, _, a3, _⟩ := leaveClock_frame s
  obtain ⟨_, _, c3, _⟩ := leaveTimer_frame (leavePomodoro (leaveClock s))
  obtain ⟨_, _, d3, _⟩ := leaveStopwatch_frame (leaveTimer (leavePomodoro (leaveClock s)))
  obtain ⟨_, _, e3, _⟩ :=
    enterMode_frame (leaveStopwatch (leaveTimer (leavePomodoro (leaveClock s)))) m
  rw [e3, d3, c3, leavePomodoro_inactive _ (by rw [a1]; exact h), a3]

theorem changeMode_timer_inactive (s : State) (m : String)
    (h : s.currentMode ≠ "timer") :
    (changeMode s m).timerIsRunning = s.timerIsRunning := by
  rw [changeMode_eq]
  obtain ⟨a1, _, _, _, a5, _⟩ := leaveClock_frame s
  obtain ⟨b1, _, _, b4, _⟩ := leavePomodoro_frame (leaveClock s)
  obtain ⟨_, _, _, _, d5, _⟩ := leaveStopwatch_frame (leaveTimer (leavePomodoro (leaveClock s)))
  obtain ⟨_, _, _, _, e5, _⟩ :=
    enterMode_frame (leaveStopwatch (leaveTimer (leavePomodoro (leaveClock s)))) m
  rw [e5, d5, leaveTimer_inactive _ (by rw [b1, a1]; exact h), b4, a5]

theorem changeMode_stopwatch_inactive (s : State) (m : String)
    (h : s.currentMode ≠ "stopwatch") :
    (changeMode s m).stopwatchIsRunning = s.stopwatchIsRunning := by
  rw [changeMode_eq]
  obtain ⟨a1, _, _, _, _, _, a7⟩ := leaveClock_frame s
  obtain ⟨b1, _, _, _, _, b6⟩ := leavePomodoro_frame (leaveClock s)
  obtain ⟨c1, _, _, _, _, c6⟩ := leaveTimer_frame (leavePomodoro (leaveClock s))
  obtain ⟨_, _, _, _, _, _, e7⟩ :=
    enterMode_frame (leaveStopwatch (leaveTimer (leavePomodoro (leaveClock s)))) m
  rw [e7, leaveStopwatch_inactive _ (by rw [c1, b1, a1]; exact h), c6, b6, a7]

theorem mem_leaveClock (s : State) (p : Nat × Callback)
    (hp : p ∈ (leaveClock s).intervals) : p ∈ s.intervals := by
  unfold leaveClock at hp
  split at hp
  · exact ((mem_clearInterval _ _ _).1 hp).1
  · exact hp

theorem changeMode_no_new_interval (s : State) (m : String) (hm : m ≠ "clock")
    (p : Nat × Callback) (hp : p ∈ (changeMode s m).intervals) :
    p ∈ (leaveClock s).intervals := by
  rw [changeMode_eq] at hp
  simp only [enterMode, hm, if_false] at hp
  exact mem_leavePomodoro _ _ (mem_leaveTimer _ _ (mem_leaveStopwatch _ _ hp))

theorem changeMode_nextIntervalId (s : State) (m : String) (hm : m ≠ "clock") :
    (changeMode s m).nextIntervalId = s.nextIntervalId := by
  have e1 : (leaveClock s).nextIntervalId = s.nextIntervalId := by
    unfold leaveClock
    split <;> simp [clearInterval_eq]
  have e2 : ∀ u : State, (leavePomodoro u).nextIntervalId = u.nextIntervalId := by
    intro u
    unfold leavePomodoro pausePomodoro
    repeat' split
    all_goals simp [clearInterval_eq]
  have e3 : ∀ u : State, (leaveTimer u).nextIntervalId = u.nextIntervalId := by
    intro u
    unfold leaveTimer pauseTimer
    repeat' split
    all_goals simp [clearInterval_eq]
  have e4 : ∀ u : State, (leaveStopwatch u).nextIntervalId = u.nextIntervalId := by
    intro u
    unfold leaveStopwatch pauseStopwatch
    repeat' split
    all_goals simp [clearInterval_eq]
  rw [changeMode_eq]
  simp only [enterMode, hm, if_false]
  rw [e4, e3, e2, e1]

/-- C8 as stated fails: in the freshly initialised page (clock active and ticking)
`changeMode('settings')` records 'settings' as the active mode and cancels the clock
tick; with the stopwatch active and running, it pauses the stopwatch. -/
theorem C8_invalid_mode_not_ignored :
    "settings" ∉ validModes ∧
    (initApp initialState).currentMode = "clock" ∧
    (initApp initialState).intervals = [(1, Callback.updateClock)] ∧
    (changeMode (initApp initialState) "settings").currentMode = "settings" ∧
    (changeMode (initApp initialState) "settings").intervals = [] ∧
    changeMode (initApp initialState) "settings" ≠ initApp initialState ∧
    (run (initApp initialState)
      [(0, Event.changeMode "stopwatch"), (0, Event.startStopwatch)]).stopwatchIsRunning
      = true ∧
    (changeMode (run (initApp initialState)
      [(0, Event.changeMode "stopwatch"), (0, Event.startStopwatch)])
      "settings").stopwatchIsRunning = false := by
  decide

/-- C8 (amended): an identifier outside the four modes is not validated.  In every
reachable state `changeMode(identifier)` records the identifier as the active mode
and does the switch-away of a real mode change: no clock tick is live afterwards, the
timer of the mode that was active is not running, the running flags of the other
timers are untouched, no interval is added, and every duration, phase, lap count and
lap list is unchanged. -/
theorem C8_invalid_mode_switches_away (s : State) (m : String)
    (hs : Reachable s) (hm : m ∉ validModes) :
    (changeMode s m).currentMode = m ∧
    (∀ id : Nat, liveCallback (changeMode s m) id ≠ some Callback.updateClock) ∧
    (∀ p ∈ (changeMode s m).intervals, p ∈ s.intervals) ∧
    (changeMode s m).nextIntervalId = s.nextIntervalId ∧
    (changeMode s m).pomodoroIsRunning
      = (if s.currentMode = "pomodoro" then false else s.pomodoroIsRunning) ∧
    (changeMode s m).timerIsRunning
      = (if s.currentMode = "timer" then false else s.timerIsRunning) ∧
    (changeMode s m).stopwatchIsRunning
      = (if s.currentMode = "stopwatch" then false else s.stopwatchIsRunning) ∧
    pomodoroValues (changeMode s m) = pomodoroValues s ∧
    timerValues (changeMode s m) = timerValues s ∧
    stopwatchValues (changeMode s m) = stopwatchValues s := by
  have hc : m ≠ "clock" := by
    intro h
    apply hm
    simp [validModes, h]
  obtain ⟨v1, v2, v3, v4⟩ := changeMode_values s m
  have hwf := WF_of_reachable s hs
  refine ⟨v1, ?_, ?_, ?_, ?_, ?_, ?_, v2, v3, v4⟩
  · intro id hl
    have hmem := changeMode_no_new_interval s m hc _ (mem_of_lookup _ _ _ hl)
    exact (WF_leaveClock s hwf).2 id hmem
  · intro p hp
    exact mem_leaveClock s p (changeMode_no_new_interval s m hc p hp)
  · exact changeMode_nextIntervalId s m hc
  · by_cases h : s.currentMode = "pomodoro"
    · rw [if_pos h]
      exact changeMode_pomodoro_flag s m (Or.inl h)
    · rw [if_neg h]
      exact changeMode_pomodoro_inactive s m h
  · by_cases h : s.currentMode = "timer"
    · rw [if_pos h]
      exact changeMode_timer_flag s m (Or.inl h)
    · rw [if_neg h]
      exact changeMode_timer_inactive s m h
  · by_cases h : s.currentMode = "stopwatch"
    · rw [if_pos h]
      exact changeMode_stopwatch_flag s m (Or.inl h)
    · rw [if_neg h]
      exact changeMode_stopwatch_inactive s m h

/-- C8 (amended) at a concrete input: the stopwatch mode active and running, then
`changeMode('settings')`. -/
theorem C8_invalid_mode_switches_away_witness :
    (Reachable (run (initApp initialState)
        [(0, Event.changeMode "stopwatch"), (0, Event.startStopwatch), (70, Event.tick 2)]) ∧
      "settings" ∉ validModes) ∧
    (changeMode (run (initApp initialState)
        [(0, Event.changeMode "stopwatch"), (0, Event.startStopwatch), (70, Event.tick 2)])
        "settings").currentMode = "settings" ∧
    (changeMode (run (initApp initialState)
        [(0, Event.changeMode "stopwatch"), (0, Event.startStopwatch), (70, Event.tick 2)])
        "settings").stopwatchIsRunning = false ∧
    stopwatchValues (changeMode (run (initApp initialState)
        [(0, Event.changeMode "stopwatch"), (0, Event.startStopwatch), (70, Event.tick 2)])
        "settings") = (70, 0, []) :=
  ⟨⟨⟨_, rfl⟩, by decide⟩,
    (C8_invalid_mode_switches_away _ "settings" ⟨_, rfl⟩ (by decide)).1,
    (C8_invalid_mode_switches_away _ "settings" ⟨_, rfl⟩ (by decide)).2.2.2.2.2.2.1,
    (C8_invalid_mode_switches_away _ "settings" ⟨_, rfl⟩ (by decide)).2.2.2.2.2.2.2.2.2⟩


/-! ## Stopwatch laps -/

theorem lap_idle (s : State) (hr : s.stopwatchIsRunning = false) : lapStopwatch s = s := by
  simp [lapStopwatch, hr]

theorem lap_running (s : State) (hr : s.stopwatchIsRunning = true) :
    (lapStopwatch s).stopwatchLapTimes
      = { id := s.stopwatchLapCount + 1
          durationMs := s.stopwatchElapsedTime
            - (s.stopwatchLapTimes.head?.map LapEntry.totalMs).getD 0
          totalMs := s.stopwatchElapsedTime } :: s.stopwatchLapTimes ∧
    (lapStopwatch s).stopwatchLapCount = s.stopwatchLapCount + 1 ∧
    (lapStopwatch s).stopwatchIsRunning = true := by
  cases hl : s.stopwatchLapTimes <;> simp [lapStopwatch, hr, hl]

/-- C9: `lapStopwatch` changes nothing when the stopwatch is not running.  When it
is running, the new lap list is the old one with one entry put in front, whose `id`
is the previous lap count plus one, whose `totalMs` is the stored elapsed time and
whose `durationMs` is the elapsed time minus the `totalMs` of the previously newest
entry (0 for an empty list); the lap count goes up by one and the elapsed time and
the running flag are as before. -/
theorem C9_lapStopwatch (s : State) :
    (s.stopwatchIsRunning = false → lapStopwatch s = s) ∧
    (s.stopwatchIsRunning = true →
      (lapStopwatch s).stopwatchLapTimes
        = { id := s.stopwatchLapCount + 1
            durationMs := s.stopwatchElapsedTime
              - (s.stopwatchLapTimes.head?.map LapEntry.totalMs).getD 0
            totalMs := s.stopwatchElapsedTime } :: s.stopwatchLapTimes ∧
      (lapStopwatch s).stopwatchLapCount = s.stopwatchLapCount + 1 ∧
      (lapStopwatch s).stopwatchElapsedTime = s.stopwatchElapsedTime ∧
      (lapStopwatch s).stopwatchIsRunning = true) := by
  constructor
  · intro hr
    simp [lapStopwatch, hr]
  · intro hr
    cases hl : s.stopwatchLapTimes <;> simp [lapStopwatch, hr, hl]

/-- C9 at concrete inputs: a lap on the idle initial state changes nothing; a running
stopwatch at 150 ms with no lap gets the entry (1, 150, 150), and a second lap at
400 ms puts (2, 250, 400) in front of it. -/
theorem C9_lapStopwatch_witness :
    lapStopwatch initialState = initialState ∧
    (lapStopwatch (fire (startStopwatch initialState 0) 1 150)).stopwatchLapTimes
      = [{ id := 1, durationMs := 150, totalMs := 150 }] ∧
    (lapStopwatch (fire (lapStopwatch (fire (startStopwatch initialState 0) 1 150))
        1 400)).stopwatchLapTimes
      = [{ id := 2, durationMs := 250, totalMs := 400 },
         { id := 1, durationMs := 150, totalMs := 150 }] :=
  ⟨(C9_lapStopwatch initialState).1 (by decide),
    ((C9_lapStopwatch (fire (startStopwatch initialState 0) 1 150)).2 (by decide)).1,
    ((C9_lapStopwatch (fire (lapStopwatch (fire (startStopwatch initialState 0) 1 150))
      1 400)).2 (by decide)).1⟩

theorem fire_stopwatch_laps (s : State) (id : Nat) (now : Int) :
    (fire s id now).stopwatchLapTimes = s.stopwatchLapTimes ∧
    (fire s id now).stopwatchLapCount = s.stopwatchLapCount ∧
    (fire s id now).stopwatchIsRunning = s.stopwatchIsRunning := by
  unfold fire
  split
  · exact ⟨rfl, rfl, rfl⟩
  · rename_i cb _
    cases cb with
    | updateClock => exact ⟨rfl, rfl, rfl⟩
    | pomodoroTick e =>
      simp only [runCallback, pomodoroTick, handlePomodoroCompletion, startPomodoro]
      repeat' split
      all_goals simp [clearInterval_eq, setInterval]
    | timerTick e =>
      simp only [runCallback, timerTick]
      split <;> simp [clearInterval_eq]
    | stopwatchTick => exact ⟨rfl, rfl, rfl⟩

theorem range_reverse_succ (c : Nat) :
    (List.range' 1 (c + 1)).reverse = (c + 1) :: (List.range' 1 c).reverse := by
  rw [List.range'_1_concat, List.reverse_append]
  simp [Nat.add_comm]

/-- Lap bookkeeping along a stopwatch session: from a state with `c` laps numbered
`c, ..., 1` the session leaves `c + lapsTaken` laps numbered downwards to 1. -/
theorem session_laps (trace : List (Int × Event)) (s : State) (c : Nat)
    (hsess : StopwatchSession trace)
    (hids : s.stopwatchLapTimes.map LapEntry.id = (List.range' 1 c).reverse)
    (hcount : s.stopwatchLapCount = c) :
    (run s trace).stopwatchLapTimes.map LapEntry.id
      = (List.range' 1 (c + lapsTaken s.stopwatchIsRunning trace)).reverse ∧
    (run s trace).stopwatchLapCount = c + lapsTaken s.stopwatchIsRunning trace := by
  induction trace generalizing s c with
  | nil => exact ⟨by simpa [run, lapsTaken] using hids, by simpa [run, lapsTaken] using hcount⟩
  | cons p tr ih =>
    obtain ⟨now, ev⟩ := p
    have htail : StopwatchSession tr := fun q hq => hsess q (List.mem_cons_of_mem _ hq)
    have hhead := hsess (now, ev) (List.mem_cons_self _ _)
    have hrun : run s ((now, ev) :: tr) = run (step s now ev) tr := rfl
    rw [hrun]
    rcases hhead with h | h | h | ⟨id, h⟩
    · simp only at h
      subst h
      have hst : (step s now Event.startStopwatch).stopwatchLapTimes = s.stopwatchLapTimes ∧
          (step s now Event.startStopwatch).stopwatchLapCount = s.stopwatchLapCount ∧
          (step s now Event.startStopwatch).stopwatchIsRunning = true := by
        simp only [step, startStopwatch]
        split <;> simp_all [setInterval]
      have := ih (step s now Event.startStopwatch) c htail (by rw [hst.1]; exact hids)
        (by rw [hst.2.1]; exact hcount)
      rw [hst.2.2] at this
      simpa [lapsTaken] using this
    · simp only at h
      subst h
      have hst : (step s now Event.pauseStopwatch).stopwatchLapTimes = s.stopwatchLapTimes ∧
          (step s now Event.pauseStopwatch).stopwatchLapCount = s.stopwatchLapCount ∧
          (step s now Event.pauseStopwatch).stopwatchIsRunning = false := by
        simp only [step, pauseStopwatch]
        split <;> simp_all [clearInterval_eq]
      have := ih (step s now Event.pauseStopwatch) c htail (by rw [hst.1]; exact hids)
        (by rw [hst.2.1]; exact hcount)
      rw [hst.2.2] at this
      simpa [lapsTaken] using this
    · simp only at h
      subst h
      cases hr : s.stopwatchIsRunning with
      | false =>
        have hst : step s now Event.lapStopwatch = s := (lap_idle s hr)
        rw [hst]
        have := ih s c htail hids hcount
        rw [hr] at this
        simpa [lapsTaken] using this
      | true =>
        obtain ⟨l1, l2, l3⟩ := lap_running s hr
        have hids2 : (step s now Event.lapStopwatch).stopwatchLapTimes.map LapEntry.id
            = (List.range' 1 (c + 1)).reverse := by
          show (lapStopwatch s).stopwatchLapTimes.map LapEntry.id = _
          rw [l1, range_reverse_succ, List.map_cons, hids, hcount]
        have hc2 : (step s now Event.lapStopwatch).stopwatchLapCount = c + 1 := by
          show (lapStopwatch s).stopwatchLapCount = _
          rw [l2, hcount]
        have := ih (step s now Event.lapStopwatch) (c + 1) htail hids2 hc2
        have hr2 : (step s now Event.lapStopwatch).stopwatchIsRunning = true := l3
        rw [hr2] at this
        simpa [lapsTaken, Nat.add_assoc] using this
    · simp only at h
      subst h
      obtain ⟨f1, f2, f3⟩ := fire_stopwatch_laps s id now
      have := ih (step s now (Event.tick id)) c htail
        (by show (fire s id now).stopwatchLapTimes.map LapEntry.id = _; rw [f1]; exact hids)
        (by show (fire s id now).stopwatchLapCount = _; rw [f2]; exact hcount)
      have hr2 : (step s now (Event.tick id)).stopwatchIsRunning = s.stopwatchIsRunning := f3
      rw [hr2] at this
      simpa [lapsTaken] using this

theorem lapsTaken_no_pause (trace : List (Int × Event))
    (h : ∀ p ∈ trace, p.2 ≠ Event.pauseStopwatch) :
    lapsTaken true trace = (trace.filter (fun p => p.2 = Event.lapStopwatch)).length := by
  induction trace with
  | nil => rfl
  | cons p tr ih =>
    obtain ⟨now, ev⟩ := p
    have htail : ∀ q ∈ tr, q.2 ≠ Event.pauseStopwatch :=
      fun q hq => h q (List.mem_cons_of_mem _ hq)
    have hhead : ev ≠ Event.pauseStopwatch := h (now, ev) (List.mem_cons_self _ _)
    cases ev <;> (simp_all [lapsTaken, List.filter_cons]; try omega)

theorem lapsTaken_eq_calls (trace : List (Int × Event)) (s : State)
    (hsess : StopwatchSession trace) :
    lapsTaken s.stopwatchIsRunning trace = lapCallsWhileRunning s trace := by
  induction trace generalizing s with
  | nil => rfl
  | cons p tr ih =>
    obtain ⟨now, ev⟩ := p
    have htail : StopwatchSession tr := fun q hq => hsess q (List.mem_cons_of_mem _ hq)
    have hhead := hsess (now, ev) (List.mem_cons_self _ _)
    have ih2 := ih (step s now ev) htail
    rcases hhead with h | h | h | ⟨id, h⟩
    · simp only at h
      subst h
      have hst : (step s now Event.startStopwatch).stopwatchIsRunning = true := by
        simp only [step, startStopwatch]
        split <;> simp_all [setInterval]
      rw [hst] at ih2
      simp [lapsTaken, lapCallsWhileRunning, ih2]
    · simp only at h
      subst h
      have hst : (step s now Event.pauseStopwatch).stopwatchIsRunning = false := by
        simp only [step, pauseStopwatch]
        split <;> simp_all [clearInterval_eq]
      rw [hst] at ih2
      simp [lapsTaken, lapCallsWhileRunning, ih2]
    · simp only at h
      subst h
      cases hr : s.stopwatchIsRunning with
      | false =>
        have hst : step s now Event.lapStopwatch = s := lap_idle s hr
        rw [hst, hr] at ih2
        simp [lapsTaken, lapCallsWhileRunning, hr, hst, ih2]
      | true =>
        have hr2 : (step s now Event.lapStopwatch).stopwatchIsRunning = true :=
          (lap_running s hr).2.2
        rw [hr2] at ih2
        simp [lapsTaken, lapCallsWhileRunning, hr, ih2]
    · simp only at h
      subst h
      have hr2 : (step s now (Event.tick id)).stopwatchIsRunning = s.stopwatchIsRunning :=
        (fire_stopwatch_laps s id now).2.2
      rw [hr2] at ih2
      simp [lapsTaken, lapCallsWhileRunning, ih2]

/-- C10 as stated fails when a lap call falls in a pause: after reset and start at 0,
the session pause at 10, lap at 20 contains one `lapStopwatch()` call, made while the
stopwatch is not running, and the lap list stays empty with lap counter 0, where the
claim has one entry numbered 1 (`lapStopwatch` returns at once when the stopwatch is
not running). -/
theorem C10_lap_while_paused_not_recorded :
    StopwatchSession [(10, Event.pauseStopwatch), (20, Event.lapStopwatch)] ∧
    ([((10 : Int), Event.pauseStopwatch), (20, Event.lapStopwatch)].filter
      (fun p => p.2 = Event.lapStopwatch)).length = 1 ∧
    (run (startStopwatch (resetStopwatch (initApp initialState)) 0)
      [(10, Event.pauseStopwatch), (20, Event.lapStopwatch)]).stopwatchLapTimes = [] ∧
    (run (startStopwatch (resetStopwatch (initApp initialState)) 0)
      [(10, Event.pauseStopwatch), (20, Event.lapStopwatch)]).stopwatchLapCount = 0 ∧
    (run (startStopwatch (resetStopwatch (initApp initialState)) 0)
      [(10, Event.pauseStopwatch), (20, Event.lapStopwatch)]).stopwatchLapTimes.map
        LapEntry.id ≠ [1] := by
  refine ⟨?_, by decide, by decide, by decide, by decide⟩
  intro p hp
  simp only [List.mem_cons, List.mem_singleton, List.not_mem_nil, or_false] at hp
  rcases hp with rfl | rfl <;> simp

/-- C10 (amended): after `resetStopwatch` and `startStopwatch`, any session of start,
pause and lap calls and interval firings leaves a lap list whose `id`s read from the
front are `n, n-1, ..., 1`, with `n` entries and lap counter `n`, where `n` is the
number of lap calls made while the stopwatch is running: the calls made in a state
whose running flag is set, which are the calls after a start and not after a pause,
and all lap calls when the session has no pause.  `resetStopwatch` in any state gives
elapsed 0, no laps, lap counter 0 and not running.  Start at 0, tick at 150, lap, tick
at 300, lap gives two entries, lap 2 first, each of duration 150; a reset then leaves
none. -/
theorem C10_lap_order_and_reset :
    (∀ (s : State) (t0 : Int) (trace : List (Int × Event)), StopwatchSession trace →
      (run (startStopwatch (resetStopwatch s) t0) trace).stopwatchLapTimes.map LapEntry.id
        = (List.range' 1 (lapsTaken true trace)).reverse ∧
      (run (startStopwatch (resetStopwatch s) t0) trace).stopwatchLapTimes.length
        = lapsTaken true trace ∧
      (run (startStopwatch (resetStopwatch s) t0) trace).stopwatchLapCount
        = lapsTaken true trace) ∧
    (∀ (s : State) (t0 : Int) (trace : List (Int × Event)), StopwatchSession trace →
      lapsTaken true trace
        = lapCallsWhileRunning (startStopwatch (resetStopwatch s) t0) trace) ∧
    (∀ trace : List (Int × Event), (∀ p ∈ trace, p.2 ≠ Event.pauseStopwatch) →
      lapsTaken true trace = (trace.filter (fun p => p.2 = Event.lapStopwatch)).length) ∧
    (∀ s : State,
      (resetStopwatch s).stopwatchElapsedTime = 0 ∧
      (resetStopwatch s).stopwatchLapTimes = [] ∧
      (resetStopwatch s).stopwatchLapCount = 0 ∧
      (resetStopwatch s).stopwatchIsRunning = false) ∧
    ((run (initApp initialState)
        [(0, Event.startStopwatch), (150, Event.tick 2), (150, Event.lapStopwatch),
          (300, Event.tick 2), (300, Event.lapStopwatch)]).stopwatchLapTimes
        = [{ id := 2, durationMs := 150, totalMs := 300 },
           { id := 1, durationMs := 150, totalMs := 150 }] ∧
      (run (initApp initialState)
        [(0, Event.startStopwatch), (150, Event.tick 2), (150, Event.lapStopwatch),
          (300, Event.tick 2), (300, Event.lapStopwatch),
          (300, Event.resetStopwatch)]).stopwatchLapTimes = []) := by
  have hstart : ∀ (s : State) (t0 : Int),
      (startStopwatch (resetStopwatch s) t0).stopwatchLapTimes = [] ∧
      (startStopwatch (resetStopwatch s) t0).stopwatchLapCount = 0 ∧
      (startStopwatch (resetStopwatch s) t0).stopwatchIsRunning = true := by
    intro s t0
    simp [startStopwatch, resetStopwatch, clearInterval_eq, setInterval]
  refine ⟨?_, ?_, lapsTaken_no_pause, ?_, by decide, by decide⟩
  · intro s t0 trace hsess
    obtain ⟨h1, h2, h3⟩ := hstart s t0
    have key := session_laps trace (startStopwatch (resetStopwatch s) t0) 0 hsess
      (by rw [h1]; rfl) h2
    rw [h3] at key
    simp only [Nat.zero_add] at key
    refine ⟨key.1, ?_, key.2⟩
    have hlen := congrArg List.length key.1
    simpa using hlen
  · intro s t0 trace hsess
    have key := lapsTaken_eq_calls trace (startStopwatch (resetStopwatch s) t0) hsess
    rw [(hstart s t0).2.2] at key
    exact key
  · intro s
    simp [resetStopwatch, clearInterval_eq]

/-- C10 (amended) at a concrete session: after reset and start at 0, tick at 150, lap,
pause, lap (ignored), start at 500, tick at 650, lap: three lap calls, two of them
while running, and two laps, numbered 2 then 1. -/
theorem C10_lap_order_and_reset_witness :
    StopwatchSession
      [(150, Event.tick 2), (150, Event.lapStopwatch), (200, Event.pauseStopwatch),
        (300, Event.lapStopwatch), (500, Event.startStopwatch), (650, Event.tick 3),
        (650, Event.lapStopwatch)] ∧
    (run (startStopwatch (resetStopwatch (initApp initialState)) 0)
      [(150, Event.tick 2), (150, Event.lapStopwatch), (200, Event.pauseStopwatch),
        (300, Event.lapStopwatch), (500, Event.startStopwatch), (650, Event.tick 3),
        (650, Event.lapStopwatch)]).stopwatchLapTimes.map LapEntry.id = [2, 1] ∧
    lapCallsWhileRunning (startStopwatch (resetStopwatch (initApp initialState)) 0)
      [(150, Event.tick 2), (150, Event.lapStopwatch), (200, Event.pauseStopwatch),
        (300, Event.lapStopwatch), (500, Event.startStopwatch), (650, Event.tick 3),
        (650, Event.lapStopwatch)] = 2 :=
  have hsess : StopwatchSession
      [(150, Event.tick 2), (150, Event.lapStopwatch), (200, Event.pauseStopwatch),
        (300, Event.lapStopwatch), (500, Event.startStopwatch), (650, Event.tick 3),
        (650, Event.lapStopwatch)] := by
    intro p hp
    simp only [List.mem_cons, List.mem_singleton, List.not_mem_nil, or_false] at hp
    rcases hp with rfl | rfl | rfl | rfl | rfl | rfl | rfl <;> simp
  ⟨hsess, (C10_lap_order_and_reset.1 (initApp initialState) 0 _ hsess).1,
    (C10_lap_order_and_reset.2.1 (initApp initialState) 0 _ hsess).symm⟩

/-! ## Stopwatch: elapsed time across pause and resume -/

theorem startStopwatch_live (s : State) (t : Int) (hr : s.stopwatchIsRunning = false) :
    (startStopwatch s t).stopwatchInterval = some s.nextIntervalId ∧
    (startStopwatch s t).stopwatchIsRunning = true ∧
    (startStopwatch s t).stopwatchStartTime = t - s.stopwatchElapsedTime ∧
    (startStopwatch s t).stopwatchElapsedTime = s.stopwatchElapsedTime ∧
    liveCallback (startStopwatch s t) s.nextIntervalId = some Callback.stopwatchTick := by
  simp [startStopwatch, hr, setInterval, liveCallback, List.lookup]

theorem fire_stopwatch_live (s : State) (id : Nat) (now : Int)
    (hl : liveCallback s id = some Callback.stopwatchTick) :
    fire s id now = { s with stopwatchElapsedTime := now - s.stopwatchStartTime } := by
  simp [fire, hl, runCallback, stopwatchTick]

theorem fireAll_stopwatch_live (id : Nat) (ts : List Int) (s : State)
    (hl : liveCallback s id = some Callback.stopwatchTick) :
    liveCallback (fireAll s id ts) id = some Callback.stopwatchTick ∧
    (fireAll s id ts).stopwatchStartTime = s.stopwatchStartTime ∧
    (fireAll s id ts).stopwatchIsRunning = s.stopwatchIsRunning ∧
    (fireAll s id ts).stopwatchInterval = s.stopwatchInterval := by
  induction ts generalizing s with
  | nil => exact ⟨hl, rfl, rfl, rfl⟩
  | cons t ts ih =>
    have hstep : fireAll s id (t :: ts) = fireAll (fire s id t) id ts := rfl
    rw [hstep, fire_stopwatch_live s id t hl]
    exact ih _ hl

theorem pauseStopwatch_elapsed (s : State) :
    (pauseStopwatch s).stopwatchElapsedTime = s.stopwatchElapsedTime := by
  unfold pauseStopwatch
  split <;> simp [clearInterval_eq]

/-- C11: with the stopwatch not running and stored elapsed time `E`, a start at `t2`
followed by a tick of the scheduled interval at `t3` stores `E + (t3 - t2)`.  From
elapsed 0: start at `t0`, any ticks, a last tick at `t1`, pause, start at `t2`, tick
at `t3` stores `(t1 - t0) + (t3 - t2)`.  `pauseStopwatch` never changes the stored
elapsed time. -/
theorem C11_stopwatch_accumulates :
    (∀ (s : State) (id : Nat) (t2 t3 : Int), s.stopwatchIsRunning = false →
      (startStopwatch s t2).stopwatchInterval = some id →
      (fire (startStopwatch s t2) id t3).stopwatchElapsedTime
        = s.stopwatchElapsedTime + (t3 - t2)) ∧
    (∀ (s : State) (id1 id2 : Nat) (t0 t1 t2 t3 : Int) (ticks : List Int),
      s.stopwatchIsRunning = false → s.stopwatchElapsedTime = 0 →
      (startStopwatch s t0).stopwatchInterval = some id1 →
      (startStopwatch (pauseStopwatch (fireAll (startStopwatch s t0) id1 (ticks ++ [t1])))
        t2).stopwatchInterval = some id2 →
      (fire (startStopwatch (pauseStopwatch (fireAll (startStopwatch s t0) id1
        (ticks ++ [t1]))) t2) id2 t3).stopwatchElapsedTime = (t1 - t0) + (t3 - t2)) ∧
    (∀ s : State, (pauseStopwatch s).stopwatchElapsedTime = s.stopwatchElapsedTime) := by
  have part1 : ∀ (s : State) (id : Nat) (t2 t3 : Int), s.stopwatchIsRunning = false →
      (startStopwatch s t2).stopwatchInterval = some id →
      (fire (startStopwatch s t2) id t3).stopwatchElapsedTime
        = s.stopwatchElapsedTime + (t3 - t2) := by
    intro s id t2 t3 hr hid
    obtain ⟨h1, _, h3, _, h5⟩ := startStopwatch_live s t2 hr
    rw [h1] at hid
    cases hid
    rw [fire_stopwatch_live _ _ t3 h5]
    show t3 - (startStopwatch s t2).stopwatchStartTime = _
    rw [h3]
    omega
  refine ⟨part1, ?_, pauseStopwatch_elapsed⟩
  intro s id1 id2 t0 t1 t2 t3 ticks hr hz hid1 hid2
  obtain ⟨h1, _, h3, _, h5⟩ := startStopwatch_live s t0 hr
  rw [h1] at hid1
  cases hid1
  obtain ⟨g1, g2, _, _⟩ := fireAll_stopwatch_live s.nextIntervalId ticks _ h5
  have hel : (fireAll (startStopwatch s t0) s.nextIntervalId (ticks ++ [t1])).stopwatchElapsedTime
      = t1 - t0 := by
    rw [fireAll_snoc, fire_stopwatch_live _ _ t1 g1]
    show t1 - (fireAll (startStopwatch s t0) s.nextIntervalId ticks).stopwatchStartTime = _
    rw [g2, h3, hz]
    omega
  have hpr : (pauseStopwatch (fireAll (startStopwatch s t0) s.nextIntervalId
      (ticks ++ [t1]))).stopwatchIsRunning = false := by
    unfold pauseStopwatch
    split
    · rename_i h
      simpa using h
    · rfl
  rw [part1 _ id2 t2 t3 hpr hid2, pauseStopwatch_elapsed, hel]

/-- C11 at concrete inputs: start at 1000, ticks at 1010 and 1500, pause, start at
9000, tick at 9250: the stopwatch shows 500 + 250 = 750. -/
theorem C11_stopwatch_accumulates_witness :
    (fire (startStopwatch (pauseStopwatch (fireAll (startStopwatch (initApp initialState) 1000)
      2 ([1010] ++ [1500]))) 9000) 3 9250).stopwatchElapsedTime = (1500 - 1000) + (9250 - 9000) :=
  C11_stopwatch_accumulates.2.1 (initApp initialState) 2 3 1000 1500 9000 9250 [1010]
    (by decide) (by decide) (by decide) (by decide)

/-! ## Pomodoro: adjusting the remaining time -/

/-- C15: `adjustPomodoroTime(delta)` stores
`max 1 (min 60 (floor(remaining / 60000) + delta)) * 60000`, a whole number of
minutes between 1 and 60, and changes no other field (phase, lap count, running
flag and scheduled tick included). -/
theorem C15_adjust_clamp (s : State) (delta : Int) :
    (adjustPomodoroTime s delta).pomodoroRemainingTime
      = max 1 (min 60 (s.pomodoroRemainingTime / 60000 + delta)) * 60000 ∧
    (∃ minutes : Int, 1 ≤ minutes ∧ minutes ≤ 60 ∧
      (adjustPomodoroTime s delta).pomodoroRemainingTime = minutes * 60000) ∧
    adjustPomodoroTime s delta
      = { s with pomodoroRemainingTime := (adjustPomodoroTime s delta).pomodoroRemainingTime } ∧
    (adjustPomodoroTime s delta).pomodoroCycle = s.pomodoroCycle ∧
    (adjustPomodoroTime s delta).pomodoroWorkLaps = s.pomodoroWorkLaps ∧
    (adjustPomodoroTime s delta).pomodoroIsRunning = s.pomodoroIsRunning := by
  have hval : (adjustPomodoroTime s delta).pomodoroRemainingTime
      = max 1 (min 60 (s.pomodoroRemainingTime / 60000 + delta)) * 60000 := by
    simp only [adjustPomodoroTime]
    norm_num
    ring
  refine ⟨hval, ⟨max 1 (min 60 (s.pomodoroRemainingTime / 60000 + delta)), ?_, ?_, hval⟩,
    rfl, rfl, rfl, rfl⟩
  · exact le_max_left _ _
  · exact max_le (by decide) (min_le_left _ _)


/-! ## Decimal digits of a natural number (`String(num)` for `num ≥ 0`) -/

theorem toDigitsCore_append (b : Nat) (f n : Nat) (ds : List Char) :
    Nat.toDigitsCore b f n ds = Nat.toDigitsCore b f n [] ++ ds := by
  induction f generalizing n ds with
  | zero => simp [Nat.toDigitsCore]
  | succ f ih =>
    simp only [Nat.toDigitsCore]
    split
    · simp
    · rw [ih (n / b) (Nat.digitChar (n % b) :: ds), ih (n / b) [Nat.digitChar (n % b)]]
      simp

theorem toDigitsCore_fuel (f g n : Nat) (hf : n < f) (hg : n < g) :
    Nat.toDigitsCore 10 f n [] = Nat.toDigitsCore 10 g n [] := by
  induction f generalizing g n with
  | zero => omega
  | succ f ih =>
    cases g with
    | zero => omega
    | succ g =>
      simp only [Nat.toDigitsCore]
      split
      · rfl
      · rename_i hne
        rw [toDigitsCore_append 10 f, toDigitsCore_append 10 g,
          ih g (n / 10) (by omega) (by omega)]

theorem toDigits_small (n : Nat) (h : n < 10) : Nat.toDigits 10 n = [Nat.digitChar n] := by
  have h0 : n / 10 = 0 := by omega
  have h1 : n % 10 = n := by omega
  simp [Nat.toDigits, Nat.toDigitsCore, h0, h1]

theorem toDigits_step (n : Nat) (h : 10 ≤ n) :
    Nat.toDigits 10 n = Nat.toDigits 10 (n / 10) ++ [Nat.digitChar (n % 10)] := by
  have h0 : n / 10 ≠ 0 := by omega
  unfold Nat.toDigits
  rw [Nat.toDigitsCore]
  simp only [h0, if_false]
  rw [toDigitsCore_append 10 n, toDigitsCore_fuel n (n / 10 + 1) (n / 10) (by omega) (by omega)]

theorem toDigits_two (n : Nat) (h1 : 10 ≤ n) (h2 : n < 100) :
    Nat.toDigits 10 n = [Nat.digitChar (n / 10), Nat.digitChar (n % 10)] := by
  rw [toDigits_step n h1, toDigits_small (n / 10) (by omega)]
  rfl

theorem toDigits_three (n : Nat) (h1 : 100 ≤ n) (h2 : n < 1000) :
    Nat.toDigits 10 n
      = [Nat.digitChar (n / 100), Nat.digitChar (n / 10 % 10), Nat.digitChar (n % 10)] := by
  rw [toDigits_step n (by omega), toDigits_two (n / 10) (by omega) (by omega)]
  have : n / 10 / 10 = n / 100 := by omega
  rw [this]
  rfl

theorem toDigits_length_pos (n : Nat) : 1 ≤ (Nat.toDigits 10 n).length := by
  by_cases h : n < 10
  · rw [toDigits_small n h]
    simp
  · rw [toDigits_step n (by omega)]
    simp

theorem toDigits_length_three (n : Nat) (h : 100 ≤ n) : 3 ≤ (Nat.toDigits 10 n).length := by
  rw [toDigits_step n (by omega), toDigits_step (n / 10) (by omega)]
  have := toDigits_length_pos (n / 10 / 10)
  simp only [List.length_append, List.length_singleton]
  omega

theorem digitChar_isDigit (d : Nat) (h : d < 10) : (Nat.digitChar d).isDigit = true := by
  have hc : d = 0 ∨ d = 1 ∨ d = 2 ∨ d = 3 ∨ d = 4 ∨ d = 5 ∨ d = 6 ∨ d = 7 ∨ d = 8 ∨ d = 9 := by
    omega
  rcases hc with h | h | h | h | h | h | h | h | h | h <;> subst h <;> decide

theorem toDigits_isDigit (n : Nat) : ∀ c ∈ Nat.toDigits 10 n, c.isDigit = true := by
  induction n using Nat.strong_induction_on with
  | _ n ih =>
    by_cases h : n < 10
    · rw [toDigits_small n h]
      intro c hc
      simp only [List.mem_singleton] at hc
      rw [hc]
      exact digitChar_isDigit n h
    · rw [toDigits_step n (by omega)]
      intro c hc
      rcases List.mem_append.1 hc with hc | hc
      · exact ih (n / 10) (by omega) c hc
      · simp only [List.mem_singleton] at hc
        rw [hc]
        exact digitChar_isDigit (n % 10) (by omega)

/-! ## `pad` on a non-negative number -/

theorem pad_toList (k : Nat) (len : Nat) :
    (pad (k : Int) len).toList
      = List.replicate (len - (Nat.toDigits 10 k).length) '0' ++ Nat.toDigits 10 k := by
  have hs : toString (k : Int) = String.mk (Nat.toDigits 10 k) := rfl
  simp only [pad, hs]
  rfl

theorem pad_length (k : Nat) (len : Nat) :
    (pad (k : Int) len).length = max len (Nat.toDigits 10 k).length := by
  have : (pad (k : Int) len).length = (pad (k : Int) len).toList.length := rfl
  rw [this, pad_toList]
  simp only [List.length_append, List.length_replicate]
  omega

theorem pad_isDigit (k : Nat) (len : Nat) : ∀ c ∈ (pad (k : Int) len).toList, c.isDigit = true := by
  rw [pad_toList]
  intro c hc
  rcases List.mem_append.1 hc with hc | hc
  · rw [List.eq_of_mem_replicate hc]
    decide
  · exact toDigits_isDigit k c hc

theorem pad_two (k : Nat) (h : k < 100) :
    (pad (k : Int) 2).toList = [Nat.digitChar (k / 10), Nat.digitChar (k % 10)] := by
  rw [pad_toList]
  by_cases h1 : k < 10
  · have h0 : k / 10 = 0 := by omega
    have h2 : k % 10 = k := by omega
    rw [toDigits_small k h1, h0, h2]
    rfl
  · rw [toDigits_two k (by omega) h]
    rfl

theorem pad_three (k : Nat) (h : k < 1000) :
    (pad (k : Int) 3).toList
      = [Nat.digitChar (k / 100), Nat.digitChar (k / 10 % 10), Nat.digitChar (k % 10)] := by
  rw [pad_toList]
  by_cases h1 : k < 10
  · have h0 : k / 100 = 0 := by omega
    have h2 : k / 10 % 10 = 0 := by omega
    have h3 : k % 10 = k := by omega
    rw [toDigits_small k h1, h0, h2, h3]
    rfl
  · by_cases h4 : k < 100
    · have h0 : k / 100 = 0 := by omega
      have h2 : k / 10 % 10 = k / 10 := by omega
      rw [toDigits_two k (by omega) h4, h0, h2]
      rfl
    · rw [toDigits_three k (by omega) h]
      rfl


/-! ## Clock: 12-hour rendering -/

theorem clockHours_twelve (h : Int) (h0 : 0 ≤ h) (h23 : h ≤ 23) :
    clockHours false h
      = (if h = 0 ∨ h = 12 then 12 else if h ≤ 11 then h else h - 12,
         if h < 12 then " AM" else " PM") := by
  have hcases : h = 0 ∨ h = 1 ∨ h = 2 ∨ h = 3 ∨ h = 4 ∨ h = 5 ∨ h = 6 ∨ h = 7 ∨ h = 8 ∨
      h = 9 ∨ h = 10 ∨ h = 11 ∨ h = 12 ∨ h = 13 ∨ h = 14 ∨ h = 15 ∨ h = 16 ∨ h = 17 ∨
      h = 18 ∨ h = 19 ∨ h = 20 ∨ h = 21 ∨ h = 22 ∨ h = 23 := by omega
  rcases hcases with h | h | h | h | h | h | h | h | h | h | h | h | h | h | h | h | h | h |
    h | h | h | h | h | h <;> subst h <;> decide

theorem clockTimeStr_toList (use24 : Bool) (h m sec : Int) :
    (clockTimeStr use24 h m sec).toList
      = (pad (clockHours use24 h).1 2).toList ++ [':'] ++ (pad m 2).toList ++ [':']
          ++ (pad sec 2).toList ++ (clockHours use24 h).2.toList := by
  simp only [clockTimeStr, String.toList, String.data_append]

theorem pad_two_int (k : Int) (h0 : 0 ≤ k) (h1 : k < 100) :
    (pad k 2).toList = [Nat.digitChar (k.toNat / 10), Nat.digitChar (k.toNat % 10)] := by
  obtain ⟨n, rfl⟩ := Int.eq_ofNat_of_zero_le h0
  exact pad_two n (by omega)

/-- C14: for an hour of the day `h` in 0..23, the 12-hour format shows 12 for 0 and
12, `h` for 1..11 and `h - 12` for 13..23, always in 1..12, with suffix " AM" below
12 and " PM" from 12 on; the 24-hour format shows `h` with no suffix.  This is the
hour and the suffix of the string that `updateClock` displays: in 12-hour format the
string is that hour padded to two digits, ":", the minutes, ":", the seconds and the
suffix; in 24-hour format it is `h` padded to two digits, the minutes and the seconds
with nothing after them.  For minutes and seconds in 0..59 the characters of both
strings are given one by one. -/
theorem C14_clock_hours (h m sec : Int) (h0 : 0 ≤ h) (h23 : h ≤ 23) :
    ((h = 0 ∨ h = 12) → (clockHours false h).1 = 12) ∧
    (1 ≤ h ∧ h ≤ 11 → (clockHours false h).1 = h) ∧
    (13 ≤ h ∧ h ≤ 23 → (clockHours false h).1 = h - 12) ∧
    (1 ≤ (clockHours false h).1 ∧ (clockHours false h).1 ≤ 12) ∧
    (h < 12 → (clockHours false h).2 = " AM") ∧
    (12 ≤ h → (clockHours false h).2 = " PM") ∧
    clockHours true h = (h, "") ∧
    clockTimeStr false h m sec
      = pad (if h = 0 ∨ h = 12 then 12 else if h ≤ 11 then h else h - 12) 2 ++ ":"
          ++ pad m 2 ++ ":" ++ pad sec 2 ++ (if h < 12 then " AM" else " PM") ∧
    clockTimeStr true h m sec = pad h 2 ++ ":" ++ pad m 2 ++ ":" ++ pad sec 2 ∧
    (0 ≤ m ∧ m ≤ 59 → 0 ≤ sec ∧ sec ≤ 59 →
      (clockTimeStr false h m sec).toList
        = [Nat.digitChar
              ((if h = 0 ∨ h = 12 then 12 else if h ≤ 11 then h else h - 12).toNat / 10),
            Nat.digitChar
              ((if h = 0 ∨ h = 12 then 12 else if h ≤ 11 then h else h - 12).toNat % 10),
            ':', Nat.digitChar (m.toNat / 10), Nat.digitChar (m.toNat % 10),
            ':', Nat.digitChar (sec.toNat / 10), Nat.digitChar (sec.toNat % 10),
            ' ', (if h < 12 then 'A' else 'P'), 'M'] ∧
      (clockTimeStr true h m sec).toList
        = [Nat.digitChar (h.toNat / 10), Nat.digitChar (h.toNat % 10),
            ':', Nat.digitChar (m.toNat / 10), Nat.digitChar (m.toNat % 10),
            ':', Nat.digitChar (sec.toNat / 10), Nat.digitChar (sec.toNat % 10)]) := by
  have hc := clockHours_twelve h h0 h23
  have h24 : clockHours true h = (h, "") := by simp [clockHours]
  have hD : 1 ≤ (if h = 0 ∨ h = 12 then 12 else if h ≤ 11 then h else h - 12) ∧
      (if h = 0 ∨ h = 12 then 12 else if h ≤ 11 then h else h - 12) ≤ (12 : Int) := by
    split_ifs <;> omega
  refine ⟨?_, ?_, ?_, ?_, ?_, ?_, h24, ?_, ?_, ?_⟩
  · intro hh
    rw [hc]
    simp only [if_pos hh]
  · intro hh
    rw [hc]
    have : ¬ (h = 0 ∨ h = 12) := by omega
    simp only [if_neg this, if_pos hh.2]
  · intro hh
    rw [hc]
    have h1 : ¬ (h = 0 ∨ h = 12) := by omega
    have h2 : ¬ h ≤ 11 := by omega
    simp only [if_neg h1, if_neg h2]
  · rw [hc]
    exact hD
  · intro hh
    rw [hc]
    simp only [if_pos hh]
  · intro hh
    rw [hc]
    have : ¬ h < 12 := by omega
    simp only [if_neg this]
  · simp only [clockTimeStr, hc]
  · simp only [clockTimeStr, h24, String.append_empty]
  · intro hm hs
    constructor
    · rw [clockTimeStr_toList, hc]
      simp only []
      rw [pad_two_int _ (by omega) (by omega), pad_two_int m hm.1 (by omega),
        pad_two_int sec hs.1 (by omega)]
      by_cases hlt : h < 12
      · simp only [if_pos hlt]
        rfl
      · simp only [if_neg hlt]
        rfl
    · rw [clockTimeStr_toList, h24]
      simp only []
      rw [pad_two_int h h0 (by omega), pad_two_int m hm.1 (by omega),
        pad_two_int sec hs.1 (by omega)]
      rfl

/-- C14 at concrete inputs: the displayed strings at 00:00:00, 07:30:05, 12:00:00 and
23:59:59 in 12-hour format, at 13:05:09 in 24-hour format, and the hour and suffix
values at 0, 7, 12 and 23 o'clock. -/
theorem C14_clock_hours_witness :
    clockTimeStr false 0 0 0 = "12:00:00 AM" ∧
    clockTimeStr false 7 30 5 = "07:30:05 AM" ∧
    clockTimeStr false 12 0 0 = "12:00:00 PM" ∧
    clockTimeStr false 23 59 59 = "11:59:59 PM" ∧
    clockTimeStr true 13 5 9 = "13:05:09" ∧
    (clockTimeStr false 13 5 9).toList
      = ['0', '1', ':', '0', '5', ':', '0', '9', ' ', 'P', 'M'] ∧
    clockHours false 0 = (12, " AM") ∧ (clockHours false 7).1 = 7 ∧
    (clockHours false 12).2 = " PM" ∧ (clockHours false 23).1 = 23 - 12 :=
  ⟨(C14_clock_hours 0 0 0 (by decide) (by decide)).2.2.2.2.2.2.2.1,
    (C14_clock_hours 7 30 5 (by decide) (by decide)).2.2.2.2.2.2.2.1,
    (C14_clock_hours 12 0 0 (by decide) (by decide)).2.2.2.2.2.2.2.1,
    (C14_clock_hours 23 59 59 (by decide) (by decide)).2.2.2.2.2.2.2.1,
    (C14_clock_hours 13 5 9 (by decide) (by decide)).2.2.2.2.2.2.2.2.1,
    ((C14_clock_hours 13 5 9 (by decide) (by decide)).2.2.2.2.2.2.2.2.2
      (by decide) (by decide)).1,
    Prod.ext ((C14_clock_hours 0 0 0 (by decide) (by decide)).1 (Or.inl rfl))
      ((C14_clock_hours 0 0 0 (by decide) (by decide)).2.2.2.2.1 (by decide)),
    (C14_clock_hours 7 0 0 (by decide) (by decide)).2.1 ⟨by decide, by decide⟩,
    (C14_clock_hours 12 0 0 (by decide) (by decide)).2.2.2.2.2.1 (by decide),
    (C14_clock_hours 23 0 0 (by decide) (by decide)).2.2.1 ⟨by decide, by decide⟩⟩


/-! ## `formatTime` on a non-negative number of milliseconds -/

theorem formatTime_nat (n : Nat) :
    formatTime (n : Int) true
      = pad ((n / 3600000 : Nat) : Int) 2 ++ ":" ++ pad ((n / 60000 % 60 : Nat) : Int) 2 ++ ":"
          ++ pad ((n / 1000 % 60 : Nat) : Int) 2 ++ "." ++ pad ((n % 1000 : Nat) : Int) 3 ∧
    formatTime (n : Int) false
      = (if 3600000 ≤ n then
          pad ((n / 3600000 : Nat) : Int) 2 ++ ":" ++ pad ((n / 60000 % 60 : Nat) : Int) 2 ++ ":"
            ++ pad ((n / 1000 % 60 : Nat) : Int) 2
        else
          pad ((n / 60000 % 60 : Nat) : Int) 2 ++ ":" ++ pad ((n / 1000 % 60 : Nat) : Int) 2) := by
  have hH : (n : Int) / 1000 / 3600 = ((n / 3600000 : Nat) : Int) := by omega
  have hM : ((n : Int) / 1000).tmod 3600 / 60 = ((n / 60000 % 60 : Nat) : Int) := by
    rw [Int.tmod_eq_emod (by omega) (by decide)]
    omega
  have hS : ((n : Int) / 1000).tmod 60 = ((n / 1000 % 60 : Nat) : Int) := by
    rw [Int.tmod_eq_emod (by omega) (by decide)]
    omega
  have hm : (n : Int).tmod 1000 = ((n % 1000 : Nat) : Int) := by
    rw [Int.tmod_eq_emod (by omega) (by decide)]
    omega
  constructor
  · simp only [formatTime, hH, hM, hS, hm, if_true]
  · simp only [formatTime, hH, hM, hS, Bool.false_eq_true, if_false]
    by_cases h : 3600000 ≤ n
    · have hpos : ((n / 3600000 : Nat) : Int) > 0 := by omega
      rw [if_pos hpos, if_pos h]
    · have hpos : ¬ ((n / 3600000 : Nat) : Int) > 0 := by omega
      rw [if_neg hpos, if_neg h]

theorem pad_count (k : Nat) (len : Nat) (c : Char) (hc : c.isDigit = false) :
    (pad (k : Int) len).toList.count c = 0 := by
  apply List.count_eq_zero.2
  intro hmem
  have := pad_isDigit k len c hmem
  rw [hc] at this
  exact Bool.noConfusion this

theorem count_append_string (a b : String) (c : Char) :
    (a ++ b).toList.count c = a.toList.count c + b.toList.count c := by
  simp [String.toList, List.count_append]

theorem length_append_string (a b : String) : (a ++ b).length = a.length + b.length := by
  simp [String.length_append]

/-- The four fields of a non-negative duration, as natural numbers. -/
theorem fields_of_nonneg (ms : Int) (h : 0 ≤ ms) :
    ∃ n : Nat, ms = (n : Int) ∧ ms / 3600000 = ((n / 3600000 : Nat) : Int) ∧
      ms / 60000 % 60 = ((n / 60000 % 60 : Nat) : Int) ∧
      ms / 1000 % 60 = ((n / 1000 % 60 : Nat) : Int) ∧
      ms % 1000 = ((n % 1000 : Nat) : Int) := by
  refine ⟨ms.toNat, ?_, ?_, ?_, ?_, ?_⟩ <;> omega

/-- C12: `formatTime(0, false)` is "00:00" and `formatTime(0, true)` is
"00:00:00.000".  Without sub-seconds, a duration of one hour or more is rendered as
hours:minutes:seconds (two colons), a shorter non-negative one as minutes:seconds
(one colon).  With sub-seconds every non-negative duration is rendered as
hours:minutes:seconds.millis (two colons), the hour field included when it is 0. -/
theorem C12_formatTime_boundaries :
    formatTime 0 false = "00:00" ∧
    formatTime 0 true = "00:00:00.000" ∧
    (∀ ms : Int, 3600000 ≤ ms →
      formatTime ms false
        = pad (ms / 3600000) 2 ++ ":" ++ pad (ms / 60000 % 60) 2 ++ ":"
            ++ pad (ms / 1000 % 60) 2 ∧
      (formatTime ms false).toList.count ':' = 2) ∧
    (∀ ms : Int, 0 ≤ ms → ms < 3600000 →
      formatTime ms false = pad (ms / 60000 % 60) 2 ++ ":" ++ pad (ms / 1000 % 60) 2 ∧
      (formatTime ms false).toList.count ':' = 1) ∧
    (∀ ms : Int, 0 ≤ ms →
      formatTime ms true
        = pad (ms / 3600000) 2 ++ ":" ++ pad (ms / 60000 % 60) 2 ++ ":"
            ++ pad (ms / 1000 % 60) 2 ++ "." ++ pad (ms % 1000) 3 ∧
      (formatTime ms true).toList.count ':' = 2) := by
  refine ⟨by decide, by decide, ?_, ?_, ?_⟩
  · intro ms hms
    obtain ⟨n, rfl, e1, e2, e3, _⟩ := fields_of_nonneg ms (by omega)
    have hn : 3600000 ≤ n := by omega
    have hf := (formatTime_nat n).2
    rw [if_pos hn] at hf
    rw [e1, e2, e3, hf]
    refine ⟨rfl, ?_⟩
    simp only [count_append_string, pad_count _ _ ':' (by decide)]
    decide
  · intro ms h0 hms
    obtain ⟨n, rfl, _, e2, e3, _⟩ := fields_of_nonneg ms h0
    have hn : ¬ 3600000 ≤ n := by omega
    have hf := (formatTime_nat n).2
    rw [if_neg hn] at hf
    rw [e2, e3, hf]
    refine ⟨rfl, ?_⟩
    simp only [count_append_string, pad_count _ _ ':' (by decide)]
    decide
  · intro ms h0
    obtain ⟨n, rfl, e1, e2, e3, e4⟩ := fields_of_nonneg ms h0
    rw [e1, e2, e3, e4, (formatTime_nat n).1]
    refine ⟨rfl, ?_⟩
    simp only [count_append_string, pad_count _ _ ':' (by decide)]
    decide

/-- C12 at concrete inputs: one hour exactly, one millisecond less, and 90 061 001 ms
with sub-seconds. -/
theorem C12_formatTime_boundaries_witness :
    ((3600000 : Int) ≤ 3600000 ∧ (formatTime 3600000 false).toList.count ':' = 2) ∧
    ((0 : Int) ≤ 3599999 ∧ (3599999 : Int) < 3600000 ∧
      (formatTime 3599999 false).toList.count ':' = 1) ∧
    (formatTime 90061001 true).toList.count ':' = 2 :=
  ⟨⟨by decide, (C12_formatTime_boundaries.2.2.1 3600000 (by decide)).2⟩,
    ⟨by decide, by decide,
      (C12_formatTime_boundaries.2.2.2.1 3599999 (by decide) (by decide)).2⟩,
    (C12_formatTime_boundaries.2.2.2.2 90061001 (by decide)).2⟩


theorem pad_two_length (k : Nat) (h : k < 100) : (pad (k : Int) 2).length = 2 := by
  have : (pad (k : Int) 2).length = (pad (k : Int) 2).toList.length := rfl
  rw [this, pad_two k h]
  rfl

theorem pad_three_length (k : Nat) (h : k < 1000) : (pad (k : Int) 3).length = 3 := by
  have : (pad (k : Int) 3).length = (pad (k : Int) 3).toList.length := rfl
  rw [this, pad_three k h]
  rfl

/-- C13 as stated fails at 100 hours: `formatTime(360000000, ·)` has a three-digit
hour field, "100:00:00" (9 characters) and "100:00:00.000" (13 characters).  The
countdown reaches such a value when it is set to 99 h 99 min 99 s. -/
theorem C13_hours_not_two_digits :
    formatTime 360000000 false = "100:00:00" ∧
    (formatTime 360000000 false).length = 9 ∧
    formatTime 360000000 true = "100:00:00.000" ∧
    (formatTime 360000000 true).length = 13 ∧
    formatTime (setTimer (step initialState 0
      (Event.timerInput "99" "99" "99"))).timerRemainingTime false = "100:40:39" := by
  decide

/-- C13 (amended): for every `ms ≥ 0`, `formatTime(ms, true)` is HH:MM:SS.mmm and
`formatTime(ms, false)` is HH:MM:SS when the hours are not 0 and MM:SS otherwise,
with HH = `ms / 3600000`, MM = `ms / 60000 % 60`, SS = `ms / 1000 % 60` and
mmm = `ms % 1000`, each written in decimal digits and zero-padded: MM and SS to
exactly two digits, mmm to exactly three, HH to at least two.  Below 100 hours HH
has exactly two digits and the result is 12, 8 or 5 characters long; from 100 hours
on HH has three digits or more and the result is longer. -/
theorem C13_formatTime_shape (ms : Int) (h0 : 0 ≤ ms) :
    formatTime ms true
      = pad (ms / 3600000) 2 ++ ":" ++ pad (ms / 60000 % 60) 2 ++ ":"
          ++ pad (ms / 1000 % 60) 2 ++ "." ++ pad (ms % 1000) 3 ∧
    formatTime ms false
      = (if ms / 3600000 ≠ 0 then
          pad (ms / 3600000) 2 ++ ":" ++ pad (ms / 60000 % 60) 2 ++ ":"
            ++ pad (ms / 1000 % 60) 2
        else pad (ms / 60000 % 60) 2 ++ ":" ++ pad (ms / 1000 % 60) 2) ∧
    (0 ≤ ms / 3600000 ∧ 0 ≤ ms / 60000 % 60 ∧ ms / 60000 % 60 ≤ 59 ∧
      0 ≤ ms / 1000 % 60 ∧ ms / 1000 % 60 ≤ 59 ∧ 0 ≤ ms % 1000 ∧ ms % 1000 ≤ 999) ∧
    ((∀ c ∈ (pad (ms / 3600000) 2).toList, c.isDigit = true) ∧
      (∀ c ∈ (pad (ms / 60000 % 60) 2).toList, c.isDigit = true) ∧
      (∀ c ∈ (pad (ms / 1000 % 60) 2).toList, c.isDigit = true) ∧
      (∀ c ∈ (pad (ms % 1000) 3).toList, c.isDigit = true)) ∧
    (2 ≤ (pad (ms / 3600000) 2).length ∧ (pad (ms / 60000 % 60) 2).length = 2 ∧
      (pad (ms / 1000 % 60) 2).length = 2 ∧ (pad (ms % 1000) 3).length = 3) ∧
    (ms < 360000000 →
      (pad (ms / 3600000) 2).length = 2 ∧ (formatTime ms true).length = 12 ∧
      (formatTime ms false).length = (if ms / 3600000 ≠ 0 then 8 else 5)) ∧
    (360000000 ≤ ms →
      3 ≤ (pad (ms / 3600000) 2).length ∧ 13 ≤ (formatTime ms true).length ∧
      9 ≤ (formatTime ms false).length) := by
  obtain ⟨n, rfl, e1, e2, e3, e4⟩ := fields_of_nonneg ms h0
  have hM : n / 60000 % 60 < 100 := by omega
  have hS : n / 1000 % 60 < 100 := by omega
  have hm : n % 1000 < 1000 := by omega
  have lM := pad_two_length _ hM
  have lS := pad_two_length _ hS
  have lm := pad_three_length _ hm
  have lH : 2 ≤ (pad ((n / 3600000 : Nat) : Int) 2).length := by
    rw [pad_length]
    exact le_max_left _ _
  have hT := (formatTime_nat n).1
  have hF : formatTime (n : Int) false
      = (if ((n / 3600000 : Nat) : Int) ≠ 0 then
          pad ((n / 3600000 : Nat) : Int) 2 ++ ":" ++ pad ((n / 60000 % 60 : Nat) : Int) 2
            ++ ":" ++ pad ((n / 1000 % 60 : Nat) : Int) 2
        else
          pad ((n / 60000 % 60 : Nat) : Int) 2 ++ ":" ++ pad ((n / 1000 % 60 : Nat) : Int) 2) := by
    rw [(formatTime_nat n).2]
    by_cases h : 3600000 ≤ n
    · have hne : ((n / 3600000 : Nat) : Int) ≠ 0 := by omega
      rw [if_pos h, if_pos hne]
    · have hne : ¬ ((n / 3600000 : Nat) : Int) ≠ 0 := by omega
      rw [if_neg h, if_neg hne]
  have hcolon : (":" : String).length = 1 := rfl
  have hdot : ("." : String).length = 1 := rfl
  rw [e1, e2, e3, e4]
  refine ⟨hT, hF, by omega, ⟨pad_isDigit _ _, pad_isDigit _ _, pad_isDigit _ _, pad_isDigit _ _⟩,
    ⟨lH, lM, lS, lm⟩, ?_, ?_⟩
  · intro hlt
    have hH : n / 3600000 < 100 := by omega
    have lH2 := pad_two_length _ hH
    refine ⟨lH2, ?_, ?_⟩
    · rw [hT]
      simp only [length_append_string, lH2, lM, lS, lm, hcolon, hdot]
    · rw [hF]
      split
      · simp only [length_append_string, lH2, lM, lS, hcolon]
      · simp only [length_append_string, lM, lS, hcolon]
  · intro hge
    have hH : 100 ≤ n / 3600000 := by omega
    have lH3 : 3 ≤ (pad ((n / 3600000 : Nat) : Int) 2).length := by
      rw [pad_length]
      exact le_trans (toDigits_length_three _ hH) (le_max_right _ _)
    refine ⟨lH3, ?_, ?_⟩
    · rw [hT]
      simp only [length_append_string, lM, lS, lm, hcolon, hdot]
      omega
    · rw [hF]
      have hne : ((n / 3600000 : Nat) : Int) ≠ 0 := by omega
      rw [if_pos hne]
      simp only [length_append_string, lM, lS, hcolon]
      omega

/-- C13 (amended) at concrete inputs: 3 723 004 ms is "01:02:03.004" (12 characters)
and "01:02:03" (8); 100 hours give at least 13 and 9 characters. -/
theorem C13_formatTime_shape_witness :
    ((0 : Int) ≤ 3723004 ∧ (3723004 : Int) < 360000000) ∧
    (formatTime 3723004 true).length = 12 ∧
    (formatTime 3723004 false).length = 8 ∧
    13 ≤ (formatTime 360000000 true).length :=
  ⟨⟨by decide, by decide⟩,
    ((C13_formatTime_shape 3723004 (by decide)).2.2.2.2.2.1 (by decide)).2.1,
    ((C13_formatTime_shape 3723004 (by decide)).2.2.2.2.2.1 (by decide)).2.2,
    ((C13_formatTime_shape 360000000 (by decide)).2.2.2.2.2.2 (by decide)).2.1⟩


/-! ## Countdown input coercion -/

theorem digitChar_props (d : Nat) (h : d < 10) :
    radixDigit 10 (Nat.digitChar d) = some d ∧
    isStrWhiteSpaceChar (Nat.digitChar d) = false ∧
    Nat.digitChar d ≠ '-' ∧ Nat.digitChar d ≠ '+' ∧
    Nat.digitChar d ≠ 'x' ∧ Nat.digitChar d ≠ 'X' := by
  have hc : d = 0 ∨ d = 1 ∨ d = 2 ∨ d = 3 ∨ d = 4 ∨ d = 5 ∨ d = 6 ∨ d = 7 ∨ d = 8 ∨ d = 9 := by
    omega
  rcases hc with h | h | h | h | h | h | h | h | h | h <;> subst h <;> decide

theorem toDigits_digitChar (n : Nat) :
    ∀ c ∈ Nat.toDigits 10 n, ∃ d, d < 10 ∧ c = Nat.digitChar d := by
  induction n using Nat.strong_induction_on with
  | _ n ih =>
    by_cases h : n < 10
    · rw [toDigits_small n h]
      intro c hc
      exact ⟨n, h, by simpa using hc⟩
    · rw [toDigits_step n (by omega)]
      intro c hc
      rcases List.mem_append.1 hc with hc | hc
      · exact ih (n / 10) (by omega) c hc
      · exact ⟨n % 10, by omega, by simpa using hc⟩

theorem digitsValue_snoc (ds : List Char) (c : Char) :
    digitsValue 10 (ds ++ [c]) = digitsValue 10 ds * 10 + (radixDigit 10 c).getD 0 := by
  simp [digitsValue, List.foldl_append]

theorem digitsValue_toDigits (n : Nat) : digitsValue 10 (Nat.toDigits 10 n) = n := by
  induction n using Nat.strong_induction_on with
  | _ n ih =>
    by_cases h : n < 10
    · rw [toDigits_small n h]
      simp [digitsValue, (digitChar_props n h).1]
    · rw [toDigits_step n (by omega), digitsValue_snoc, ih (n / 10) (by omega),
        (digitChar_props (n % 10) (by omega)).1]
      simp only [Option.getD_some]
      omega

theorem takeWhile_digits (ds rest : List Char)
    (hds : ∀ c ∈ ds, (radixDigit 10 c).isSome = true)
    (hrest : ∀ c ∈ rest.head?, radixDigit 10 c = none) :
    (ds ++ rest).takeWhile (fun c => (radixDigit 10 c).isSome) = ds := by
  induction ds with
  | nil =>
    cases rest with
    | nil => rfl
    | cons c t =>
      have := hrest c (by simp)
      simp [List.takeWhile, this]
  | cons d ds ih =>
    have hd := hds d (List.mem_cons_self _ _)
    have ih2 := ih (fun c hc => hds c (List.mem_cons_of_mem _ hc))
    rw [List.cons_append, List.takeWhile_cons, hd, if_pos rfl, ih2]

theorem digitsValue_zeros (k : Nat) (ds : List Char) :
    digitsValue 10 (List.replicate k '0' ++ ds) = digitsValue 10 ds := by
  induction k with
  | zero => rfl
  | succ k ih =>
    have hz : radixDigit 10 '0' = some 0 := by decide
    have hstep : digitsValue 10 ('0' :: (List.replicate k '0' ++ ds))
        = digitsValue 10 (List.replicate k '0' ++ ds) := by
      simp [digitsValue, hz]
    rw [List.replicate_succ, List.cons_append, hstep, ih]

theorem isDigit_digitChar (c : Char) (h : c.isDigit = true) :
    ∃ d, d < 10 ∧ c = Nat.digitChar d := by
  have h1 : 48 ≤ c.toNat ∧ c.toNat ≤ 57 := by
    simp only [Char.isDigit, Bool.and_eq_true, decide_eq_true_eq] at h
    exact ⟨h.1, h.2⟩
  have hc : c = Char.ofNat c.toNat := (Char.ofNat_toNat c).symm
  obtain ⟨a, b⟩ := h1
  refine ⟨c.toNat - 48, by omega, ?_⟩
  rw [hc]
  generalize c.toNat = n at a b
  interval_cases n <;> rfl

/-- `parseInt` on an optional minus sign, a non-empty run `ds` of decimal digits
(leading zeros allowed), and a rest that is empty or starts with a character that is
neither a digit nor `x`/`X`. -/
theorem parseInt_digits (neg : Bool) (ds rest : List Char) (hne : ds ≠ [])
    (hdig : ∀ c ∈ ds, ∃ d, d < 10 ∧ c = Nat.digitChar d)
    (hrest : ∀ c ∈ rest.head?, radixDigit 10 c = none ∧ c ≠ 'x' ∧ c ≠ 'X') :
    parseInt (String.mk ((if neg then ['-'] else []) ++ (ds ++ rest)))
      = some ((if neg then -1 else 1) * (digitsValue 10 ds : Int)) := by
  obtain ⟨d0, tl, hds⟩ : ∃ d0 tl, ds = d0 :: tl := by
    cases h : ds with
    | nil => exact absurd h hne
    | cons a b => exact ⟨a, b, rfl⟩
  obtain ⟨k0, hk0, hd0⟩ := hdig d0 (by rw [hds]; exact List.mem_cons_self _ _)
  obtain ⟨p1, p2, p3, p4, p5, p6⟩ := digitChar_props k0 hk0
  rw [← hd0] at p1 p2 p3 p4 p5 p6
  -- the second character is not `x` or `X`
  have hsecond : ∀ r : List Char, ds ++ rest ≠ '0' :: 'x' :: r ∧
      ds ++ rest ≠ '0' :: 'X' :: r := by
    intro r
    rw [hds]
    cases tl with
    | nil =>
      cases rest with
      | nil => simp
      | cons c t =>
        have := hrest c (by simp)
        constructor
        · intro h
          simp only [List.cons_append, List.nil_append, List.cons.injEq] at h
          exact this.2.1 h.2.1
        · intro h
          simp only [List.cons_append, List.nil_append, List.cons.injEq] at h
          exact this.2.2 h.2.1
    | cons d1 tl2 =>
      obtain ⟨k1, hk1, hd1⟩ := hdig d1 (by rw [hds]; simp)
      obtain ⟨_, _, _, _, q5, q6⟩ := digitChar_props k1 hk1
      rw [← hd1] at q5 q6
      constructor
      · intro h
        simp only [List.cons_append, List.cons.injEq] at h
        exact q5 h.2.1
      · intro h
        simp only [List.cons_append, List.cons.injEq] at h
        exact q6 h.2.1
  have hbase : ∀ l : List Char, l = ds ++ rest →
      (match l with
        | '0' :: 'x' :: r => ((16 : Nat), r)
        | '0' :: 'X' :: r => (16, r)
        | _ => (10, l)) = (10, l) := by
    intro l hl
    split
    · exact absurd hl.symm (hsecond _).1
    · exact absurd hl.symm (hsecond _).2
    · rfl
  have htake : (ds ++ rest).takeWhile (fun c => (radixDigit 10 c).isSome)
      = ds := by
    apply takeWhile_digits
    · intro c hc
      obtain ⟨k, hk, rfl⟩ := hdig c hc
      rw [(digitChar_props k hk).1]
      rfl
    · intro c hc
      exact (hrest c hc).1
  have hne : ds.isEmpty = false := by
    rw [hds]
    rfl
  cases neg with
  | true =>
    have hdrop : ('-' :: (ds ++ rest)).dropWhile isStrWhiteSpaceChar
        = '-' :: (ds ++ rest) := by
      rw [List.dropWhile_cons]
      have : isStrWhiteSpaceChar '-' = false := by decide
      simp [this]
    simp only [parseInt, if_true, List.cons_append, List.nil_append, String.toList, hdrop]
    rw [hbase _ rfl]
    simp only [htake, hne]
    simp
  | false =>
    have hdrop : (ds ++ rest).dropWhile isStrWhiteSpaceChar
        = ds ++ rest := by
      rw [hds, List.cons_append, List.dropWhile_cons]
      simp [p2]
    have hsign : (match ds ++ rest with
        | '-' :: r => ((-1 : Int), r)
        | '+' :: r => (1, r)
        | _ => (1, ds ++ rest)) = (1, ds ++ rest) := by
      split
      · rename_i r h
        rw [hds] at h
        simp only [List.cons_append, List.cons.injEq] at h
        exact absurd h.1 p3
      · rename_i r h
        rw [hds] at h
        simp only [List.cons_append, List.cons.injEq] at h
        exact absurd h.1 p4
      · rfl
    simp only [parseInt, Bool.false_eq_true, if_false, List.nil_append, String.toList, hdrop,
      hsign]
    rw [hbase _ rfl]
    simp only [htake, hne]
    simp

theorem parseInt_not_a_number (v : String)
    (h : ∀ c ∈ (v.toList.dropWhile isStrWhiteSpaceChar).head?,
      c ≠ '-' ∧ c ≠ '+' ∧ radixDigit 10 c = none) :
    parseInt v = none := by
  unfold parseInt
  generalize v.toList.dropWhile isStrWhiteSpaceChar = l at h
  cases l with
  | nil => rfl
  | cons c t =>
    obtain ⟨h1, h2, h3⟩ := h c (by simp)
    have hsign : (match c :: t with
        | '-' :: r => ((-1 : Int), r)
        | '+' :: r => (1, r)
        | _ => (1, c :: t)) = (1, c :: t) := by
      split
      · rename_i r hh
        exact absurd (List.cons.inj hh).1 h1
      · rename_i r hh
        exact absurd (List.cons.inj hh).1 h2
      · rfl
    have hzero : radixDigit 10 '0' = some 0 := by decide
    have hbase : (match c :: t with
        | '0' :: 'x' :: r => ((16 : Nat), r)
        | '0' :: 'X' :: r => (16, r)
        | _ => (10, c :: t)) = (10, c :: t) := by
      split
      · rename_i r hh
        rw [(List.cons.inj hh).1, hzero] at h3
        exact Option.noConfusion h3
      · rename_i r hh
        rw [(List.cons.inj hh).1, hzero] at h3
        exact Option.noConfusion h3
      · rfl
    simp only [hsign, hbase, List.takeWhile_cons, h3]
    rfl

/-- C17 as stated fails on a negative non-integer: the field "-2.7" is coerced to 2,
while `|floor(-2.7)|` is 3.  (The digits are read up to the first character that is
not a digit, so "1e3" gives 1.) -/
theorem C17_negative_fraction_not_floored :
    coerceField "-2.7" = 2 ∧ |⌊(-2.7 : ℚ)⌋| = 3 ∧
    coerceField "-2.7" ≠ |⌊(-2.7 : ℚ)⌋| ∧ coerceField "1e3" = 1 := by
  have hfloor : ⌊(-2.7 : ℚ)⌋ = -3 := by
    rw [Int.floor_eq_iff]
    norm_num
  have hc : coerceField "-2.7" = 2 := by decide
  refine ⟨hc, ?_, ?_, by decide⟩
  · rw [hfloor]
    rfl
  · rw [hfloor, hc]
    decide

/-- C17 (amended): every field is coerced to a non-negative integer.  A field that,
after leading white space, does not start with a sign or a decimal digit (empty and
"abc" included) gives 0.  A field made of an optional minus sign, one or more decimal
digits (leading zeros allowed) whose value is at most `exactLimit` (2^53), and then
nothing or a fraction (a `.` and anything) gives the value of the digits: the
fraction is dropped and the sign stripped.  The value of a digit run is the decimal
number it writes: leading zeros followed by the decimal digits of `n` have value `n`.
So "-5" gives 5, "2.7" gives 2, "05" gives 5, "-007.5" gives 7 and "-2.7" gives 2. -/
theorem C17_field_coercion :
    (∀ v : String, 0 ≤ coerceField v) ∧
    (∀ v : String,
      (∀ c ∈ (v.toList.dropWhile isStrWhiteSpaceChar).head?,
        c ≠ '-' ∧ c ≠ '+' ∧ radixDigit 10 c = none) →
      coerceField v = 0) ∧
    (∀ (neg : Bool) (ds rest : List Char), ds ≠ [] → (∀ c ∈ ds, c.isDigit = true) →
      (rest = [] ∨ rest.head? = some '.') → (digitsValue 10 ds : Int) ≤ exactLimit →
      coerceField ((if neg then "-" else "") ++ String.mk ds ++ String.mk rest)
        = (digitsValue 10 ds : Int)) ∧
    (∀ z n : Nat, digitsValue 10 (List.replicate z '0' ++ Nat.toDigits 10 n) = n ∧
      (∀ c ∈ List.replicate z '0' ++ Nat.toDigits 10 n, c.isDigit = true) ∧
      List.replicate z '0' ++ Nat.toDigits 10 n ≠ []) ∧
    (coerceField "-5" = 5 ∧ coerceField "2.7" = 2 ∧ coerceField "" = 0 ∧
      coerceField "abc" = 0 ∧ coerceField "-2.7" = 2 ∧ coerceField "05" = 5 ∧
      coerceField "-007.5" = 7) := by
  refine ⟨fun v => abs_nonneg _, ?_, ?_, ?_, by decide⟩
  · intro v hv
    simp [coerceField, parseInt_not_a_number v hv]
  · intro neg ds rest hne hdig hrest _
    have hstr : (if neg then "-" else "") ++ String.mk ds ++ String.mk rest
        = String.mk ((if neg then ['-'] else []) ++ (ds ++ rest)) := by
      cases neg <;> simp [String.ext_iff]
    have hcond : ∀ c ∈ rest.head?, radixDigit 10 c = none ∧ c ≠ 'x' ∧ c ≠ 'X' := by
      intro c hc
      rcases hrest with h | h
      · rw [h] at hc
        simp at hc
      · rw [h] at hc
        have : c = '.' := by simpa using hc.symm
        rw [this]
        decide
    rw [hstr]
    simp only [coerceField,
      parseInt_digits neg ds rest hne (fun c hc => isDigit_digitChar c (hdig c hc)) hcond,
      Option.getD_some]
    cases neg <;> simp
  · intro z n
    refine ⟨by rw [digitsValue_zeros, digitsValue_toDigits], ?_, ?_⟩
    · intro c hc
      rcases List.mem_append.1 hc with hc | hc
      · rw [List.eq_of_mem_replicate hc]
        decide
      · exact toDigits_isDigit n c hc
    · intro hnil
      have hlen := congrArg List.length hnil
      have hpos := toDigits_length_pos n
      simp only [List.length_append, List.length_replicate, List.length_nil] at hlen
      omega

/-- C17 (amended) at concrete inputs, through the general statement: " x7" is not a
number, and a minus sign, the digits "007" and ".5" give 7. -/
theorem C17_field_coercion_witness :
    coerceField " x7" = 0 ∧
    (['0', '0', '7'] ≠ [] ∧ (∀ c ∈ ['0', '0', '7'], c.isDigit = true) ∧
      (digitsValue 10 ['0', '0', '7'] : Int) ≤ exactLimit) ∧
    coerceField ((if true then "-" else "") ++ String.mk ['0', '0', '7']
      ++ String.mk ['.', '5']) = 7 :=
  ⟨C17_field_coercion.2.1 " x7" (by decide),
    ⟨by decide, by decide, by decide⟩,
    C17_field_coercion.2.2.1 true ['0', '0', '7'] ['.', '5'] (by decide) (by decide)
      (Or.inr rfl) (by decide)⟩


/-! ## Pomodoro: adjusting while running -/

theorem adjust_value (s : State) (delta : Int) :
    (adjustPomodoroTime s delta).pomodoroRemainingTime
      = max 1 (min 60 (s.pomodoroRemainingTime / 60000 + delta)) * 60000 := by
  simp only [adjustPomodoroTime]
  norm_num
  ring

/-- C16 as stated fails: with the Pomodoro timer started at 0 in the freshly
initialised page (running, 1500000 ms remaining), `adjustPomodoroTime(1)` stores
1560000 ms. -/
theorem C16_adjust_applies_while_running :
    (startPomodoro (initApp initialState) 0).pomodoroIsRunning = true ∧
    (startPomodoro (initApp initialState) 0).pomodoroRemainingTime = 1500000 ∧
    (adjustPomodoroTime (startPomodoro (initApp initialState) 0) 1).pomodoroRemainingTime
      = 1560000 ∧
    adjustPomodoroTime (startPomodoro (initApp initialState) 0) 1
      ≠ startPomodoro (initApp initialState) 0 := by
  decide

/-- C16 (amended): `adjustPomodoroTime` has no check of the running flag.  While the
timer runs with its tick scheduled it stores the clamped whole-minute value as it
does when paused, and leaves the running flag, the scheduled tick and its anchor as
they are; the next firing of that tick computes the remaining time from the anchor,
so its result is the same as without the adjustment. -/
theorem C16_adjust_while_running (s : State) (delta : Int) (id : Nat) (e now : Int)
    (hr : s.pomodoroIsRunning = true)
    (hl : liveCallback s id = some (Callback.pomodoroTick e)) :
    (adjustPomodoroTime s delta).pomodoroRemainingTime
      = max 1 (min 60 (s.pomodoroRemainingTime / 60000 + delta)) * 60000 ∧
    (adjustPomodoroTime s delta).pomodoroIsRunning = true ∧
    liveCallback (adjustPomodoroTime s delta) id = some (Callback.pomodoroTick e) ∧
    fire (adjustPomodoroTime s delta) id now = fire s id now := by
  have hl2 : liveCallback (adjustPomodoroTime s delta) id = some (Callback.pomodoroTick e) := hl
  refine ⟨(adjust_value s delta), hr, hl2, ?_⟩
  simp only [fire, hl, hl2, runCallback]
  rfl

/-- C16 (amended) at a concrete input: Pomodoro started at 0, adjusted by +1 minute
while running (1560000 stored), then its tick at 100 stores 1499900 as it would
have without the adjustment. -/
theorem C16_adjust_while_running_witness :
    ((startPomodoro (initApp initialState) 0).pomodoroIsRunning = true ∧
      liveCallback (startPomodoro (initApp initialState) 0) 2
        = some (Callback.pomodoroTick 1500000)) ∧
    (adjustPomodoroTime (startPomodoro (initApp initialState) 0) 1).pomodoroRemainingTime
      = max 1 (min 60 ((1500000 : Int) / 60000 + 1)) * 60000 ∧
    fire (adjustPomodoroTime (startPomodoro (initApp initialState) 0) 1) 2 100
      = fire (startPomodoro (initApp initialState) 0) 2 100 :=
  ⟨⟨by decide, by decide⟩,
    (C16_adjust_while_running (startPomodoro (initApp initialState) 0) 1 2 1500000 100
      (by decide) (by decide)).1,
    (C16_adjust_while_running (startPomodoro (initApp initialState) 0) 1 2 1500000 100
      (by decide) (by decide)).2.2.2⟩

/-! ## Activating the mode that is already active -/

/-- C18 as stated fails: with the stopwatch mode active and the stopwatch running
(tick live under handle 2), `changeMode('stopwatch')` leaves it not running with no
interval live; the same happens to a running Pomodoro and a running countdown. -/
theorem C18_reactivation_pauses :
    ((run (initApp initialState)
        [(0, Event.changeMode "stopwatch"), (0, Event.startStopwatch)]).stopwatchIsRunning
        = true ∧
      (run (initApp initialState)
        [(0, Event.changeMode "stopwatch"), (0, Event.startStopwatch)]).intervals
        = [(2, Callback.stopwatchTick)] ∧
      (changeMode (run (initApp initialState)
        [(0, Event.changeMode "stopwatch"), (0, Event.startStopwatch)])
        "stopwatch").stopwatchIsRunning = false ∧
      (changeMode (run (initApp initialState)
        [(0, Event.changeMode "stopwatch"), (0, Event.startStopwatch)])
        "stopwatch").intervals = []) ∧
    ((run (initApp initialState)
        [(0, Event.changeMode "pomodoro"), (0, Event.startPomodoro)]).pomodoroIsRunning = true ∧
      (changeMode (run (initApp initialState)
        [(0, Event.changeMode "pomodoro"), (0, Event.startPomodoro)])
        "pomodoro").pomodoroIsRunning = false ∧
      (changeMode (run (initApp initialState)
        [(0, Event.changeMode "pomodoro"), (0, Event.startPomodoro)])
        "pomodoro").intervals = []) ∧
    ((run (initApp initialState)
        [(0, Event.changeMode "timer"), (0, Event.timerInput "0" "0" "5"), (0, Event.setTimer),
          (0, Event.startTimer)]).timerIsRunning = true ∧
      (changeMode (run (initApp initialState)
        [(0, Event.changeMode "timer"), (0, Event.timerInput "0" "0" "5"), (0, Event.setTimer),
          (0, Event.startTimer)]) "timer").timerIsRunning = false ∧
      (changeMode (run (initApp initialState)
        [(0, Event.changeMode "timer"), (0, Event.timerInput "0" "0" "5"), (0, Event.setTimer),
          (0, Event.startTimer)]) "timer").intervals = []) := by
  decide

/-- C18 (amended): `changeMode` pauses the running timer of the active mode whatever
mode is activated, the active mode itself included.  In a reachable state where mode
M (pomodoro, timer or stopwatch) is active and running, `changeMode(M)` leaves M
active but not running, with no tick of M scheduled and M's values unchanged. -/
theorem C18_reactivation_pauses_mode :
    (∀ s : State, Reachable s → s.currentMode = "pomodoro" → s.pomodoroIsRunning = true →
      (changeMode s "pomodoro").currentMode = "pomodoro" ∧
      (changeMode s "pomodoro").pomodoroIsRunning = false ∧
      (∀ (id : Nat) (e : Int),
        liveCallback (changeMode s "pomodoro") id ≠ some (Callback.pomodoroTick e)) ∧
      pomodoroValues (changeMode s "pomodoro") = pomodoroValues s) ∧
    (∀ s : State, Reachable s → s.currentMode = "timer" → s.timerIsRunning = true →
      (changeMode s "timer").currentMode = "timer" ∧
      (changeMode s "timer").timerIsRunning = false ∧
      (∀ (id : Nat) (e : Int),
        liveCallback (changeMode s "timer") id ≠ some (Callback.timerTick e)) ∧
      timerValues (changeMode s "timer") = timerValues s) ∧
    (∀ s : State, Reachable s → s.currentMode = "stopwatch" → s.stopwatchIsRunning = true →
      (changeMode s "stopwatch").currentMode = "stopwatch" ∧
      (changeMode s "stopwatch").stopwatchIsRunning = false ∧
      (∀ id : Nat, liveCallback (changeMode s "stopwatch") id ≠ some Callback.stopwatchTick) ∧
      stopwatchValues (changeMode s "stopwatch") = stopwatchValues s) := by
  refine ⟨?_, ?_, ?_⟩
  · intro s hs hmode _
    have hwt := WF_changeMode s "pomodoro" (WF_of_reachable s hs)
    have hflag := changeMode_pomodoro_flag s "pomodoro" (Or.inl hmode)
    exact ⟨(changeMode_values s _).1, hflag, no_pomodoroTick_of_idle _ hwt hflag,
      (changeMode_values s _).2.1⟩
  · intro s hs hmode _
    have hwt := WF_changeMode s "timer" (WF_of_reachable s hs)
    have hflag := changeMode_timer_flag s "timer" (Or.inl hmode)
    exact ⟨(changeMode_values s _).1, hflag, no_timerTick_of_idle _ hwt hflag,
      (changeMode_values s _).2.2.1⟩
  · intro s hs hmode _
    have hwt := WF_changeMode s "stopwatch" (WF_of_reachable s hs)
    have hflag := changeMode_stopwatch_flag s "stopwatch" (Or.inl hmode)
    exact ⟨(changeMode_values s _).1, hflag, no_stopwatchTick_of_idle _ hwt hflag,
      (changeMode_values s _).2.2.2⟩

/-- C18 (amended) at a concrete input: stopwatch active, started at 0 and ticked at
70, then `changeMode('stopwatch')`: paused at 70 ms. -/
theorem C18_reactivation_pauses_mode_witness :
    (Reachable (run (initApp initialState)
        [(0, Event.changeMode "stopwatch"), (0, Event.startStopwatch), (70, Event.tick 2)]) ∧
      (run (initApp initialState)
        [(0, Event.changeMode "stopwatch"), (0, Event.startStopwatch),
          (70, Event.tick 2)]).currentMode = "stopwatch" ∧
      (run (initApp initialState)
        [(0, Event.changeMode "stopwatch"), (0, Event.startStopwatch),
          (70, Event.tick 2)]).stopwatchIsRunning = true) ∧
    (changeMode (run (initApp initialState)
        [(0, Event.changeMode "stopwatch"), (0, Event.startStopwatch), (70, Event.tick 2)])
        "stopwatch").stopwatchIsRunning = false ∧
    stopwatchValues (changeMode (run (initApp initialState)
        [(0, Event.changeMode "stopwatch"), (0, Event.startStopwatch), (70, Event.tick 2)])
        "stopwatch") = (70, 0, []) :=
  ⟨⟨⟨_, rfl⟩, by decide, by decide⟩,
    (C18_reactivation_pauses_mode.2.2 _ ⟨_, rfl⟩ (by decide) (by decide)).2.1,
    (C18_reactivation_pauses_mode.2.2 _ ⟨_, rfl⟩ (by decide) (by decide)).2.2.2⟩


/-! ## Stopwatch: lap bookkeeping in every reachable state -/

theorem LapInv_of_same (s t : State) (h : LapInv s)
    (h1 : t.stopwatchLapTimes = s.stopwatchLapTimes)
    (h2 : t.stopwatchLapCount = s.stopwatchLapCount) : LapInv t := by
  unfold LapInv
  rw [h1, h2]
  exact h

theorem LapInv_of_values (s t : State) (h : LapInv s)
    (hv : stopwatchValues t = stopwatchValues s) : LapInv t := by
  simp only [stopwatchValues, Prod.mk.injEq] at hv
  exact LapInv_of_same s t h hv.2.2 hv.2.1

theorem LapInv_lap (s : State) (h : LapInv s) : LapInv (lapStopwatch s) := by
  cases hr : s.stopwatchIsRunning with
  | false =>
    rw [lap_idle s hr]
    exact h
  | true =>
    obtain ⟨l1, l2, _⟩ := lap_running s hr
    obtain ⟨i1, i2, i3⟩ := h
    unfold LapInv
    rw [l1, l2]
    refine ⟨?_, ?_, ?_⟩
    · simp only [List.map_cons, List.sum_cons, List.head?_cons, Option.map_some',
        Option.getD_some]
      rw [i1]
      omega
    · simp only [List.length_cons]
      omega
    · simp only [List.map_cons, List.length_cons]
      rw [List.range_succ_eq_map, List.map_cons, List.map_map, i3, i2]
      simp only [Nat.sub_zero, List.cons.injEq, true_and]
      apply List.map_congr_left
      intro i _
      simp only [Function.comp]
      omega

theorem LapInv_step (s : State) (now : Int) (ev : Event) (h : LapInv s) :
    LapInv (step s now ev) := by
  cases ev with
  | changeMode m => exact LapInv_of_values s _ h (changeMode_values s m).2.2.2
  | startPomodoro =>
    apply LapInv_of_same s _ h <;>
    · simp only [step, startPomodoro, setInterval]
      split <;> rfl
  | pausePomodoro =>
    apply LapInv_of_same s _ h <;>
    · simp only [step, pausePomodoro, clearInterval_eq]
      split <;> rfl
  | resetPomodoro => apply LapInv_of_same s _ h <;> simp [step, resetPomodoro, clearInterval_eq]
  | adjustPomodoroTime d => exact LapInv_of_same s _ h rfl rfl
  | timerInput a b c => exact LapInv_of_same s _ h rfl rfl
  | setTimer =>
    apply LapInv_of_same s _ h <;>
    · simp only [step, setTimer]
      split <;> rfl
  | startTimer =>
    apply LapInv_of_same s _ h <;>
    · simp only [step, startTimer, setInterval]
      split <;> rfl
  | pauseTimer =>
    apply LapInv_of_same s _ h <;>
    · simp only [step, pauseTimer, clearInterval_eq]
      split <;> rfl
  | resetTimer => apply LapInv_of_same s _ h <;> simp [step, resetTimer, clearInterval_eq]
  | startStopwatch =>
    apply LapInv_of_same s _ h <;>
    · simp only [step, startStopwatch, setInterval]
      split <;> rfl
  | pauseStopwatch =>
    apply LapInv_of_same s _ h <;>
    · simp only [step, pauseStopwatch, clearInterval_eq]
      split <;> rfl
  | resetStopwatch =>
    unfold LapInv
    simp [step, resetStopwatch, clearInterval_eq]
  | lapStopwatch => exact LapInv_lap s h
  | tick id =>
    obtain ⟨f1, f2, _⟩ := fire_stopwatch_laps s id now
    exact LapInv_of_same s _ h f1 f2

theorem LapInv_run (trace : List (Int × Event)) (s : State) (h : LapInv s) :
    LapInv (run s trace) := by
  induction trace generalizing s with
  | nil => exact h
  | cons p tr ih => exact ih _ (LapInv_step s p.1 p.2 h)

theorem LapInv_of_reachable (s : State) (h : Reachable s) : LapInv s := by
  obtain ⟨trace, rfl⟩ := h
  apply LapInv_run
  unfold LapInv
  decide

theorem renderLapTimes_numbers (s : State) :
    (renderLapTimes s).map (fun r => r.1)
      = (List.range s.stopwatchLapTimes.length).map
          (fun i : Nat => (s.stopwatchLapTimes.length : Int) - (i : Int)) := by
  unfold renderLapTimes
  rw [List.map_map]
  have : ((fun r : Int × String × String => r.1) ∘ fun p : Nat × LapEntry =>
      ((s.stopwatchLapTimes.length : Int) - (p.1 : Int),
        formatTime p.2.totalMs true, formatTime p.2.durationMs true))
      = (fun i : Nat => (s.stopwatchLapTimes.length : Int) - (i : Int)) ∘ Prod.fst := rfl
  rw [this, ← List.map_map, List.enum_map_fst]

/-- C19: in every reachable state the `durationMs` of all laps add up to the
`totalMs` of the newest lap (to 0 when there is no lap), the lap list is as long as
`stopwatchLapCount` says, and the lap numbers `renderLapTimes` shows
(`length - index`) are the stored `id`s, entry by entry. -/
theorem C19_lap_bookkeeping (s : State) (hs : Reachable s) :
    (s.stopwatchLapTimes.map LapEntry.durationMs).sum
      = (s.stopwatchLapTimes.head?.map LapEntry.totalMs).getD 0 ∧
    (s.stopwatchLapTimes = [] → (s.stopwatchLapTimes.map LapEntry.durationMs).sum = 0) ∧
    s.stopwatchLapTimes.length = s.stopwatchLapCount ∧
    (renderLapTimes s).map (fun r => r.1)
      = s.stopwatchLapTimes.map (fun lap => (lap.id : Int)) := by
  obtain ⟨i1, i2, i3⟩ := LapInv_of_reachable s hs
  refine ⟨i1, ?_, i2, ?_⟩
  · intro he
    rw [he]
    rfl
  · rw [renderLapTimes_numbers]
    have : s.stopwatchLapTimes.map (fun lap => (lap.id : Int))
        = (s.stopwatchLapTimes.map LapEntry.id).map (fun k : Nat => (k : Int)) := by
      rw [List.map_map]
      rfl
    rw [this, i3, List.map_map]
    apply List.map_congr_left
    intro i hi
    have hlt : i < s.stopwatchLapTimes.length := List.mem_range.1 hi
    simp only [Function.comp]
    omega

/-- C19 at a concrete reachable state: start at 0, laps at 150 and 400 while running:
durations 250 + 150 add up to 400, two laps, shown as LAP 2 and LAP 1. -/
theorem C19_lap_bookkeeping_witness :
    Reachable (run (initApp initialState)
      [(0, Event.startStopwatch), (150, Event.tick 2), (150, Event.lapStopwatch),
        (400, Event.tick 2), (400, Event.lapStopwatch)]) ∧
    ((run (initApp initialState)
      [(0, Event.startStopwatch), (150, Event.tick 2), (150, Event.lapStopwatch),
        (400, Event.tick 2), (400, Event.lapStopwatch)]).stopwatchLapTimes.map
        LapEntry.durationMs).sum = 400 ∧
    (renderLapTimes (run (initApp initialState)
      [(0, Event.startStopwatch), (150, Event.tick 2), (150, Event.lapStopwatch),
        (400, Event.tick 2), (400, Event.lapStopwatch)])).map (fun r => r.1) = [2, 1] :=
  ⟨⟨_, rfl⟩, (C19_lap_bookkeeping _ ⟨_, rfl⟩).1, (C19_lap_bookkeeping _ ⟨_, rfl⟩).2.2.2⟩


/-! ## Countdown: remaining time within the set duration -/

theorem TimerInv_frame (s t : State) (clock now : Int) (h : TimerInv s clock)
    (hc : clock ≤ now)
    (h1 : t.timerTotalDuration = s.timerTotalDuration)
    (h2 : t.timerRemainingTime = s.timerRemainingTime)
    (h3 : ∀ (id : Nat) (e : Int), (id, Callback.timerTick e) ∈ t.intervals →
      (id, Callback.timerTick e) ∈ s.intervals) : TimerInv t now := by
  obtain ⟨a, b, c⟩ := h
  refine ⟨by rw [h2]; exact a, by rw [h1, h2]; exact b, ?_⟩
  intro id e hm
  have := c id e (h3 id e hm)
  rw [h1]
  omega

theorem timerTick_mem_changeMode (s : State) (m : String) (id : Nat) (e : Int)
    (hm : (id, Callback.timerTick e) ∈ (changeMode s m).intervals) :
    (id, Callback.timerTick e) ∈ s.intervals := by
  rw [changeMode_eq] at hm
  have hsub : (id, Callback.timerTick e)
      ∈ (leaveStopwatch (leaveTimer (leavePomodoro (leaveClock s)))).intervals := by
    unfold enterMode at hm
    dsimp only at hm
    split at hm
    · simp only [startClock, setInterval, List.mem_cons, Prod.mk.injEq, reduceCtorEq,
        and_false, false_or] at hm
      exact hm
    · exact hm
  exact mem_leaveClock _ _ (mem_leavePomodoro _ _ (mem_leaveTimer _ _
    (mem_leaveStopwatch _ _ hsub)))

theorem no_timerTick_mem_of_idle (s : State) (h : WF s) (hr : s.timerIsRunning = false)
    (id : Nat) (e : Int) : (id, Callback.timerTick e) ∉ s.intervals := by
  intro hm
  have := (h.timer id e hm).2
  simp [hr] at this

theorem TimerInv_step (s : State) (clock now : Int) (ev : Event) (hwf : WF s)
    (h : TimerInv s clock) (hc : clock ≤ now)
    (hset : ev = Event.setTimer → s.timerIsRunning = false) :
    TimerInv (step s now ev) now := by
  cases ev with
  | changeMode m =>
    have hv := (changeMode_values s m).2.2.1
    simp only [timerValues, Prod.mk.injEq] at hv
    exact TimerInv_frame s _ clock now h hc hv.1 hv.2 (timerTick_mem_changeMode s m)
  | startPomodoro =>
    apply TimerInv_frame s _ clock now h hc
    · simp only [step, startPomodoro, setInterval]
      split <;> rfl
    · simp only [step, startPomodoro, setInterval]
      split <;> rfl
    · intro id e hm
      simp only [step, startPomodoro, setInterval] at hm
      split at hm
      · exact hm
      · simpa using hm
  | pausePomodoro =>
    apply TimerInv_frame s _ clock now h hc
    · simp only [step, pausePomodoro, clearInterval_eq]
      split <;> rfl
    · simp only [step, pausePomodoro, clearInterval_eq]
      split <;> rfl
    · intro id e hm
      exact mem_pausePomodoro s _ hm
  | resetPomodoro =>
    apply TimerInv_frame s _ clock now h hc
    · simp [step, resetPomodoro, clearInterval_eq]
    · simp [step, resetPomodoro, clearInterval_eq]
    · intro id e hm
      simp only [step, resetPomodoro, clearInterval_eq, List.mem_filter] at hm
      exact hm.1
  | adjustPomodoroTime d => exact TimerInv_frame s _ clock now h hc rfl rfl (fun _ _ hm => hm)
  | timerInput a b c => exact TimerInv_frame s _ clock now h hc rfl rfl (fun _ _ hm => hm)
  | setTimer =>
    have hr := hset rfl
    simp only [step, setTimer]
    split
    · exact TimerInv_frame s _ clock now h hc rfl rfl (fun _ _ hm => hm)
    · rename_i hnz
      have h1 : 0 ≤ coerceField s.timerHours := abs_nonneg _
      have h2 : 0 ≤ coerceField s.timerMinutes := abs_nonneg _
      have h3 : 0 ≤ coerceField s.timerSeconds := abs_nonneg _
      refine ⟨?_, le_refl _, ?_⟩
      · show 0 ≤ (coerceField s.timerHours * 3600 + coerceField s.timerMinutes * 60
          + coerceField s.timerSeconds) * 1000
        omega
      · intro id e hm
        exact absurd hm (no_timerTick_mem_of_idle s hwf hr id e)
  | startTimer =>
    simp only [step, startTimer]
    split
    · exact TimerInv_frame s _ clock now h hc rfl rfl (fun _ _ hm => hm)
    · rename_i hn
      have hr : s.timerIsRunning = false := by
        cases hb : s.timerIsRunning with
        | false => rfl
        | true => exact absurd (Or.inl hb) hn
      obtain ⟨a, b, _⟩ := h
      refine ⟨a, b, ?_⟩
      intro id e hm
      simp only [setInterval, List.mem_cons, Prod.mk.injEq, Callback.timerTick.injEq] at hm
      rcases hm with hm | hm
      · show e - now ≤ s.timerTotalDuration
        rw [hm.2]
        omega
      · exact absurd hm (no_timerTick_mem_of_idle s hwf hr id e)
  | pauseTimer =>
    apply TimerInv_frame s _ clock now h hc
    · simp only [step, pauseTimer, clearInterval_eq]
      split <;> rfl
    · simp only [step, pauseTimer, clearInterval_eq]
      split <;> rfl
    · intro id e hm
      exact mem_pauseTimer s _ hm
  | resetTimer =>
    refine ⟨by simp [step, resetTimer, clearInterval_eq],
      by simp [step, resetTimer, clearInterval_eq], ?_⟩
    intro id e hm
    simp only [step, resetTimer, clearInterval_eq, List.mem_filter] at hm
    have := (hwf.timer id e hm.1).1
    simp [this] at hm
  | startStopwatch =>
    apply TimerInv_frame s _ clock now h hc
    · simp only [step, startStopwatch, setInterval]
      split <;> rfl
    · simp only [step, startStopwatch, setInterval]
      split <;> rfl
    · intro id e hm
      simp only [step, startStopwatch, setInterval] at hm
      split at hm
      · exact hm
      · simpa using hm
  | pauseStopwatch =>
    apply TimerInv_frame s _ clock now h hc
    · simp only [step, pauseStopwatch, clearInterval_eq]
      split <;> rfl
    · simp only [step, pauseStopwatch, clearInterval_eq]
      split <;> rfl
    · intro id e hm
      exact mem_pauseStopwatch s _ hm
  | resetStopwatch =>
    apply TimerInv_frame s _ clock now h hc
    · simp [step, resetStopwatch, clearInterval_eq]
    · simp [step, resetStopwatch, clearInterval_eq]
    · intro id e hm
      simp only [step, resetStopwatch, clearInterval_eq, List.mem_filter] at hm
      exact hm.1
  | lapStopwatch =>
    apply TimerInv_frame s _ clock now h hc
    · simp only [step, lapStopwatch]
      split <;> rfl
    · simp only [step, lapStopwatch]
      split <;> rfl
    · intro id e hm
      simp only [step, lapStopwatch] at hm
      split at hm <;> exact hm
  | tick id =>
    simp only [step, fire]
    split
    · exact TimerInv_frame s _ clock now h hc rfl rfl (fun _ _ hm => hm)
    · rename_i cb hcb
      cases cb with
      | updateClock => exact TimerInv_frame s _ clock now h hc rfl rfl (fun _ _ hm => hm)
      | pomodoroTick e =>
        apply TimerInv_frame s _ clock now h hc
        · simp only [runCallback, pomodoroTick, handlePomodoroCompletion, startPomodoro]
          repeat' split
          all_goals simp [clearInterval_eq, setInterval]
        · simp only [runCallback, pomodoroTick, handlePomodoroCompletion, startPomodoro]
          repeat' split
          all_goals simp [clearInterval_eq, setInterval]
        · intro id2 e2 hm
          simp only [runCallback, pomodoroTick, handlePomodoroCompletion, startPomodoro] at hm
          repeat' split at hm
          all_goals simp [clearInterval_eq, setInterval, List.mem_filter] at hm
          all_goals first | exact hm.1 | exact hm
      | timerTick e =>
        obtain ⟨a, b, c⟩ := h
        have hbound := c id e (mem_of_lookup _ _ _ hcb)
        by_cases hle : e ≤ now
        · have hexp := fire_timer_expired s id e now hcb hle
          rw [clearInterval_eq] at hexp
          have hfire : runCallback (Callback.timerTick e) s now = fire s id now := by
            simp [fire, hcb]
          rw [hfire, hexp]
          refine ⟨le_refl _, ?_, ?_⟩
          · show 0 ≤ s.timerTotalDuration
            omega
          · intro id2 e2 hm
            simp only [List.mem_filter] at hm
            have := c id2 e2 hm.1
            show e2 - now ≤ s.timerTotalDuration
            omega
        · have hrun := fire_timer_running s id e now hcb (by omega)
          have hfire : runCallback (Callback.timerTick e) s now = fire s id now := by
            simp [fire, hcb]
          rw [hfire, hrun]
          refine ⟨?_, ?_, ?_⟩
          · show 0 ≤ e - now
            omega
          · show e - now ≤ s.timerTotalDuration
            omega
          · intro id2 e2 hm
            have := c id2 e2 hm
            show e2 - now ≤ s.timerTotalDuration
            omega
      | stopwatchTick => exact TimerInv_frame s _ clock now h hc rfl rfl (fun _ _ hm => hm)

theorem SetWhileIdle_left (a b : List (Int × Event)) (s : State) (clock : Int)
    (h : SetWhileIdle s clock (a ++ b)) : SetWhileIdle s clock a := by
  induction a generalizing s clock with
  | nil => trivial
  | cons p tl ih =>
    obtain ⟨h1, h2, h3⟩ := h
    exact ⟨h1, h2, ih _ _ h3⟩

theorem TimerInv_run (trace : List (Int × Event)) (s : State) (clock : Int) (hwf : WF s)
    (h : TimerInv s clock) (ht : SetWhileIdle s clock trace) :
    ∃ c : Int, TimerInv (run s trace) c := by
  induction trace generalizing s clock with
  | nil => exact ⟨clock, h⟩
  | cons p tl ih =>
    obtain ⟨h1, h2, h3⟩ := ht
    exact ih (step s p.1 p.2) p.1 (WF_step s p.1 p.2 hwf)
      (TimerInv_step s clock p.1 p.2 hwf h h1 h2) h3

/-- C20 as stated fails: a one-minute countdown is set and started at clock reading
0, then, while it runs, five seconds are typed in and `setTimer` is clicked (total
and remaining become 5000); the tick at 100 stores 60000 - 100 = 59900, more than the
total.  The clock readings of the trace never go back. -/
theorem C20_set_while_running_exceeds_total :
    (([(0, Event.timerInput "0" "1" "0"), (0, Event.setTimer), (0, Event.startTimer),
        (0, Event.timerInput "0" "0" "5"), (0, Event.setTimer), (100, Event.tick 2)]
        : List (Int × Event)).map Prod.fst) = [0, 0, 0, 0, 0, 100] ∧
    (run (initApp initialState)
      [(0, Event.timerInput "0" "1" "0"), (0, Event.setTimer), (0, Event.startTimer),
        (0, Event.timerInput "0" "0" "5"), (0, Event.setTimer),
        (100, Event.tick 2)]).timerRemainingTime = 59900 ∧
    (run (initApp initialState)
      [(0, Event.timerInput "0" "1" "0"), (0, Event.setTimer), (0, Event.startTimer),
        (0, Event.timerInput "0" "0" "5"), (0, Event.setTimer),
        (100, Event.tick 2)]).timerTotalDuration = 5000 ∧
    ¬ ((run (initApp initialState)
      [(0, Event.timerInput "0" "1" "0"), (0, Event.setTimer), (0, Event.startTimer),
        (0, Event.timerInput "0" "0" "5"), (0, Event.setTimer),
        (100, Event.tick 2)]).timerRemainingTime
      ≤ (run (initApp initialState)
      [(0, Event.timerInput "0" "1" "0"), (0, Event.setTimer), (0, Event.startTimer),
        (0, Event.timerInput "0" "0" "5"), (0, Event.setTimer),
        (100, Event.tick 2)]).timerTotalDuration) := by
  decide

/-- C20 (amended): from the initialised page, along any trace of events whose clock
readings never go back and in which `setTimer` is only clicked while the countdown
is not running, `0 ≤ timerRemainingTime ≤ timerTotalDuration` holds after every
event (that is, after every initial part `pre` of the trace). -/
theorem C20_remaining_within_total (clock : Int) (pre post : List (Int × Event))
    (h : SetWhileIdle (initApp initialState) clock (pre ++ post)) :
    0 ≤ (run (initApp initialState) pre).timerRemainingTime ∧
    (run (initApp initialState) pre).timerRemainingTime
      ≤ (run (initApp initialState) pre).timerTotalDuration := by
  have h0 : TimerInv (initApp initialState) clock := by
    refine ⟨by decide, by decide, ?_⟩
    intro id e hm
    have hi : (initApp initialState).intervals = [(1, Callback.updateClock)] := by decide
    rw [hi] at hm
    simp at hm
  obtain ⟨c, hc⟩ := TimerInv_run pre _ clock (WF_changeMode _ _ WF_initialState) h0
    (SetWhileIdle_left pre post _ clock h)
  exact ⟨hc.1, hc.2.1⟩

/-- C20 (amended) at a concrete trace: 5 s set and started at 10, ticks at 200 and
5200 (expiry), a new 2 s duration set at 6000 while idle and started at 6000. -/
theorem C20_remaining_within_total_witness :
    SetWhileIdle (initApp initialState) 0
      ([(0, Event.timerInput "0" "0" "5"), (0, Event.setTimer), (10, Event.startTimer),
        (200, Event.tick 2), (5200, Event.tick 2), (6000, Event.timerInput "0" "0" "2"),
        (6000, Event.setTimer)] ++ [(6000, Event.startTimer)]) ∧
    0 ≤ (run (initApp initialState)
      [(0, Event.timerInput "0" "0" "5"), (0, Event.setTimer), (10, Event.startTimer),
        (200, Event.tick 2), (5200, Event.tick 2), (6000, Event.timerInput "0" "0" "2"),
        (6000, Event.setTimer)]).timerRemainingTime ∧
    (run (initApp initialState)
      [(0, Event.timerInput "0" "0" "5"), (0, Event.setTimer), (10, Event.startTimer),
        (200, Event.tick 2), (5200, Event.tick 2), (6000, Event.timerInput "0" "0" "2"),
        (6000, Event.setTimer)]).timerRemainingTime
      ≤ (run (initApp initialState)
      [(0, Event.timerInput "0" "0" "5"), (0, Event.setTimer), (10, Event.startTimer),
        (200, Event.tick 2), (5200, Event.tick 2), (6000, Event.timerInput "0" "0" "2"),
        (6000, Event.setTimer)]).timerTotalDuration :=
  have hidle : SetWhileIdle (initApp initialState) 0
      ([(0, Event.timerInput "0" "0" "5"), (0, Event.setTimer), (10, Event.startTimer),
        (200, Event.tick 2), (5200, Event.tick 2), (6000, Event.timerInput "0" "0" "2"),
        (6000, Event.setTimer)] ++ [(6000, Event.startTimer)]) := by
    simp only [List.cons_append, List.nil_append, SetWhileIdle]
    decide
  ⟨hidle, C20_remaining_within_total 0 _ _ hidle⟩


/-! ## `formatTime` with sub-seconds determines the duration -/

theorem digitsValue_pad (k : Nat) (len : Nat) :
    digitsValue 10 (pad (k : Int) len).toList = k := by
  rw [pad_toList, digitsValue_zeros, digitsValue_toDigits]

theorem formatTime_toList (n : Nat) :
    (formatTime (n : Int) true).toList
      = (pad ((n / 3600000 : Nat) : Int) 2).toList ++ [':']
          ++ (pad ((n / 60000 % 60 : Nat) : Int) 2).toList ++ [':']
          ++ (pad ((n / 1000 % 60 : Nat) : Int) 2).toList ++ ['.']
          ++ (pad ((n % 1000 : Nat) : Int) 3).toList := by
  rw [(formatTime_nat n).1]
  simp only [String.toList, String.data_append]

theorem pad_two_toList_length (k : Nat) (h : k < 100) : (pad (k : Int) 2).toList.length = 2 := by
  rw [pad_two k h]
  rfl

theorem pad_three_toList_length (k : Nat) (h : k < 1000) :
    (pad (k : Int) 3).toList.length = 3 := by
  rw [pad_three k h]
  rfl

/-- The four fields can be read back from the rendered string. -/
theorem formatTime_fields_eq (a b : Nat)
    (h : formatTime (a : Int) true = formatTime (b : Int) true) :
    a / 3600000 = b / 3600000 ∧ a / 60000 % 60 = b / 60000 % 60 ∧
    a / 1000 % 60 = b / 1000 % 60 ∧ a % 1000 = b % 1000 := by
  have hl : (formatTime (a : Int) true).toList = (formatTime (b : Int) true).toList := by
    rw [h]
  rw [formatTime_toList a, formatTime_toList b] at hl
  have lm : ∀ n : Nat, (pad ((n % 1000 : Nat) : Int) 3).toList.length = 3 :=
    fun n => pad_three_toList_length _ (by omega)
  have lS : ∀ n : Nat, (pad ((n / 1000 % 60 : Nat) : Int) 2).toList.length = 2 :=
    fun n => pad_two_toList_length _ (by omega)
  have lM : ∀ n : Nat, (pad ((n / 60000 % 60 : Nat) : Int) 2).toList.length = 2 :=
    fun n => pad_two_toList_length _ (by omega)
  obtain ⟨h1, hm⟩ := List.append_inj' hl (by rw [lm a, lm b])
  obtain ⟨h2, _⟩ := List.append_inj' h1 rfl
  obtain ⟨h3, hS⟩ := List.append_inj' h2 (by rw [lS a, lS b])
  obtain ⟨h4, _⟩ := List.append_inj' h3 rfl
  obtain ⟨h5, hM⟩ := List.append_inj' h4 (by rw [lM a, lM b])
  obtain ⟨hH, _⟩ := List.append_inj' h5 rfl
  have eH := congrArg (digitsValue 10) hH
  have eM := congrArg (digitsValue 10) hM
  have eS := congrArg (digitsValue 10) hS
  have em := congrArg (digitsValue 10) hm
  rw [digitsValue_pad, digitsValue_pad] at eH eM eS em
  exact ⟨eH, eM, eS, em⟩

/-- C21: for non-negative integers `a` and `b`, `formatTime(a, true)` and
`formatTime(b, true)` are the same string only when `a = b`, durations of 100 hours
and more included. -/
theorem C21_formatTime_injective (a b : Int) (ha : 0 ≤ a) (hb : 0 ≤ b)
    (h : formatTime a true = formatTime b true) : a = b := by
  obtain ⟨n, rfl⟩ := Int.eq_ofNat_of_zero_le ha
  obtain ⟨m, rfl⟩ := Int.eq_ofNat_of_zero_le hb
  obtain ⟨e1, e2, e3, e4⟩ := formatTime_fields_eq n m h
  have : n = m := by omega
  rw [this]

/-- C21 at concrete inputs: 3723004 written in two ways renders the same and is the
same number; 359999999 and 360000000 (just below and at 100 hours) are different
numbers and render differently. -/
theorem C21_formatTime_injective_witness :
    ((0 : Int) ≤ 3723004 ∧ (0 : Int) ≤ 3600000 + 123004 ∧
      formatTime 3723004 true = formatTime (3600000 + 123004) true ∧
      (3723004 : Int) = 3600000 + 123004) ∧
    formatTime 359999999 true ≠ formatTime 360000000 true :=
  ⟨⟨by decide, by decide, by decide,
      C21_formatTime_injective 3723004 (3600000 + 123004) (by decide) (by decide) (by decide)⟩,
    mt (C21_formatTime_injective 359999999 360000000 (by decide) (by decide)) (by decide)⟩

end TimeHub
